import Mathlib

/-!
# Snowman bootstrapper (`snow/engine/snowman/bootstrap/bootstrapper.go`)

A shallow embedding of the bootstrapping engine.  The engine is single
threaded (every entry point runs under the chain lock), so each Go method
becomes a function from the engine state to the engine state after the call
together with the returned `error`.

Collaborators of the engine (VM, database, validator registry, startup
tracker, subnet tracker, polls, interval tree, the storage helpers of the
package) are not part of the translated file.  Their state is kept in one
abstract host value and their behaviour is a field of `Config`; every theorem
that quantifies over `Config` therefore holds for every behaviour of the
collaborators.  Calls that only emit something (sender, timer, callbacks) are
recorded in the `effects` log of the engine state.

Logging, metrics and the wall clock (`startTime`) are not modelled.

The eviction cache of `x/merkledb/cache.go` is embedded in the namespace
`Merkledb`, after the definitions of the engine.
-/

namespace Bootstrap

/-- Identity of a peer (`ids.NodeID`). -/
abbrev NodeID := Nat

/-- Identifier of a block, chain or subnet (`ids.ID`). -/
abbrev ID := Nat

/-- Raw bytes of a block. -/
abbrev Bytes := List Nat

/-- Key of the request registry (`common.Request`). -/
structure Request where
  nodeID : NodeID
  requestID : Nat
deriving DecidableEq, Repr

/-- The part of `snowman.Block` the engine reads. -/
structure Block where
  id : ID
  parent : ID
  height : Nat
  bytes : Bytes
deriving DecidableEq, Repr

/-- Lifecycle states of a chain (`snow.State`). -/
inductive State where
  | initializing
  | stateSyncing
  | bootstrapping
  | normalOp
deriving DecidableEq, Repr

/-- Consensus engine kinds (`p2p.EngineType`). -/
inductive EngineType where
  | unspecified
  | avalanche
  | snowman
deriving DecidableEq, Repr

/-- Value stored in `Ctx.State` (`snow.EngineState`). -/
structure EngineState where
  engineType : EngineType
  state : State
deriving DecidableEq, Repr

/-- Context text that `fmt.Errorf("...: %w", err)` puts around a collaborator error. -/
inductive Wrap where
  | notifyVM
  | lastAcceptedID
  | lastAcceptedBlock
  | initTree
  | initMissing
deriving DecidableEq, Repr

/-- Errors the engine returns.  `unexpectedTimeout` is the package-private
sentinel `errUnexpectedTimeout`; `noValidators` is the error built in `fetch`;
`host` is an error value handed over by a collaborator and `wrapped` is such
a value wrapped with context. -/
inductive Err where
  | unexpectedTimeout
  | noValidators (blkID : ID)
  | host (code : Nat)
  | wrapped (context : Wrap) (code : Nat)
deriving DecidableEq, Repr

/-- Outbound calls that return nothing to the engine, in the order they were made. -/
inductive Effect where
  | sendGetAcceptedFrontier (peers : List NodeID) (requestID : Nat)
  | sendGetAccepted (peers : List NodeID) (requestID : Nat) (containerIDs : List ID)
  | sendGetAncestors (nodeID : NodeID) (requestID : Nat) (containerID : ID)
  | registerTimeout (duration : Nat)
  | onFinished (lastReqID : Nat)
  | bootstrappedCallback
  | trackerBootstrapped (chainID : ID)
deriving DecidableEq, Repr

/-- Delay before bootstrapping is retried, `10 * time.Second` in nanoseconds. -/
def bootstrappingDelay : Nat := 10 * 1000000000

/-- Cap on concurrently outstanding broadcast requests. -/
def maxOutstandingBroadcastRequests : Nat := 50

/-- Go's `math.MaxInt` on a 64-bit platform. -/
def maxInt : Nat := 2 ^ 63 - 1

/-! ## Sets (`utils/set`) -/

/-- Adds an element to a set kept as a duplicate-free list (`Set.Add`). -/
def setAdd {α : Type} [DecidableEq α] (s : List α) (x : α) : List α :=
  if x ∈ s then s else s ++ [x]

/-- Adds several elements (`Set.Add(elts...)`). -/
def setAddAll {α : Type} [DecidableEq α] (s : List α) (xs : List α) : List α :=
  xs.foldl setAdd s

/-- Removes an element (`Set.Remove`). -/
def setRemove {α : Type} [DecidableEq α] (s : List α) (x : α) : List α :=
  s.filter (fun y => y ≠ x)

/-! ## Request registry (`utils/bimap`) -/

/-- Modelled from the spec: `utils/bimap` is not among the sources.  The spec
calls the registry a bidirectional mapping `(NodeID, requestID) <-> BlockID`
with insert, delete-by-request and exists-by-value, kept as two maps in lock
step.  It is stored as the list of its entries. -/
structure BiMap where
  entries : List (Request × ID)
deriving DecidableEq, Repr

namespace BiMap

/-- The empty registry (`bimap.New`). -/
def empty : BiMap := ⟨[]⟩

/-- Exists-by-value (`HasValue`). -/
def hasValue (m : BiMap) (v : ID) : Bool :=
  m.entries.any (fun e => e.2 == v)

/-- Exists-by-key (`HasKey`). -/
def hasKey (m : BiMap) (k : Request) : Bool :=
  m.entries.any (fun e => e.1 == k)

/-- The value stored under a key (`GetValue`). -/
def getValue (m : BiMap) (k : Request) : Option ID :=
  (m.entries.find? (fun e => e.1 == k)).map (fun e => e.2)

/-- Insert (`Put`): an entry that shares the key or the value is evicted, so
the mapping stays one-to-one. -/
def put (m : BiMap) (k : Request) (v : ID) : BiMap :=
  ⟨m.entries.filter (fun e => e.1 != k && e.2 != v) ++ [(k, v)]⟩

/-- Delete-by-request (`DeleteKey`): the removed value, if any, and the rest. -/
def deleteKey (m : BiMap) (k : Request) : Option ID × BiMap :=
  (m.getValue k, ⟨m.entries.filter (fun e => e.1 != k)⟩)

end BiMap

/-! ## Engine state and collaborators -/

/-- What the storage helper `process` leaves behind: the host (database batch
included), the tree and the missing set after its in-place updates, and its
three return values. -/
structure ProcessResult (H T : Type) where
  host : H
  tree : T
  missingBlockIDs : List ID
  missingBlockID : ID
  foundNewMissingID : Bool
  err : Option Nat

/-- What the storage helper `execute` leaves behind. -/
structure ExecuteResult (H T : Type) where
  host : H
  tree : T
  err : Option Nat

/-- The configuration of the engine (`Config`) together with the behaviour of
everything the engine calls that is not in the translated file.  `H` is the
state of the collaborators, `P` the state of a poll, `T` the interval tree.
A function that returns an `H` may change the collaborators; one that does not
only reads them. -/
structure Config (H P T : Type) where
  /-- Field `SampleK`. -/
  sampleK : Int
  /-- Field `AncestorsMaxContainersReceived`. -/
  ancestorsMaxContainersReceived : Int
  /-- Field `Ctx.ChainID`. -/
  chainID : ID
  /-- Field `Ctx.SubnetID`. -/
  subnetID : ID
  /-- Method `Ctx.State.Set`. -/
  ctxStateSet : H → EngineState → H
  /-- Method `Ctx.State.Get`. -/
  ctxStateGet : H → EngineState
  /-- Method `Halted` of the embedded `common.Halter`, which the host sets. -/
  halted : H → Bool
  /-- Method `VM.SetState`. -/
  vmSetState : H → State → H × Option Nat
  /-- Method `VM.LastAccepted`. -/
  vmLastAccepted : H → Except Nat ID
  /-- Method `VM.GetBlock`. -/
  vmGetBlock : H → ID → Except Nat Block
  /-- Method `VM.Connected`. -/
  vmConnected : H → NodeID → Nat → H × Option Nat
  /-- Method `VM.Disconnected`. -/
  vmDisconnected : H → NodeID → H × Option Nat
  /-- Function `block.BatchedParseBlock` on the VM. -/
  batchedParseBlock : H → List Bytes → H × Except Nat (List Block)
  /-- Method `StartupTracker.Connected`. -/
  startupConnected : H → NodeID → Nat → H × Option Nat
  /-- Method `StartupTracker.Disconnected`. -/
  startupDisconnected : H → NodeID → H × Option Nat
  /-- Method `StartupTracker.ShouldStart`. -/
  shouldStart : H → Bool
  /-- Method `StartupTracker.PreferredPeers`. -/
  preferredPeers : H → List NodeID
  /-- Method `Beacons.GetValidator`, reduced to its `ok` result. -/
  getValidator : H → ID → NodeID → Bool
  /-- Method `Beacons.GetMap`, reduced to the weight of every validator. -/
  beaconsGetMap : H → ID → List (NodeID × Nat)
  /-- Function `bootstrapper.Sample`. -/
  sample : H → List (NodeID × Nat) → Int → Except Nat (List NodeID)
  /-- Value `bootstrapper.Noop`. -/
  noop : P
  /-- Function `bootstrapper.NewMinority`. -/
  newMinority : List NodeID → Nat → P
  /-- Function `bootstrapper.NewMajority`. -/
  newMajority : List (NodeID × Nat) → Nat → P
  /-- Method `Poll.GetPeers`, which marks the returned peers as queried. -/
  pollGetPeers : P → List NodeID × P
  /-- Method `Poll.RecordOpinion`; a nil set is passed as the empty list. -/
  pollRecordOpinion : P → NodeID → List ID → P × Option Nat
  /-- Method `Poll.Result`. -/
  pollResult : P → List ID × Bool
  /-- Value of the `tree` field before `Start` assigns it. -/
  nilTree : T
  /-- Function `interval.NewTree`. -/
  newTree : H → T × Option Nat
  /-- Method `Tree.Len`. -/
  treeLen : T → Nat
  /-- Function `getMissingBlockIDs` of the package. -/
  getMissingBlockIDs : H → T → Nat → List ID × Option Nat
  /-- Function `process` of the package storage helpers, on a fresh batch. -/
  storageProcess : H → T → List ID → Nat → Block → Option (List (ID × Block)) → ProcessResult H T
  /-- Method `batch.Write` on the batch handed to `storageProcess`. -/
  batchWrite : H → H × Option Nat
  /-- Function `execute` of the package storage helpers. -/
  storageExecute : H → T → Nat → ExecuteResult H T
  /-- Method `BootstrapTracker.Bootstrapped`. -/
  trackerBootstrapped : H → ID → H
  /-- Method `BootstrapTracker.IsBootstrapped`. -/
  isBootstrapped : H → Bool
  /-- Field `Bootstrapped`, nil when absent. -/
  bootstrapped : Option (H → H)
  /-- Callback `onFinished` given to `New`. -/
  onFinished : H → Nat → H × Option Nat
  /-- Choice made by `Set.Peek`: Go ranges over a map in no fixed order. -/
  pick : List NodeID → Nat
  /-- Order in which a `range` over the missing set visits it. -/
  iterOrder : List ID → List ID

/-- The engine (`Bootstrapper`), with the collaborators it drives (`host`) and
the log of its outbound calls (`effects`). -/
structure Bootstrapper (H P T : Type) where
  requestID : Nat
  started : Bool
  restarted : Bool
  minority : P
  majority : P
  tipHeight : Nat
  startingHeight : Nat
  initiallyFetched : Nat
  outstandingRequests : BiMap
  fetchFrom : List NodeID
  executedStateTransitions : Nat
  awaitingTimeout : Bool
  tree : T
  missingBlockIDs : List ID
  bootstrappedOnce : Bool
  host : H
  effects : List Effect
deriving DecidableEq

/-- Result of a call that always returns: the state it leaves and its `error`. -/
abbrev Res (H P T : Type) := Bootstrapper H P T × Option Err

section Engine

variable {H P T : Type}

/-- Constructor `New`. -/
def New (cfg : Config H P T) (host : H) : Bootstrapper H P T :=
  { requestID := 0
    started := false
    restarted := false
    minority := cfg.noop
    majority := cfg.noop
    tipHeight := 0
    startingHeight := 0
    initiallyFetched := 0
    outstandingRequests := BiMap.empty
    fetchFrom := []
    executedStateTransitions := maxInt
    awaitingTimeout := false
    tree := cfg.nilTree
    missingBlockIDs := []
    bootstrappedOnce := false
    host := host
    effects := [] }

/-- Method `Set.Peek` on the fetch pool: some member, none when it is empty. -/
def peek (cfg : Config H P T) (s : List NodeID) : Option NodeID :=
  s.get? (cfg.pick s % s.length)

/-- The order of a `range` over the missing set: any permutation of it. -/
def rangeOrder (cfg : Config H P T) (s : List ID) : List ID :=
  if (cfg.iterOrder s).isPerm s then cfg.iterOrder s else s

/-- Method `Tree.Len`, a `uint64`. -/
def treeLen (cfg : Config H P T) (t : T) : Nat :=
  cfg.treeLen t % 2 ^ 64

/-- Method `getLastAcceptedHeight`. -/
def getLastAcceptedHeight (cfg : Config H P T) (host : H) : Except Err Nat :=
  match cfg.vmLastAccepted host with
  | .error e => .error (.wrapped .lastAcceptedID e)
  | .ok lastAcceptedID =>
    match cfg.vmGetBlock host lastAcceptedID with
    | .error e => .error (.wrapped .lastAcceptedBlock e)
    | .ok lastAccepted => .ok lastAccepted.height

/-- Method `markUnavailable`. -/
def markUnavailable (cfg : Config H P T) (b : Bootstrapper H P T) (nodeID : NodeID) :
    Bootstrapper H P T :=
  let b := { b with fetchFrom := setRemove b.fetchFrom nodeID }
  if b.fetchFrom.length = 0 then
    { b with fetchFrom := cfg.preferredPeers b.host }
  else
    b

/-- Method `fetch`. -/
def fetch (cfg : Config H P T) (b : Bootstrapper H P T) (blkID : ID) : Res H P T :=
  if b.outstandingRequests.hasValue blkID then
    (b, none)
  else
    match peek cfg b.fetchFrom with
    | none => (b, some (.noValidators blkID))
    | some validatorID =>
      let b := markUnavailable cfg b validatorID
      let b := { b with requestID := (b.requestID + 1) % 2 ^ 32 }
      let b := { b with
        outstandingRequests := b.outstandingRequests.put ⟨validatorID, b.requestID⟩ blkID }
      ({ b with effects := b.effects ++ [.sendGetAncestors validatorID b.requestID blkID] }, none)

/-- Call of the `onFinished` callback with the current request ID. -/
def onFinished (cfg : Config H P T) (b : Bootstrapper H P T) : Res H P T :=
  let r := cfg.onFinished b.host b.requestID
  ({ b with host := r.1, effects := b.effects ++ [.onFinished b.requestID] }, r.2.map .host)

/-- Method `process` of the engine. -/
def process (cfg : Config H P T) (b : Bootstrapper H P T) (blk : Block)
    (ancestors : Option (List (ID × Block))) : Res H P T :=
  match getLastAcceptedHeight cfg b.host with
  | .error e => (b, some e)
  | .ok lastAcceptedHeight =>
    let r := cfg.storageProcess b.host b.tree b.missingBlockIDs lastAcceptedHeight blk ancestors
    let b := { b with host := r.host, tree := r.tree, missingBlockIDs := r.missingBlockIDs }
    match r.err with
    | some e => (b, some (.host e))
    | none =>
      let b := { b with tipHeight := max b.tipHeight blk.height }
      let w := cfg.batchWrite b.host
      let b := { b with host := w.1 }
      match w.2 with
      | some e => (b, some (.host e))
      | none =>
        if !r.foundNewMissingID then
          (b, none)
        else
          let b := { b with missingBlockIDs := setAdd b.missingBlockIDs r.missingBlockID }
          fetch cfg b r.missingBlockID

/-- The statement `if b.Bootstrapped != nil { b.bootstrappedOnce.Do(b.Bootstrapped) }`
of `tryStartExecuting`: the callback runs unless it is nil or has run before. -/
def notifyBootstrapped (cfg : Config H P T) (b : Bootstrapper H P T) : Bootstrapper H P T :=
  match cfg.bootstrapped with
  | some callback =>
    if b.bootstrappedOnce then b
    else { b with
      bootstrappedOnce := true
      host := callback b.host
      effects := b.effects ++ [Effect.bootstrappedCallback] }
  | none => b

/-- Decision of `tryStartExecuting` to run another round: the round executed
something, and fewer than half as many blocks as the round before. -/
def halvingRestart (numToExecute previouslyExecuted : Nat) : Bool :=
  decide (numToExecute > 0) && decide (numToExecute < previouslyExecuted / 2)

/-- Method `restartBootstrapping`; `startBootstrapping` is the method it calls. -/
def restartBootstrappingWith (startBootstrapping : Bootstrapper H P T → Option (Res H P T))
    (b : Bootstrapper H P T) : Option (Res H P T) :=
  let b := { b with restarted := true }
  let b := { b with outstandingRequests := BiMap.empty }
  startBootstrapping b

/-- Method `tryStartExecuting`; `startBootstrapping` is the method reached
through `restartBootstrapping`. -/
def tryStartExecutingWith (cfg : Config H P T)
    (startBootstrapping : Bootstrapper H P T → Option (Res H P T))
    (b : Bootstrapper H P T) : Option (Res H P T) :=
  if b.missingBlockIDs.length ≠ 0 then
    some (b, none)
  else if (cfg.ctxStateGet b.host).state = State.normalOp || b.awaitingTimeout then
    some (b, none)
  else
    match getLastAcceptedHeight cfg b.host with
    | .error e => some (b, some e)
    | .ok lastAcceptedHeight =>
      let numToExecute := treeLen cfg b.tree
      let r := cfg.storageExecute b.host b.tree lastAcceptedHeight
      let b := { b with host := r.host, tree := r.tree }
      if r.err.isSome || cfg.halted b.host then
        some (b, r.err.map .host)
      else
        let previouslyExecuted := b.executedStateTransitions
        let b := { b with executedStateTransitions := numToExecute }
        if halvingRestart numToExecute previouslyExecuted then
          restartBootstrappingWith startBootstrapping b
        else
          let b := notifyBootstrapped cfg b
          let b : Bootstrapper H P T := { b with
            host := cfg.trackerBootstrapped b.host cfg.chainID
            effects := b.effects ++ [Effect.trackerBootstrapped cfg.chainID] }
          if !cfg.isBootstrapped b.host then
            let b : Bootstrapper H P T :=
              { b with effects := b.effects ++ [Effect.registerTimeout bootstrappingDelay] }
            some ({ b with awaitingTimeout := true }, none)
          else
            some (onFinished cfg b)

/-- First loop of `startSyncing`: a block the VM holds is queued for
processing, any other is fetched; a failing fetch ends the loop. -/
def fetchMissing (cfg : Config H P T) :
    List ID → Bootstrapper H P T → List Block → Bootstrapper H P T × List Block × Option Err
  | [], b, toProcess => (b, toProcess, none)
  | blkID :: rest, b, toProcess =>
    match cfg.vmGetBlock b.host blkID with
    | .error _ =>
      match fetch cfg b blkID with
      | (b, some e) => (b, toProcess, some e)
      | (b, none) => fetchMissing cfg rest b toProcess
    | .ok blk => fetchMissing cfg rest b (toProcess ++ [blk])

/-- Second loop of `startSyncing`: process the queued blocks until one fails. -/
def processAll (cfg : Config H P T) : List Block → Bootstrapper H P T → Res H P T
  | [], b => (b, none)
  | blk :: rest, b =>
    match process cfg b blk none with
    | (b, some e) => (b, some e)
    | (b, none) => processAll cfg rest b

/-- Method `startSyncing`; `startBootstrapping` is the method reached through
`tryStartExecuting`. -/
def startSyncingWith (cfg : Config H P T)
    (startBootstrapping : Bootstrapper H P T → Option (Res H P T))
    (b : Bootstrapper H P T) (acceptedContainerIDs : List ID) : Option (Res H P T) :=
  let b := { b with fetchFrom := cfg.preferredPeers b.host }
  let b := { b with missingBlockIDs := setAddAll b.missingBlockIDs acceptedContainerIDs }
  match fetchMissing cfg (rangeOrder cfg b.missingBlockIDs) b [] with
  | (b, _, some e) => some (b, some e)
  | (b, toProcess, none) =>
    let b := { b with initiallyFetched := treeLen cfg b.tree }
    match processAll cfg toProcess b with
    | (b, some e) => some (b, some e)
    | (b, none) => tryStartExecutingWith cfg startBootstrapping b

/-- Method `sendBootstrappingMessagesOrFinish`; `startBootstrapping` is the
method it is mutually recursive with. -/
def sendBootstrappingMessagesOrFinishWith (cfg : Config H P T)
    (startBootstrapping : Bootstrapper H P T → Option (Res H P T))
    (b : Bootstrapper H P T) : Option (Res H P T) :=
  let q := cfg.pollGetPeers b.minority
  let b := { b with minority := q.2 }
  if q.1.length > 0 then
    some ({ b with effects := b.effects ++ [.sendGetAcceptedFrontier q.1 b.requestID] }, none)
  else
    let potentialAccepted := (cfg.pollResult b.minority).1
    if !(cfg.pollResult b.minority).2 then
      some (b, none)
    else
      let q := cfg.pollGetPeers b.majority
      let b := { b with majority := q.2 }
      if q.1.length > 0 then
        some ({ b with
          effects := b.effects ++ [.sendGetAccepted q.1 b.requestID potentialAccepted] }, none)
      else
        let accepted := (cfg.pollResult b.majority).1
        if !(cfg.pollResult b.majority).2 then
          some (b, none)
        else if accepted.length = 0 then
          startBootstrapping b
        else
          startSyncingWith cfg startBootstrapping b accepted

/-- Method `startBootstrapping`.  The Go methods `startBootstrapping`,
`sendBootstrappingMessagesOrFinish`, `startSyncing`, `tryStartExecuting` and
`restartBootstrapping` call each other without a bound that the engine could
check, so the nesting depth of `startBootstrapping` is limited by `fuel`;
`none` means that the call does not return: the fuel ran out or, in
`Ancestors`, the code panicked. -/
def startBootstrapping (cfg : Config H P T) : Nat → Bootstrapper H P T → Option (Res H P T)
  | 0 => fun _ => none
  | fuel + 1 => fun b =>
    let nodeWeights := cfg.beaconsGetMap b.host cfg.subnetID
    match cfg.sample b.host nodeWeights cfg.sampleK with
    | .error e => some (b, some (.host e))
    | .ok frontierNodes =>
      let b := { b with minority := cfg.newMinority frontierNodes maxOutstandingBroadcastRequests }
      let b := { b with majority := cfg.newMajority nodeWeights maxOutstandingBroadcastRequests }
      if (cfg.pollResult b.majority).2 then
        startSyncingWith cfg (startBootstrapping cfg fuel) b (cfg.pollResult b.majority).1
      else
        let b := { b with requestID := (b.requestID + 1) % 2 ^ 32 }
        sendBootstrappingMessagesOrFinishWith cfg (startBootstrapping cfg fuel) b

/-- Method `sendBootstrappingMessagesOrFinish`. -/
def sendBootstrappingMessagesOrFinish (cfg : Config H P T) (fuel : Nat)
    (b : Bootstrapper H P T) : Option (Res H P T) :=
  sendBootstrappingMessagesOrFinishWith cfg (startBootstrapping cfg fuel) b

/-- Method `startSyncing`. -/
def startSyncing (cfg : Config H P T) (fuel : Nat) (b : Bootstrapper H P T)
    (acceptedContainerIDs : List ID) : Option (Res H P T) :=
  startSyncingWith cfg (startBootstrapping cfg fuel) b acceptedContainerIDs

/-- Method `tryStartExecuting`. -/
def tryStartExecuting (cfg : Config H P T) (fuel : Nat) (b : Bootstrapper H P T) :
    Option (Res H P T) :=
  tryStartExecutingWith cfg (startBootstrapping cfg fuel) b

/-- Method `restartBootstrapping`. -/
def restartBootstrapping (cfg : Config H P T) (fuel : Nat) (b : Bootstrapper H P T) :
    Option (Res H P T) :=
  restartBootstrappingWith (startBootstrapping cfg fuel) b

/-- Method `tryStartBootstrapping`. -/
def tryStartBootstrapping (cfg : Config H P T) (fuel : Nat) (b : Bootstrapper H P T) :
    Option (Res H P T) :=
  if b.started || !cfg.shouldStart b.host then
    some (b, none)
  else
    startBootstrapping cfg fuel { b with started := true }

/-- Method `Start`. -/
def Start (cfg : Config H P T) (fuel : Nat) (b : Bootstrapper H P T) (startReqID : Nat) :
    Option (Res H P T) :=
  let b := { b with host := cfg.ctxStateSet b.host ⟨EngineType.snowman, State.bootstrapping⟩ }
  let v := cfg.vmSetState b.host State.bootstrapping
  let b := { b with host := v.1 }
  match v.2 with
  | some e => some (b, some (.wrapped .notifyVM e))
  | none =>
    match getLastAcceptedHeight cfg b.host with
    | .error e => some (b, some e)
    | .ok lastAcceptedHeight =>
      let b := { b with startingHeight := lastAcceptedHeight }
      let b := { b with requestID := startReqID }
      let t := cfg.newTree b.host
      let b := { b with tree := t.1 }
      match t.2 with
      | some e => some (b, some (.wrapped .initTree e))
      | none =>
        let m := cfg.getMissingBlockIDs b.host b.tree b.startingHeight
        let b := { b with missingBlockIDs := m.1 }
        match m.2 with
        | some e => some (b, some (.wrapped .initMissing e))
        | none => tryStartBootstrapping cfg fuel b

/-- Method `Connected`. -/
def Connected (cfg : Config H P T) (fuel : Nat) (b : Bootstrapper H P T) (nodeID : NodeID)
    (nodeVersion : Nat) : Option (Res H P T) :=
  let v := cfg.vmConnected b.host nodeID nodeVersion
  let b := { b with host := v.1 }
  match v.2 with
  | some e => some (b, some (.host e))
  | none =>
    let t := cfg.startupConnected b.host nodeID nodeVersion
    let b := { b with host := t.1 }
    match t.2 with
    | some e => some (b, some (.host e))
    | none =>
      let b :=
        if cfg.getValidator b.host cfg.subnetID nodeID then
          { b with fetchFrom := setAdd b.fetchFrom nodeID }
        else b
      tryStartBootstrapping cfg fuel b

/-- Method `Disconnected`. -/
def Disconnected (cfg : Config H P T) (b : Bootstrapper H P T) (nodeID : NodeID) : Res H P T :=
  let v := cfg.vmDisconnected b.host nodeID
  let b := { b with host := v.1 }
  match v.2 with
  | some e => (b, some (.host e))
  | none =>
    let t := cfg.startupDisconnected b.host nodeID
    let b := { b with host := t.1 }
    match t.2 with
    | some e => (b, some (.host e))
    | none => (markUnavailable cfg b nodeID, none)

/-- Method `AcceptedFrontier`. -/
def AcceptedFrontier (cfg : Config H P T) (fuel : Nat) (b : Bootstrapper H P T)
    (nodeID : NodeID) (requestID : Nat) (containerID : ID) : Option (Res H P T) :=
  if requestID ≠ b.requestID then
    some (b, none)
  else
    let r := cfg.pollRecordOpinion b.minority nodeID [containerID]
    let b := { b with minority := r.1 }
    match r.2 with
    | some e => some (b, some (.host e))
    | none => sendBootstrappingMessagesOrFinish cfg fuel b

/-- Method `GetAcceptedFrontierFailed`. -/
def GetAcceptedFrontierFailed (cfg : Config H P T) (fuel : Nat) (b : Bootstrapper H P T)
    (nodeID : NodeID) (requestID : Nat) : Option (Res H P T) :=
  if requestID ≠ b.requestID then
    some (b, none)
  else
    let r := cfg.pollRecordOpinion b.minority nodeID []
    let b := { b with minority := r.1 }
    match r.2 with
    | some e => some (b, some (.host e))
    | none => sendBootstrappingMessagesOrFinish cfg fuel b

/-- Method `Accepted`. -/
def Accepted (cfg : Config H P T) (fuel : Nat) (b : Bootstrapper H P T)
    (nodeID : NodeID) (requestID : Nat) (containerIDs : List ID) : Option (Res H P T) :=
  if requestID ≠ b.requestID then
    some (b, none)
  else
    let r := cfg.pollRecordOpinion b.majority nodeID containerIDs
    let b := { b with majority := r.1 }
    match r.2 with
    | some e => some (b, some (.host e))
    | none => sendBootstrappingMessagesOrFinish cfg fuel b

/-- Method `GetAcceptedFailed`. -/
def GetAcceptedFailed (cfg : Config H P T) (fuel : Nat) (b : Bootstrapper H P T)
    (nodeID : NodeID) (requestID : Nat) : Option (Res H P T) :=
  if requestID ≠ b.requestID then
    some (b, none)
  else
    let r := cfg.pollRecordOpinion b.majority nodeID []
    let b := { b with majority := r.1 }
    match r.2 with
    | some e => some (b, some (.host e))
    | none => sendBootstrappingMessagesOrFinish cfg fuel b

/-- The containers of an `Ancestors` message that the engine keeps: the
statement `if lenBlks > AncestorsMaxContainersReceived { blks = blks[:...] }`
of `Ancestors`.  With a negative limit the slice expression panics; that
outcome is `none`. -/
def receivedContainers (cfg : Config H P T) (blks : List Bytes) : Option (List Bytes) :=
  if (blks.length : Int) > cfg.ancestorsMaxContainersReceived then
    if cfg.ancestorsMaxContainersReceived < 0 then none
    else some (blks.take cfg.ancestorsMaxContainersReceived.toNat)
  else some blks

/-- Method `Ancestors`.  A negative `AncestorsMaxContainersReceived` makes the
slice expression panic on every non-empty response to an outstanding request:
the call does not return, and the result is `none` as for a call that runs out
of fuel. -/
def Ancestors (cfg : Config H P T) (fuel : Nat) (b : Bootstrapper H P T)
    (nodeID : NodeID) (requestID : Nat) (blks : List Bytes) : Option (Res H P T) :=
  let d := b.outstandingRequests.deleteKey ⟨nodeID, requestID⟩
  match d.1 with
  | none => some (b, none)
  | some wantedBlkID =>
    let b := { b with outstandingRequests := d.2 }
    let lenBlks := blks.length
    if lenBlks = 0 then
      let b := markUnavailable cfg b nodeID
      some (fetch cfg b wantedBlkID)
    else
      let b := { b with fetchFrom := setAdd b.fetchFrom nodeID }
      match receivedContainers cfg blks with
      | none => none
      | some blks =>
        let parsed := cfg.batchedParseBlock b.host blks
        let b := { b with host := parsed.1 }
        match parsed.2 with
        | .error _ => some (fetch cfg b wantedBlkID)
        | .ok [] => some (fetch cfg b wantedBlkID)
        | .ok (requestedBlock :: others) =>
          if requestedBlock.id ≠ wantedBlkID then
            some (fetch cfg b wantedBlkID)
          else
            let blockSet := others.map (fun blk => (blk.id, blk))
            match process cfg b requestedBlock (some blockSet) with
            | (b, some e) => some (b, some e)
            | (b, none) => tryStartExecuting cfg fuel b

/-- Method `GetAncestorsFailed`. -/
def GetAncestorsFailed (cfg : Config H P T) (b : Bootstrapper H P T)
    (nodeID : NodeID) (requestID : Nat) : Res H P T :=
  let d := b.outstandingRequests.deleteKey ⟨nodeID, requestID⟩
  match d.1 with
  | none => (b, none)
  | some blkID =>
    let b := { b with outstandingRequests := d.2 }
    let b := { b with fetchFrom := setAdd b.fetchFrom nodeID }
    fetch cfg b blkID

/-- Method `Timeout`. -/
def Timeout (cfg : Config H P T) (fuel : Nat) (b : Bootstrapper H P T) : Option (Res H P T) :=
  if !b.awaitingTimeout then
    some (b, some .unexpectedTimeout)
  else
    let b := { b with awaitingTimeout := false }
    if !cfg.isBootstrapped b.host then
      restartBootstrapping cfg fuel b
    else
      some (onFinished cfg b)

/-- The entry points the host calls, with their arguments. -/
inductive Call where
  | start (startReqID : Nat)
  | connected (nodeID : NodeID) (nodeVersion : Nat)
  | disconnected (nodeID : NodeID)
  | acceptedFrontier (nodeID : NodeID) (requestID : Nat) (containerID : ID)
  | getAcceptedFrontierFailed (nodeID : NodeID) (requestID : Nat)
  | accepted (nodeID : NodeID) (requestID : Nat) (containerIDs : List ID)
  | getAcceptedFailed (nodeID : NodeID) (requestID : Nat)
  | ancestors (nodeID : NodeID) (requestID : Nat) (blks : List Bytes)
  | getAncestorsFailed (nodeID : NodeID) (requestID : Nat)
  | timeout
deriving DecidableEq, Repr

/-- One call of an entry point. -/
def dispatch (cfg : Config H P T) (fuel : Nat) (b : Bootstrapper H P T) :
    Call → Option (Res H P T)
  | .start startReqID => Start cfg fuel b startReqID
  | .connected nodeID nodeVersion => Connected cfg fuel b nodeID nodeVersion
  | .disconnected nodeID => some (Disconnected cfg b nodeID)
  | .acceptedFrontier nodeID requestID containerID =>
    AcceptedFrontier cfg fuel b nodeID requestID containerID
  | .getAcceptedFrontierFailed nodeID requestID =>
    GetAcceptedFrontierFailed cfg fuel b nodeID requestID
  | .accepted nodeID requestID containerIDs => Accepted cfg fuel b nodeID requestID containerIDs
  | .getAcceptedFailed nodeID requestID => GetAcceptedFailed cfg fuel b nodeID requestID
  | .ancestors nodeID requestID blks => Ancestors cfg fuel b nodeID requestID blks
  | .getAncestorsFailed nodeID requestID => some (GetAncestorsFailed cfg b nodeID requestID)
  | .timeout => Timeout cfg fuel b

/-- Runs of the engine from one state to another: any number of calls of
allowed entry points that return (with or without an error), between which
the collaborators may change on their own. -/
inductive Steps (cfg : Config H P T) (allowed : Call → Prop) :
    Bootstrapper H P T → Bootstrapper H P T → Prop where
  | refl (b : Bootstrapper H P T) : Steps cfg allowed b b
  | call {b b1 b2 : Bootstrapper H P T} {e : Option Err} (fuel : Nat) (c : Call) :
      Steps cfg allowed b b1 → allowed c → dispatch cfg fuel b1 c = some (b2, e) →
      Steps cfg allowed b b2
  | host {b b1 : Bootstrapper H P T} (host : H) :
      Steps cfg allowed b b1 → Steps cfg allowed b { b1 with host := host }

/-- States reachable from a freshly constructed engine by public calls. -/
def Reachable (cfg : Config H P T) (b : Bootstrapper H P T) : Prop :=
  ∃ host, Steps cfg (fun _ => True) (New cfg host) b

/-! ## Relations between the state before and after a call -/

/-- A relation between the state before and after a piece of the engine that
only depends on the request registry, the starting height and the effects
log, and that the elementary changes of the registry satisfy. -/
structure Respects (R : Bootstrapper H P T → Bootstrapper H P T → Prop) : Prop where
  refl : ∀ b, R b b
  trans : ∀ {a b c}, R a b → R b c → R a c
  frame : ∀ (b b' : Bootstrapper H P T), b'.outstandingRequests = b.outstandingRequests →
    b'.startingHeight = b.startingHeight → b'.effects = b.effects → R b b'
  effect : ∀ (b : Bootstrapper H P T) (e : Effect),
    (∀ n r c, e ≠ Effect.sendGetAncestors n r c) → R b { b with effects := b.effects ++ [e] }
  reset : ∀ (b : Bootstrapper H P T), R b { b with outstandingRequests := BiMap.empty }
  delete : ∀ (b : Bootstrapper H P T) (k : Request),
    R b { b with outstandingRequests := (b.outstandingRequests.deleteKey k).2 }
  issue : ∀ (b : Bootstrapper H P T) (v : NodeID) (blkID : ID),
    R b { b with
      requestID := (b.requestID + 1) % 2 ^ 32
      outstandingRequests := b.outstandingRequests.put ⟨v, (b.requestID + 1) % 2 ^ 32⟩ blkID
      effects := b.effects ++ [Effect.sendGetAncestors v ((b.requestID + 1) % 2 ^ 32) blkID] }

/-- A result is good when its state is related to the start state and its
error is not the timeout sentinel. -/
def Good (R : Bootstrapper H P T → Bootstrapper H P T → Prop) (b : Bootstrapper H P T)
    (r : Res H P T) : Prop :=
  R b r.1 ∧ r.2 ≠ some Err.unexpectedTimeout

/-- A call that may run out of fuel is good when its result, if any, is. -/
def GoodOpt (R : Bootstrapper H P T → Bootstrapper H P T → Prop) (b : Bootstrapper H P T)
    (o : Option (Res H P T)) : Prop :=
  ∀ r, o = some r → Good R b r

/-- Every result the callback gives is good. -/
def GoodCall (R : Bootstrapper H P T → Bootstrapper H P T → Prop)
    (f : Bootstrapper H P T → Option (Res H P T)) : Prop :=
  ∀ b, GoodOpt R b (f b)

/-! ## Properties of the request registry and of the restart rule -/

/-- At most one entry of the registry per peer. -/
def PerPeerUnique (m : BiMap) : Prop :=
  ∀ e1 ∈ m.entries, ∀ e2 ∈ m.entries, e1.1.nodeID = e2.1.nodeID → e1 = e2

/-- No two entries of the registry expect the same block. -/
def ValuesUnique (m : BiMap) : Prop :=
  (m.entries.map (fun e => e.2)).Nodup

/-- The keys of the `GetAncestors` requests among some effects. -/
def sentAncestors (effects : List Effect) : List Request :=
  effects.filterMap (fun e =>
    match e with
    | Effect.sendGetAncestors nodeID requestID _ => some ⟨nodeID, requestID⟩
    | _ => none)

/-- The keys of the `GetAncestors` requests sent after the first `n` effects. -/
def sentAncestorsSince (n : Nat) (effects : List Effect) : List Request :=
  sentAncestors (effects.drop n)

/-- A key is in the registry afterwards only if it was there before or a
`GetAncestors` request with that key was sent in between. -/
def KeysFromSends (b b' : Bootstrapper H P T) : Prop :=
  ∃ es, b'.effects = b.effects ++ es ∧
    ∀ k, b'.outstandingRequests.hasKey k = true →
      b.outstandingRequests.hasKey k = true ∨ k ∈ sentAncestors es

/-- Executed-block counts of consecutive rounds that all end in a restart by
the halving rule, the round before them having executed `prev`. -/
def HalvingRun : Nat → List Nat → Prop
  | _, [] => True
  | prev, n :: ns => halvingRestart n prev = true ∧ HalvingRun n ns

/-- Whether a list of counts is such a run can be computed. -/
def HalvingRun.dec : (prev : Nat) → (ns : List Nat) → Decidable (HalvingRun prev ns)
  | _, [] => isTrue trivial
  | prev, n :: ns =>
    match HalvingRun.dec n ns with
    | isTrue h =>
      if hr : halvingRestart n prev = true then isTrue ⟨hr, h⟩ else isFalse (fun hn => hr hn.1)
    | isFalse h => isFalse (fun hn => h hn.2)

instance (prev : Nat) (ns : List Nat) : Decidable (HalvingRun prev ns) :=
  HalvingRun.dec prev ns

/-- The entry points other than `Start`. -/
def notStart : Call → Prop
  | Call.start _ => False
  | _ => True

/-! ## A concrete configuration

Simple stand-ins for the collaborators, in the manner of the test doubles of
the Go test suite, used to evaluate the engine on concrete inputs. -/

/-- State of the stand-in collaborators. -/
structure TestHost where
  /-- Blocks the VM holds. -/
  blocks : List Block
  /-- Last accepted block of the VM. -/
  lastAccepted : ID
  /-- Connected peers, which the startup tracker prefers. -/
  peers : List NodeID
  /-- Validators of the subnet with their weights. -/
  beacons : List (NodeID × Nat)
  /-- Missing block IDs found in the database when the engine starts. -/
  persistedMissing : List ID
  /-- Whether the subnet tracker reports every chain as bootstrapped. -/
  subnetBootstrapped : Bool
  /-- Whether the tracker marks the subnet bootstrapped once this chain is. -/
  lastChain : Bool
  /-- Value of `Ctx.State`. -/
  state : EngineState
deriving DecidableEq, Repr

/-- State of a stand-in poll: peers not yet queried, peers queried and not
yet heard, and the IDs received. -/
structure TestPoll where
  pending : List NodeID
  outstanding : List NodeID
  received : List ID
deriving DecidableEq, Repr

/-- The stand-in parser reads a block from the three numbers id, parent, height. -/
def testParse (bytes : Bytes) : Option Block :=
  match bytes with
  | [id, parent, height] => some ⟨id, parent, height, bytes⟩
  | _ => none

/-- The stand-in configuration.  The interval tree is the list of fetched blocks. -/
def testConfig : Config TestHost TestPoll (List Block) where
  sampleK := 1
  ancestorsMaxContainersReceived := 2000
  chainID := 0
  subnetID := 0
  ctxStateSet := fun h s => { h with state := s }
  ctxStateGet := fun h => h.state
  halted := fun _ => false
  vmSetState := fun h _ => (h, none)
  vmLastAccepted := fun h => .ok h.lastAccepted
  vmGetBlock := fun h id =>
    match h.blocks.find? (fun blk => blk.id == id) with
    | some blk => .ok blk
    | none => .error 1
  vmConnected := fun h _ _ => (h, none)
  vmDisconnected := fun h _ => (h, none)
  batchedParseBlock := fun h blks =>
    if blks.all (fun bytes => (testParse bytes).isSome) then (h, .ok (blks.filterMap testParse))
    else (h, .error 2)
  startupConnected := fun h nodeID _ => ({ h with peers := setAdd h.peers nodeID }, none)
  startupDisconnected := fun h nodeID => ({ h with peers := setRemove h.peers nodeID }, none)
  shouldStart := fun h => !h.peers.isEmpty
  preferredPeers := fun h => h.peers
  getValidator := fun h _ nodeID => h.beacons.any (fun v => v.1 == nodeID)
  beaconsGetMap := fun h _ => h.beacons
  sample := fun _ weights k => .ok ((weights.map (fun v => v.1)).take k.toNat)
  noop := ⟨[], [], []⟩
  newMinority := fun nodes _ => ⟨nodes, [], []⟩
  newMajority := fun weights _ => ⟨weights.map (fun v => v.1), [], []⟩
  pollGetPeers := fun p => (p.pending, { p with pending := [], outstanding := p.outstanding ++ p.pending })
  pollRecordOpinion := fun p nodeID ids =>
    if nodeID ∈ p.outstanding then
      ({ p with outstanding := setRemove p.outstanding nodeID, received := setAddAll p.received ids }, none)
    else (p, none)
  pollResult := fun p => (p.received, p.pending.isEmpty && p.outstanding.isEmpty)
  nilTree := []
  newTree := fun _ => ([], none)
  treeLen := fun t => t.length
  getMissingBlockIDs := fun h _ _ => (h.persistedMissing, none)
  storageProcess := fun h t missing lastAcceptedHeight blk _ =>
    { host := h
      tree := if blk.height ≤ lastAcceptedHeight then t else t ++ [blk]
      missingBlockIDs := setRemove missing blk.id
      missingBlockID := blk.parent
      foundNewMissingID := decide (blk.height > lastAcceptedHeight + 1)
      err := none }
  batchWrite := fun h => (h, none)
  storageExecute := fun h t _ =>
    { host := { h with
        blocks := h.blocks ++ t
        lastAccepted := (t.getLast?.map (fun blk => blk.id)).getD h.lastAccepted }
      tree := []
      err := none }
  trackerBootstrapped := fun h _ => { h with subnetBootstrapped := h.subnetBootstrapped || h.lastChain }
  isBootstrapped := fun h => h.subnetBootstrapped
  bootstrapped := none
  onFinished := fun h _ => ({ h with state := ⟨EngineType.snowman, State.normalOp⟩ }, none)
  pick := fun _ => 0
  iterOrder := fun s => s

/-- The genesis block, which the stand-in VM holds from the start. -/
def genesis : Block := ⟨0, 0, 0, [0, 0, 0]⟩

/-- A node that knows no validator, is connected to peer 7 and finds the
block IDs 1 and 2 missing in its database. -/
def hostA : TestHost :=
  { blocks := [genesis]
    lastAccepted := 0
    peers := [7]
    beacons := []
    persistedMissing := [1, 2]
    subnetBootstrapped := false
    lastChain := true
    state := ⟨EngineType.unspecified, State.initializing⟩ }

/-- The engine on `hostA` after `Start(0)`: both missing blocks were requested
from peer 7, the only peer, because the drained fetch pool was refilled. -/
def stateA : Bootstrapper TestHost TestPoll (List Block) :=
  { requestID := 2
    started := true
    restarted := false
    minority := ⟨[], [], []⟩
    majority := ⟨[], [], []⟩
    tipHeight := 0
    startingHeight := 0
    initiallyFetched := 0
    outstandingRequests := ⟨[(⟨7, 1⟩, 1), (⟨7, 2⟩, 2)]⟩
    fetchFrom := [7]
    executedStateTransitions := maxInt
    awaitingTimeout := false
    tree := []
    missingBlockIDs := [1, 2]
    bootstrappedOnce := false
    host := { hostA with state := ⟨EngineType.snowman, State.bootstrapping⟩ }
    effects := [Effect.sendGetAncestors 7 1 1, Effect.sendGetAncestors 7 2 2] }

/-- A state with one request outstanding at peer 8 and peer 7 free. -/
def stateB : Bootstrapper TestHost TestPoll (List Block) :=
  { stateA with
    requestID := 1
    outstandingRequests := ⟨[(⟨8, 1⟩, 1)]⟩
    fetchFrom := [7]
    effects := [Effect.sendGetAncestors 8 1 1] }

/-- A node like `hostA` that finds only block 1 missing. -/
def hostC : TestHost := { hostA with persistedMissing := [1] }

/-- The engine on `hostC` after `Start(4)` and a second `Start(4)`: the
request counter is back at 4 while request 5 is still outstanding. -/
def stateC : Bootstrapper TestHost TestPoll (List Block) :=
  { stateA with
    requestID := 4
    outstandingRequests := ⟨[(⟨7, 5⟩, 1)]⟩
    missingBlockIDs := [1]
    host := { hostC with state := ⟨EngineType.snowman, State.bootstrapping⟩ }
    effects := [Effect.sendGetAncestors 7 5 1] }

/-- The engine on `hostC` after the first `Start(4)`. -/
def stateC1 : Bootstrapper TestHost TestPoll (List Block) :=
  { stateC with requestID := 5 }

/-- Block 1, a child of the genesis block. -/
def block1 : Block := ⟨1, 0, 1, [1, 0, 1]⟩

/-- A first round ready to execute: nothing is missing and block 1 is in the tree. -/
def stateD : Bootstrapper TestHost TestPoll (List Block) :=
  { stateA with
    requestID := 1
    outstandingRequests := BiMap.empty
    missingBlockIDs := []
    tree := [block1]
    effects := [] }

/-- A round after the first, ready to execute: the round before executed one
block and block 1 is in the tree. -/
def stateE : Bootstrapper TestHost TestPoll (List Block) :=
  { stateD with executedStateTransitions := 1, restarted := true }

/-- A chain that waits for the rest of its subnet: the timeout is pending. -/
def stateF : Bootstrapper TestHost TestPoll (List Block) :=
  { stateD with
    tree := []
    executedStateTransitions := 0
    awaitingTimeout := true
    host := { hostA with
      state := ⟨EngineType.snowman, State.bootstrapping⟩
      subnetBootstrapped := true } }

/-- A chain like `stateF` whose subnet is still syncing. -/
def stateG : Bootstrapper TestHost TestPoll (List Block) :=
  { stateF with host := { stateF.host with subnetBootstrapped := false } }

/-- The state `stateF` after its timeout fired: `onFinished(1)` has run. -/
def stateFdone : Bootstrapper TestHost TestPoll (List Block) :=
  { stateF with
    awaitingTimeout := false
    host := { stateF.host with state := ⟨EngineType.snowman, State.normalOp⟩ }
    effects := [Effect.onFinished 1] }

/-! ## Further definitions for the claims on polls, responses and syncing -/

/-- The state `stateE` after its round: block 1 is accepted, the tracker has
been told, and `onFinished(1)` has run. -/
def stateEdone : Bootstrapper TestHost TestPoll (List Block) :=
  { stateE with
    tree := []
    executedStateTransitions := 1
    host := { stateE.host with
      blocks := [genesis, block1]
      lastAccepted := 1
      subnetBootstrapped := true
      state := ⟨EngineType.snowman, State.normalOp⟩ }
    effects := [Effect.trackerBootstrapped 0, Effect.onFinished 1] }

/-- A round like `stateE` on a chain that is not the last of its subnet. -/
def stateEwait : Bootstrapper TestHost TestPoll (List Block) :=
  { stateE with host := { stateE.host with lastChain := false } }

/-- The state `stateEwait` after its round: the engine waits for the timeout. -/
def stateEwaiting : Bootstrapper TestHost TestPoll (List Block) :=
  { stateEwait with
    tree := []
    executedStateTransitions := 1
    awaitingTimeout := true
    host := { stateEwait.host with blocks := [genesis, block1], lastAccepted := 1 }
    effects := [Effect.trackerBootstrapped 0, Effect.registerTimeout bootstrappingDelay] }

/-- A node that knows the validator 7 of weight 1, is connected to it and has
no block missing in its database. -/
def hostB : TestHost :=
  { hostA with beacons := [(7, 1)], persistedMissing := [] }

/-- The engine on `hostB` after `Start(0)`: the frontier poll is out. -/
def stateQ1 : Bootstrapper TestHost TestPoll (List Block) :=
  { requestID := 1
    started := true
    restarted := false
    minority := ⟨[], [7], []⟩
    majority := ⟨[7], [], []⟩
    tipHeight := 0
    startingHeight := 0
    initiallyFetched := 0
    outstandingRequests := BiMap.empty
    fetchFrom := []
    executedStateTransitions := maxInt
    awaitingTimeout := false
    tree := []
    missingBlockIDs := []
    bootstrappedOnce := false
    host := { hostB with state := ⟨EngineType.snowman, State.bootstrapping⟩ }
    effects := [Effect.sendGetAcceptedFrontier [7] 1] }

/-- The state `stateQ1` after peer 7 reported block 5 as its frontier: the
accepted poll is out. -/
def stateQ2 : Bootstrapper TestHost TestPoll (List Block) :=
  { stateQ1 with
    minority := ⟨[], [], [5]⟩
    majority := ⟨[], [7], []⟩
    effects := [Effect.sendGetAcceptedFrontier [7] 1, Effect.sendGetAccepted [7] 1 [5]] }

/-- The state `stateQ2` after peer 7 accepted none of the candidates, before
the engine reacts: the majority poll is complete and empty. -/
def stateQ3 : Bootstrapper TestHost TestPoll (List Block) :=
  { stateQ2 with majority := ⟨[], [], []⟩ }

/-- The state `stateQ3` after the engine restarted from sampling. -/
def stateQ4 : Bootstrapper TestHost TestPoll (List Block) :=
  { stateQ3 with
    requestID := 2
    minority := ⟨[], [7], []⟩
    majority := ⟨[7], [], []⟩
    effects := stateQ2.effects ++ [Effect.sendGetAcceptedFrontier [7] 2] }

/-- The request IDs of the `GetAcceptedFrontier` requests among some effects. -/
def frontierRequestIDs (effects : List Effect) : List Nat :=
  effects.filterMap (fun e =>
    match e with
    | Effect.sendGetAcceptedFrontier _ requestID => some requestID
    | _ => none)

/-- The request IDs of the `GetAccepted` requests among some effects. -/
def acceptedRequestIDs (effects : List Effect) : List Nat :=
  effects.filterMap (fun e =>
    match e with
    | Effect.sendGetAccepted _ requestID _ => some requestID
    | _ => none)

/-- The three checks of `Ancestors` on the answer of the parser that end in
`return b.fetch(ctx, wantedBlkID)`: the parse failed, it gave no block, or its
first block is not the wanted one. -/
def rejectsResponse (parsed : Except Nat (List Block)) (wantedBlkID : ID) : Bool :=
  match parsed with
  | .error _ => true
  | .ok [] => true
  | .ok (requestedBlock :: _) => requestedBlock.id != wantedBlkID

/-- The part of `Ancestors` that follows the call of the parser, on the state
in which the request has been deleted and the peer added back to `fetchFrom`. -/
def ancestorsParsed (cfg : Config H P T) (fuel : Nat) (b : Bootstrapper H P T)
    (wantedBlkID : ID) (parsed : H × Except Nat (List Block)) : Option (Res H P T) :=
  let b := { b with host := parsed.1 }
  match parsed.2 with
  | .error _ => some (fetch cfg b wantedBlkID)
  | .ok [] => some (fetch cfg b wantedBlkID)
  | .ok (requestedBlock :: others) =>
    if requestedBlock.id ≠ wantedBlkID then
      some (fetch cfg b wantedBlkID)
    else
      let blockSet := others.map (fun blk => (blk.id, blk))
      match process cfg b requestedBlock (some blockSet) with
      | (b, some e) => some (b, some e)
      | (b, none) => tryStartExecuting cfg fuel b

/-- A node like `hostA` that is connected to the peers 7 and 8 and finds only
block 1 missing. -/
def hostH : TestHost := { hostA with peers := [7, 8], persistedMissing := [1] }

/-- The engine on `hostH` after `Start(0)`: block 1 is requested from peer 7,
peer 8 is left in the fetch pool. -/
def stateH : Bootstrapper TestHost TestPoll (List Block) :=
  { stateA with
    requestID := 1
    outstandingRequests := ⟨[(⟨7, 1⟩, 1)]⟩
    fetchFrom := [8]
    missingBlockIDs := [1]
    host := { hostH with state := ⟨EngineType.snowman, State.bootstrapping⟩ }
    effects := [Effect.sendGetAncestors 7 1 1] }

/-- The stand-in configuration with another choice of `Set.Peek`: the second
member of the pool when there is one. -/
def testConfigSecond : Config TestHost TestPoll (List Block) :=
  { testConfig with pick := fun _ => 1 }

/-- The engine on `hostH` after `Start(0)` when `Set.Peek` takes the second
member: block 1 is requested from peer 8, peer 7 is left in the fetch pool. -/
def stateH2 : Bootstrapper TestHost TestPoll (List Block) :=
  { stateH with
    outstandingRequests := ⟨[(⟨8, 1⟩, 1)]⟩
    fetchFrom := [7]
    effects := [Effect.sendGetAncestors 8 1 1] }

/-- A node like `hostH` that is connected to the peers 7, 8 and 9. -/
def hostJ : TestHost := { hostH with peers := [7, 8, 9] }

/-- The engine on `hostJ` after `Start(0)`: block 1 is requested from peer 7,
the peers 8 and 9 are left in the fetch pool. -/
def stateJ : Bootstrapper TestHost TestPoll (List Block) :=
  { stateH with
    fetchFrom := [8, 9]
    host := { hostJ with state := ⟨EngineType.snowman, State.bootstrapping⟩ } }

/-- The stand-in configuration with `AncestorsMaxContainersReceived` set to 2. -/
def testConfigTwo : Config TestHost TestPoll (List Block) :=
  { testConfig with ancestorsMaxContainersReceived := 2 }

/-- The blocks the VM returns for some IDs, in their order: the IDs for which
`VM.GetBlock` succeeds. -/
def heldBlocks (cfg : Config H P T) (host : H) (ids : List ID) : List Block :=
  ids.filterMap (fun blkID =>
    match cfg.vmGetBlock host blkID with
    | .ok blk => some blk
    | .error _ => none)

/-- The IDs for which `VM.GetBlock` fails, in their order. -/
def absentIDs (cfg : Config H P T) (host : H) (ids : List ID) : List ID :=
  ids.filter (fun blkID =>
    match cfg.vmGetBlock host blkID with
    | .ok _ => false
    | .error _ => true)

/-- The engine on `hostA` about to start syncing, with nothing fetched yet. -/
def stateS : Bootstrapper TestHost TestPoll (List Block) :=
  { stateD with tree := [] }

/-- The error code of `database.ErrNotFound`, which the stand-in VM returns
for a block it does not hold. -/
def errNotFound : Nat := 1

/-- The stand-in configuration with a VM that fails to read block 1 with an
error other than `database.ErrNotFound`. -/
def testConfigCorrupt : Config TestHost TestPoll (List Block) :=
  { testConfig with
    vmGetBlock := fun h blkID =>
      if blkID = 1 then .error 2 else testConfig.vmGetBlock h blkID }

/-- The state `stateS` after `startSyncing` with the accepted block 1 on the
VM of `testConfigCorrupt`: block 1 has been requested from peer 7. -/
def stateSfetched : Bootstrapper TestHost TestPoll (List Block) :=
  { stateS with
    requestID := 2
    outstandingRequests := ⟨[(⟨7, 2⟩, 1)]⟩
    missingBlockIDs := [1]
    effects := [Effect.sendGetAncestors 7 2 1] }

/-! ## Further definitions for the claims on the fetch pool and on restarts -/

/-- The host after `Connected` has told the VM and the startup tracker. -/
def connectedHost (cfg : Config H P T) (host : H) (nodeID : NodeID) (nodeVersion : Nat) : H :=
  (cfg.startupConnected (cfg.vmConnected host nodeID nodeVersion).1 nodeID nodeVersion).1

/-- The host after `Disconnected` has told the VM and the startup tracker. -/
def disconnectedHost (cfg : Config H P T) (host : H) (nodeID : NodeID) : H :=
  (cfg.startupDisconnected (cfg.vmDisconnected host nodeID).1 nodeID).1

/-- The restart decision in the words of the specification, with an optional
count of the round before: `prev.map_or(false, |p| executed < p/2)`. -/
def optionSentinelRestart (prev : Option Nat) (executed : Nat) : Bool :=
  match prev with
  | none => false
  | some p => decide (executed < p / 2)

/-- The restart decision of the code with an optional count of the round
before: `executed > 0 && prev.map_or(executed < MaxInt / 2, |p| executed < p / 2)`. -/
def optionRestart (prev : Option Nat) (executed : Nat) : Bool :=
  decide (0 < executed) &&
    match prev with
    | none => decide (executed < maxInt / 2)
    | some p => optionSentinelRestart (some p) executed

/-- The value of `executedStateTransitions` that stands for an optional count
of the round before: `math.MaxInt`, which `New` stores, when there is none. -/
def previousCount (prev : Option Nat) : Nat :=
  prev.getD maxInt

/-- The state `stateA` after peer 7 disconnected: the startup tracker prefers
no peer and the fetch pool is empty. -/
def stateAgone : Bootstrapper TestHost TestPoll (List Block) :=
  { stateA with
    fetchFrom := []
    host := { stateA.host with peers := [] } }

/-! ## Relations on the flags of the engine -/

/-- A relation between the state before and after a piece of the engine that
only depends on the flags `started` and `bootstrappedOnce` and on the effects
log, and that the elementary changes of those satisfy: sending anything but
the two completion notices, setting `started`, and the completion step of
`tryStartExecuting` (the `Bootstrapped` callback under `bootstrappedOnce`,
followed by the notice to the subnet tracker). -/
structure Tracks (cfg : Config H P T) (R : Bootstrapper H P T → Bootstrapper H P T → Prop) :
    Prop where
  refl : ∀ b, R b b
  trans : ∀ {a b c}, R a b → R b c → R a c
  frame : ∀ (b b' : Bootstrapper H P T), b'.started = b.started →
    b'.bootstrappedOnce = b.bootstrappedOnce → b'.effects = b.effects → R b b'
  effect : ∀ (b : Bootstrapper H P T) (e : Effect), e ≠ Effect.bootstrappedCallback →
    (∀ c, e ≠ Effect.trackerBootstrapped c) → R b { b with effects := b.effects ++ [e] }
  start : ∀ (b : Bootstrapper H P T), R b { b with started := true }
  complete : ∀ (b : Bootstrapper H P T),
    R b { notifyBootstrapped cfg b with
      effects := (notifyBootstrapped cfg b).effects ++ [Effect.trackerBootstrapped cfg.chainID] }

/-- The state of every result of a call that may run out of fuel is related
to the start state. -/
def KeptOpt (R : Bootstrapper H P T → Bootstrapper H P T → Prop) (b : Bootstrapper H P T)
    (o : Option (Res H P T)) : Prop :=
  ∀ r, o = some r → R b r.1

/-- The state of every result the callback gives is related to its start state. -/
def KeptCall (R : Bootstrapper H P T → Bootstrapper H P T → Prop)
    (f : Bootstrapper H P T → Option (Res H P T)) : Prop :=
  ∀ b, KeptOpt R b (f b)

/-- The completion notices among some effects, in their order: the calls of
the `Bootstrapped` callback and of `BootstrapTracker.Bootstrapped`.  The
tracker is called exactly when `tryStartExecuting` completes a round without
a halving restart. -/
def completionLog (effects : List Effect) : List Effect :=
  effects.filter (fun e =>
    match e with
    | Effect.bootstrappedCallback => true
    | Effect.trackerBootstrapped _ => true
    | _ => false)

/-- What `bootstrappedOnce` maintains.  Without a callback nothing is called.
With a callback either no round has completed, or the callback was called
once, right before the first of the notices to the tracker. -/
def CallbackOnce (cfg : Config H P T) (b : Bootstrapper H P T) : Prop :=
  (cfg.bootstrapped = none → Effect.bootstrappedCallback ∉ b.effects) ∧
  (cfg.bootstrapped.isSome = true →
    (b.bootstrappedOnce = false ∧ completionLog b.effects = []) ∨
    (b.bootstrappedOnce = true ∧ ∃ n, completionLog b.effects =
      Effect.bootstrappedCallback ::
        List.replicate (n + 1) (Effect.trackerBootstrapped cfg.chainID)))

/-- The stand-in configuration with a `Bootstrapped` callback. -/
def testConfigCallback : Config TestHost TestPoll (List Block) :=
  { testConfig with bootstrapped := some (fun h => h) }

/-- A node like `hostA` with no block missing, on a chain that is not the
last of its subnet to finish. -/
def hostK : TestHost := { hostA with persistedMissing := [], lastChain := false }

/-- The engine on `hostK` after `Start(0)`: the first round completed at once,
the callback and the tracker were called, and the engine waits for the
timeout. -/
def stateK1 : Bootstrapper TestHost TestPoll (List Block) :=
  { requestID := 0
    started := true
    restarted := false
    minority := ⟨[], [], []⟩
    majority := ⟨[], [], []⟩
    tipHeight := 0
    startingHeight := 0
    initiallyFetched := 0
    outstandingRequests := BiMap.empty
    fetchFrom := [7]
    executedStateTransitions := 0
    awaitingTimeout := true
    tree := []
    missingBlockIDs := []
    bootstrappedOnce := true
    host := { hostK with state := ⟨EngineType.snowman, State.bootstrapping⟩ }
    effects := [Effect.bootstrappedCallback, Effect.trackerBootstrapped 0,
      Effect.registerTimeout bootstrappingDelay] }

/-- The state `stateK1` after its timeout fired: a second round completed and
only the tracker was called again. -/
def stateK2 : Bootstrapper TestHost TestPoll (List Block) :=
  { stateK1 with
    restarted := true
    effects := stateK1.effects ++
      [Effect.trackerBootstrapped 0, Effect.registerTimeout bootstrappingDelay] }

/-- The stand-in configuration with a sampler that always fails. -/
def testConfigNoStake : Config TestHost TestPoll (List Block) :=
  { testConfig with sample := fun _ _ _ => .error 3 }

/-- The fresh engine on `hostA` after a first `tryStartBootstrapping` whose
sampling failed. -/
def stateN1 : Bootstrapper TestHost TestPoll (List Block) :=
  { New testConfigNoStake hostA with started := true }

/-- The state `stateN1` after peer 8 connected. -/
def stateN2 : Bootstrapper TestHost TestPoll (List Block) :=
  { stateN1 with host := { hostA with peers := [7, 8] } }

/-! ## Runs given by their calls -/

/-- A sequence of calls of the entry points, each with the given fuel and each
returning nil; the state after the last one. -/
def runCalls (cfg : Config H P T) (fuel : Nat) :
    Bootstrapper H P T → List Call → Option (Bootstrapper H P T)
  | b, [] => some b
  | b, c :: rest =>
    match dispatch cfg fuel b c with
    | some (b1, none) => runCalls cfg fuel b1 rest
    | _ => none

/-- The host on which `Start` reads the last accepted block: `Ctx.State` and
the VM have been set to bootstrapping. -/
def startHost (cfg : Config H P T) (host : H) : H :=
  (cfg.vmSetState (cfg.ctxStateSet host ⟨EngineType.snowman, State.bootstrapping⟩)
    State.bootstrapping).1

/-! ## Rounds of execution -/

/-- What one executing call of `tryStartExecuting` reads before it decides on
a restart: the count of the round before (`previouslyExecuted`) and the count
of this round (`numToExecute`). -/
structure Round where
  previouslyExecuted : Nat
  numToExecute : Nat
deriving DecidableEq, Repr

/-- Whether the round ends in a restart by the halving rule. -/
def Round.restarts (r : Round) : Bool :=
  halvingRestart r.numToExecute r.previouslyExecuted

/-- The call of `tryStartExecuting` on `b` gets as far as the assignment of
`executedStateTransitions`: nothing is missing, the engine is not in normal
operation and not awaiting its timeout, the last accepted height is read,
`execute` succeeds and the engine is not halted. -/
def Executes (cfg : Config H P T) (b : Bootstrapper H P T) (lastAcceptedHeight : Nat) : Prop :=
  b.missingBlockIDs = [] ∧
  (cfg.ctxStateGet b.host).state ≠ State.normalOp ∧
  b.awaitingTimeout = false ∧
  getLastAcceptedHeight cfg b.host = .ok lastAcceptedHeight ∧
  (cfg.storageExecute b.host b.tree lastAcceptedHeight).err = none ∧
  cfg.halted (cfg.storageExecute b.host b.tree lastAcceptedHeight).host = false

/-- The state in which `tryStartExecuting` decides on a restart: the tree has
been executed and `executedStateTransitions` holds the count of this round. -/
def executedState (cfg : Config H P T) (b : Bootstrapper H P T) (lastAcceptedHeight : Nat) :
    Bootstrapper H P T :=
  { b with
    host := (cfg.storageExecute b.host b.tree lastAcceptedHeight).host
    tree := (cfg.storageExecute b.host b.tree lastAcceptedHeight).tree
    executedStateTransitions := treeLen cfg b.tree }

/-- The rounds between two states of the engine, in their order: changes that
leave `executedStateTransitions` as it is contribute no round, and the
assignment in `tryStartExecuting` contributes the round it reads. -/
inductive Rounds (cfg : Config H P T) :
    Bootstrapper H P T → List Round → Bootstrapper H P T → Prop where
  | quiet (b b' : Bootstrapper H P T) :
      b'.executedStateTransitions = b.executedStateTransitions → Rounds cfg b [] b'
  | round (b : Bootstrapper H P T) (lastAcceptedHeight : Nat) :
      Executes cfg b lastAcceptedHeight →
      Rounds cfg b [⟨b.executedStateTransitions, treeLen cfg b.tree⟩]
        (executedState cfg b lastAcceptedHeight)
  | append {b b1 b2 : Bootstrapper H P T} {rounds1 rounds2 : List Round} :
      Rounds cfg b rounds1 b1 → Rounds cfg b1 rounds2 b2 →
      Rounds cfg b (rounds1 ++ rounds2) b2

/-- A relation between the state before and after a piece of the engine that
the changes leaving `executedStateTransitions` alone and the assignment in
`tryStartExecuting` satisfy. -/
structure Counts (cfg : Config H P T) (R : Bootstrapper H P T → Bootstrapper H P T → Prop) :
    Prop where
  refl : ∀ b, R b b
  trans : ∀ {a b c}, R a b → R b c → R a c
  quiet : ∀ (b b' : Bootstrapper H P T),
    b'.executedStateTransitions = b.executedStateTransitions → R b b'
  round : ∀ (b : Bootstrapper H P T) (lastAcceptedHeight : Nat),
    Executes cfg b lastAcceptedHeight → R b (executedState cfg b lastAcceptedHeight)

/-- The counts of consecutive rounds are linked: each round reads as the count
of the round before what the round before it assigned; `first` is the counter
before the rounds and `last` the counter after them. -/
def Linked : Nat → List Round → Nat → Prop
  | first, [], last => last = first
  | first, r :: rounds, last => r.previouslyExecuted = first ∧ Linked r.numToExecute rounds last

end Engine

end Bootstrap

/-!
# Eviction cache of the Merkle database (`x/merkledb/cache.go`)

The cache is used under its own lock, so `Flush` is a function of the cache
and of the state that `onEviction` acts on.
-/

namespace Merkledb

/-- The struct `wrappers.Errs`: the error collected so far, none for nil. -/
structure Errs (E : Type) where
  err : Option E
deriving DecidableEq, Repr

/-- Method `Errs.Add` with one argument.  The package `utils/wrappers` is not
among the translated sources.  As in that package, `Add` stores its argument
only while no error is held, so `Err` is the first non-nil error added. -/
def Errs.add {E : Type} (errs : Errs E) (e : Option E) : Errs E :=
  match errs.err with
  | some _ => errs
  | none => ⟨e⟩

/-- The struct `onEvictCache`, without its lock and its `onEviction` field.
The field `lru` lists the entries from the least to the most recently used,
the order in which the iterator of the linked hash map visits them; `cache`
lists the entries of the `cache.Cacher`. -/
structure onEvictCache (K V : Type) where
  maxSize : Int
  lru : List (K × V)
  cache : List (K × V)
deriving DecidableEq, Repr

/-- What `Flush` leaves behind: the cache, the state `onEviction` acts on, the
calls of `onEviction` in their order, each with the value passed and the error
returned, and the error `Flush` returns. -/
structure FlushResult (K V E S : Type) where
  cache : onEvictCache K V
  state : S
  evictions : List (V × Option E)
  err : Option E
deriving DecidableEq, Repr

/-- The loop `for iter.Next() { errs.Add(c.onEviction(iter.Value())) }` of
`Flush` over the entries the iterator has not visited yet. -/
def flushLoop {K V E S : Type} (onEviction : S → V → S × Option E) :
    List (K × V) → S → List (V × Option E) → Errs E → S × List (V × Option E) × Errs E
  | [], s, evictions, errs => (s, evictions, errs)
  | (_, val) :: rest, s, evictions, errs =>
    let r := onEviction s val
    flushLoop onEviction rest r.1 (evictions ++ [(val, r.2)]) (errs.add r.2)

/-- Method `Flush`.  The deferred function empties `cache` and `lru` after the
returned error has been read from `errs`. -/
def Flush {K V E S : Type} (onEviction : S → V → S × Option E) (c : onEvictCache K V) (s : S) :
    FlushResult K V E S :=
  let r := flushLoop onEviction c.lru s [] ⟨none⟩
  { cache := { c with cache := [], lru := [] }
    state := r.1
    evictions := r.2.1
    err := r.2.2.err }

/-- The first non-nil error of a sequence of results. -/
def firstError {E : Type} : List (Option E) → Option E
  | [] => none
  | some e :: _ => some e
  | none :: rest => firstError rest

/-- The last non-nil error of a sequence of results, in the words of the
comment of `Flush`. -/
def lastError {E : Type} (results : List (Option E)) : Option E :=
  firstError results.reverse

/-- A cache of size 2 that holds the values 10 and 20 under the keys 1 and 2,
key 1 being the least recently used. -/
def cacheTwo : onEvictCache Nat Nat :=
  { maxSize := 2, lru := [(1, 10), (2, 20)], cache := [(1, 10), (2, 20)] }

/-- An `onEviction` that counts its calls and fails on every value, with the
value as its error. -/
def failingEviction (calls : Nat) (val : Nat) : Nat × Option Nat :=
  (calls + 1, some val)

end Merkledb

namespace Bootstrap

section Lemmas

variable {H P T : Type}

theorem Respects.after {R : Bootstrapper H P T → Bootstrapper H P T → Prop}
    (hR : Respects R) {a b c : Bootstrapper H P T} (h2 : R b c) (h1 : R a b) : R a c :=
  hR.trans h1 h2

theorem Respects.frameEffects {R : Bootstrapper H P T → Bootstrapper H P T → Prop}
    (hR : Respects R) (b b' : Bootstrapper H P T)
    (hout : b'.outstandingRequests = b.outstandingRequests)
    (hstart : b'.startingHeight = b.startingHeight) (es : List Effect)
    (heff : b'.effects = b.effects ++ es)
    (hes : ∀ e ∈ es, ∀ n r c, e ≠ Effect.sendGetAncestors n r c) : R b b' := by
  induction es using List.reverseRecOn generalizing b' with
  | nil => exact hR.frame _ _ hout hstart (by simpa using heff)
  | append_singleton es e ih =>
    have h1 : R b { b' with effects := b.effects ++ es } :=
      ih _ hout hstart rfl (fun x hx => hes x (by simp [hx]))
    have h2 := hR.effect { b' with effects := b.effects ++ es } e (hes e (by simp))
    refine hR.trans h1 (hR.trans h2 (hR.frame _ _ rfl rfl ?_))
    simp [heff]

theorem good_of_rel {R : Bootstrapper H P T → Bootstrapper H P T → Prop}
    (hR : Respects R) {a b : Bootstrapper H P T} {r : Res H P T}
    (h2 : Good R b r) (h1 : R a b) : Good R a r :=
  ⟨hR.trans h1 h2.1, h2.2⟩

theorem markUnavailable_rel {R : Bootstrapper H P T → Bootstrapper H P T → Prop}
    (hR : Respects R) (cfg : Config H P T) (b : Bootstrapper H P T) (nodeID : NodeID) :
    R b (markUnavailable cfg b nodeID) := by
  unfold markUnavailable
  dsimp only
  split <;> exact hR.frame _ _ rfl rfl rfl

theorem fetch_good {R : Bootstrapper H P T → Bootstrapper H P T → Prop}
    (hR : Respects R) (cfg : Config H P T) (b : Bootstrapper H P T) (blkID : ID) :
    Good R b (fetch cfg b blkID) := by
  unfold fetch
  split
  · exact ⟨hR.refl _, by simp⟩
  · split
    · exact ⟨hR.refl _, by simp⟩
    · rename_i v _
      exact ⟨hR.trans (markUnavailable_rel hR cfg b v) (hR.issue _ v blkID), by simp⟩

theorem onFinished_good {R : Bootstrapper H P T → Bootstrapper H P T → Prop}
    (hR : Respects R) (cfg : Config H P T) (b : Bootstrapper H P T) :
    Good R b (onFinished cfg b) := by
  unfold onFinished
  refine ⟨hR.trans (hR.frame b { b with host := (cfg.onFinished b.host b.requestID).1 } rfl rfl rfl)
    (hR.effect _ _ (by simp)), ?_⟩
  cases h : (cfg.onFinished b.host b.requestID).2 <;> simp [h]

theorem getLastAcceptedHeight_err (cfg : Config H P T) (host : H) (e : Err)
    (h : getLastAcceptedHeight cfg host = .error e) : e ≠ Err.unexpectedTimeout := by
  unfold getLastAcceptedHeight at h
  split at h
  · cases h; simp
  · split at h
    · cases h; simp
    · cases h

theorem process_good {R : Bootstrapper H P T → Bootstrapper H P T → Prop}
    (hR : Respects R) (cfg : Config H P T) (b : Bootstrapper H P T) (blk : Block)
    (ancestors : Option (List (ID × Block))) :
    Good R b (process cfg b blk ancestors) := by
  unfold process
  split
  · rename_i e he
    exact ⟨hR.refl _, by simpa using getLastAcceptedHeight_err cfg _ e he⟩
  · dsimp only
    split
    · exact ⟨hR.frame _ _ rfl rfl rfl, by simp⟩
    · split
      · exact ⟨hR.frame _ _ rfl rfl rfl, by simp⟩
      · split
        · exact ⟨hR.frame _ _ rfl rfl rfl, by simp⟩
        · exact good_of_rel hR (fetch_good hR cfg _ _) (hR.frame _ _ rfl rfl rfl)

theorem goodOpt_of_good {R : Bootstrapper H P T → Bootstrapper H P T → Prop}
    {b : Bootstrapper H P T} {r : Res H P T} (h : Good R b r) : GoodOpt R b (some r) := by
  intro r' hr
  cases hr
  exact h

theorem goodOpt_of_rel {R : Bootstrapper H P T → Bootstrapper H P T → Prop}
    (hR : Respects R) {a b : Bootstrapper H P T} {o : Option (Res H P T)}
    (h2 : GoodOpt R b o) (h1 : R a b) : GoodOpt R a o :=
  fun r hr => good_of_rel hR (h2 r hr) h1

theorem fetchMissing_good {R : Bootstrapper H P T → Bootstrapper H P T → Prop}
    (hR : Respects R) (cfg : Config H P T) (l : List ID) :
    ∀ (b : Bootstrapper H P T) (toProcess : List Block),
      R b (fetchMissing cfg l b toProcess).1 ∧
        (fetchMissing cfg l b toProcess).2.2 ≠ some Err.unexpectedTimeout := by
  induction l with
  | nil => intro b tp; exact ⟨hR.refl _, by simp [fetchMissing]⟩
  | cons blkID rest ih =>
    intro b tp
    unfold fetchMissing
    split
    · have hf := fetch_good hR cfg b blkID
      split
      · rename_i b1 e he
        rw [he] at hf
        exact ⟨hf.1, hf.2⟩
      · rename_i b1 he
        rw [he] at hf
        exact ⟨hR.trans hf.1 (ih b1 tp).1, (ih b1 tp).2⟩
    · exact ih _ _

theorem processAll_good {R : Bootstrapper H P T → Bootstrapper H P T → Prop}
    (hR : Respects R) (cfg : Config H P T) (l : List Block) :
    ∀ (b : Bootstrapper H P T), Good R b (processAll cfg l b) := by
  induction l with
  | nil => intro b; exact ⟨hR.refl _, by simp [processAll]⟩
  | cons blk rest ih =>
    intro b
    unfold processAll
    have hp := process_good hR cfg b blk none
    split
    · rename_i b1 e he
      rw [he] at hp
      exact hp
    · rename_i b1 he
      rw [he] at hp
      exact good_of_rel hR (ih b1) hp.1

theorem notifyBootstrapped_rel {R : Bootstrapper H P T → Bootstrapper H P T → Prop}
    (hR : Respects R) (cfg : Config H P T) (b : Bootstrapper H P T) :
    R b (notifyBootstrapped cfg b) := by
  unfold notifyBootstrapped
  split
  · split
    · exact hR.refl _
    · rename_i callback _ _
      exact hR.trans
        (hR.frame b { b with bootstrappedOnce := true, host := callback b.host } rfl rfl rfl)
        (hR.effect _ Effect.bootstrappedCallback (by simp))
  · exact hR.refl _

theorem restartBootstrappingWith_good {R : Bootstrapper H P T → Bootstrapper H P T → Prop}
    (hR : Respects R) (sb : Bootstrapper H P T → Option (Res H P T)) (hsb : GoodCall R sb)
    (b : Bootstrapper H P T) : GoodOpt R b (restartBootstrappingWith sb b) := by
  unfold restartBootstrappingWith
  exact goodOpt_of_rel hR (hsb _)
    (hR.trans (hR.frame b { b with restarted := true } rfl rfl rfl) (hR.reset _))

theorem tryStartExecutingWith_good {R : Bootstrapper H P T → Bootstrapper H P T → Prop}
    (hR : Respects R) (cfg : Config H P T) (sb : Bootstrapper H P T → Option (Res H P T))
    (hsb : GoodCall R sb) (b : Bootstrapper H P T) :
    GoodOpt R b (tryStartExecutingWith cfg sb b) := by
  unfold tryStartExecutingWith
  split
  · exact goodOpt_of_good ⟨hR.refl _, by simp⟩
  · split
    · exact goodOpt_of_good ⟨hR.refl _, by simp⟩
    · split
      · rename_i e he
        exact goodOpt_of_good ⟨hR.refl _, by simpa using getLastAcceptedHeight_err cfg _ e he⟩
      · dsimp only
        split
        · refine goodOpt_of_good ⟨hR.frame _ _ rfl rfl rfl, ?_⟩
          cases (cfg.storageExecute b.host b.tree _).err <;> simp
        · split
          · exact goodOpt_of_rel hR (restartBootstrappingWith_good hR sb hsb _)
              (hR.frame _ _ rfl rfl rfl)
          · split
            · refine goodOpt_of_good ⟨?_, by simp⟩
              refine hR.after (hR.frameEffects (notifyBootstrapped cfg _) _ rfl rfl
                [Effect.trackerBootstrapped cfg.chainID, Effect.registerTimeout bootstrappingDelay]
                (by simp) (by simp)) ?_
              exact hR.after (notifyBootstrapped_rel hR cfg _) (hR.frame _ _ rfl rfl rfl)
            · refine goodOpt_of_good (good_of_rel hR (onFinished_good hR cfg _) ?_)
              refine hR.after (hR.frameEffects (notifyBootstrapped cfg _) _ rfl rfl
                [Effect.trackerBootstrapped cfg.chainID] (by simp) (by simp)) ?_
              exact hR.after (notifyBootstrapped_rel hR cfg _) (hR.frame _ _ rfl rfl rfl)

theorem fetchMissing_good_eq {R : Bootstrapper H P T → Bootstrapper H P T → Prop}
    (hR : Respects R) (cfg : Config H P T) {l : List ID} {b b1 : Bootstrapper H P T}
    {tp tp1 : List Block} {e : Option Err} (h : fetchMissing cfg l b tp = (b1, tp1, e)) :
    R b b1 ∧ e ≠ some Err.unexpectedTimeout := by
  have := fetchMissing_good hR cfg l b tp
  rw [h] at this
  exact this

theorem processAll_good_eq {R : Bootstrapper H P T → Bootstrapper H P T → Prop}
    (hR : Respects R) (cfg : Config H P T) {l : List Block} {b b1 : Bootstrapper H P T}
    {e : Option Err} (h : processAll cfg l b = (b1, e)) :
    R b b1 ∧ e ≠ some Err.unexpectedTimeout := by
  have := processAll_good hR cfg l b
  rw [h] at this
  exact this

theorem process_good_eq {R : Bootstrapper H P T → Bootstrapper H P T → Prop}
    (hR : Respects R) (cfg : Config H P T) {b b1 : Bootstrapper H P T} {blk : Block}
    {ancestors : Option (List (ID × Block))} {e : Option Err}
    (h : process cfg b blk ancestors = (b1, e)) :
    R b b1 ∧ e ≠ some Err.unexpectedTimeout := by
  have := process_good hR cfg b blk ancestors
  rw [h] at this
  exact this

theorem startSyncingWith_good {R : Bootstrapper H P T → Bootstrapper H P T → Prop}
    (hR : Respects R) (cfg : Config H P T) (sb : Bootstrapper H P T → Option (Res H P T))
    (hsb : GoodCall R sb) (b : Bootstrapper H P T) (accepted : List ID) :
    GoodOpt R b (startSyncingWith cfg sb b accepted) := by
  unfold startSyncingWith
  dsimp only
  split
  · rename_i b1 tp e he
    have h1 := fetchMissing_good_eq hR cfg he
    exact goodOpt_of_good ⟨hR.after h1.1 (hR.frame _ _ rfl rfl rfl), h1.2⟩
  · rename_i b1 tp he
    have h1 := fetchMissing_good_eq hR cfg he
    have h2 : R b b1 := hR.after h1.1 (hR.frame _ _ rfl rfl rfl)
    split
    · rename_i b2 e he2
      have h3 := processAll_good_eq hR cfg he2
      exact goodOpt_of_good
        ⟨hR.after h3.1 (hR.after (hR.frame b1 _ rfl rfl rfl) h2), h3.2⟩
    · rename_i b2 he2
      have h3 := processAll_good_eq hR cfg he2
      exact goodOpt_of_rel hR (tryStartExecutingWith_good hR cfg sb hsb b2)
        (hR.after h3.1 (hR.after (hR.frame b1 _ rfl rfl rfl) h2))

theorem sendBootstrappingMessagesOrFinishWith_good
    {R : Bootstrapper H P T → Bootstrapper H P T → Prop}
    (hR : Respects R) (cfg : Config H P T) (sb : Bootstrapper H P T → Option (Res H P T))
    (hsb : GoodCall R sb) (b : Bootstrapper H P T) :
    GoodOpt R b (sendBootstrappingMessagesOrFinishWith cfg sb b) := by
  unfold sendBootstrappingMessagesOrFinishWith
  dsimp only
  split
  · exact goodOpt_of_good ⟨hR.frameEffects b _ rfl rfl
      [Effect.sendGetAcceptedFrontier (cfg.pollGetPeers b.minority).1 b.requestID]
      (by simp) (by simp), by simp⟩
  · split
    · exact goodOpt_of_good ⟨hR.frame b _ rfl rfl rfl, by simp⟩
    · split
      · exact goodOpt_of_good ⟨hR.frameEffects b _ rfl rfl
          [Effect.sendGetAccepted (cfg.pollGetPeers b.majority).1 b.requestID
            (cfg.pollResult (cfg.pollGetPeers b.minority).2).1]
          (by simp) (by simp), by simp⟩
      · split
        · exact goodOpt_of_good ⟨hR.frame b _ rfl rfl rfl, by simp⟩
        · split
          · exact goodOpt_of_rel hR (hsb _) (hR.frame b _ rfl rfl rfl)
          · exact goodOpt_of_rel hR (startSyncingWith_good hR cfg sb hsb _ _)
              (hR.frame b _ rfl rfl rfl)

theorem startBootstrapping_good {R : Bootstrapper H P T → Bootstrapper H P T → Prop}
    (hR : Respects R) (cfg : Config H P T) (fuel : Nat) :
    GoodCall R (startBootstrapping cfg fuel) := by
  induction fuel with
  | zero => intro b r h; simp [startBootstrapping] at h
  | succ fuel ih =>
    intro b
    unfold startBootstrapping
    dsimp only
    split
    · exact goodOpt_of_good ⟨hR.refl _, by simp⟩
    · split
      · exact goodOpt_of_rel hR (startSyncingWith_good hR cfg _ ih _ _)
          (hR.frame b _ rfl rfl rfl)
      · exact goodOpt_of_rel hR (sendBootstrappingMessagesOrFinishWith_good hR cfg _ ih _)
          (hR.frame b _ rfl rfl rfl)

theorem tryStartBootstrapping_good {R : Bootstrapper H P T → Bootstrapper H P T → Prop}
    (hR : Respects R) (cfg : Config H P T) (fuel : Nat) (b : Bootstrapper H P T) :
    GoodOpt R b (tryStartBootstrapping cfg fuel b) := by
  unfold tryStartBootstrapping
  split
  · exact goodOpt_of_good ⟨hR.refl _, by simp⟩
  · exact goodOpt_of_rel hR (startBootstrapping_good hR cfg fuel _) (hR.frame b _ rfl rfl rfl)

theorem pollHandler_good {R : Bootstrapper H P T → Bootstrapper H P T → Prop}
    (hR : Respects R) (cfg : Config H P T) (fuel : Nat) (b : Bootstrapper H P T) :
    GoodOpt R b (sendBootstrappingMessagesOrFinish cfg fuel b) :=
  sendBootstrappingMessagesOrFinishWith_good hR cfg _ (startBootstrapping_good hR cfg fuel) b

theorem AcceptedFrontier_good {R : Bootstrapper H P T → Bootstrapper H P T → Prop}
    (hR : Respects R) (cfg : Config H P T) (fuel : Nat) (b : Bootstrapper H P T)
    (nodeID : NodeID) (requestID : Nat) (containerID : ID) :
    GoodOpt R b (AcceptedFrontier cfg fuel b nodeID requestID containerID) := by
  unfold AcceptedFrontier
  dsimp only
  split
  · exact goodOpt_of_good ⟨hR.refl _, by simp⟩
  · split
    · exact goodOpt_of_good ⟨hR.frame b _ rfl rfl rfl, by simp⟩
    · exact goodOpt_of_rel hR (pollHandler_good hR cfg fuel _) (hR.frame b _ rfl rfl rfl)

theorem GetAcceptedFrontierFailed_good {R : Bootstrapper H P T → Bootstrapper H P T → Prop}
    (hR : Respects R) (cfg : Config H P T) (fuel : Nat) (b : Bootstrapper H P T)
    (nodeID : NodeID) (requestID : Nat) :
    GoodOpt R b (GetAcceptedFrontierFailed cfg fuel b nodeID requestID) := by
  unfold GetAcceptedFrontierFailed
  dsimp only
  split
  · exact goodOpt_of_good ⟨hR.refl _, by simp⟩
  · split
    · exact goodOpt_of_good ⟨hR.frame b _ rfl rfl rfl, by simp⟩
    · exact goodOpt_of_rel hR (pollHandler_good hR cfg fuel _) (hR.frame b _ rfl rfl rfl)

theorem Accepted_good {R : Bootstrapper H P T → Bootstrapper H P T → Prop}
    (hR : Respects R) (cfg : Config H P T) (fuel : Nat) (b : Bootstrapper H P T)
    (nodeID : NodeID) (requestID : Nat) (containerIDs : List ID) :
    GoodOpt R b (Accepted cfg fuel b nodeID requestID containerIDs) := by
  unfold Accepted
  dsimp only
  split
  · exact goodOpt_of_good ⟨hR.refl _, by simp⟩
  · split
    · exact goodOpt_of_good ⟨hR.frame b _ rfl rfl rfl, by simp⟩
    · exact goodOpt_of_rel hR (pollHandler_good hR cfg fuel _) (hR.frame b _ rfl rfl rfl)

theorem GetAcceptedFailed_good {R : Bootstrapper H P T → Bootstrapper H P T → Prop}
    (hR : Respects R) (cfg : Config H P T) (fuel : Nat) (b : Bootstrapper H P T)
    (nodeID : NodeID) (requestID : Nat) :
    GoodOpt R b (GetAcceptedFailed cfg fuel b nodeID requestID) := by
  unfold GetAcceptedFailed
  dsimp only
  split
  · exact goodOpt_of_good ⟨hR.refl _, by simp⟩
  · split
    · exact goodOpt_of_good ⟨hR.frame b _ rfl rfl rfl, by simp⟩
    · exact goodOpt_of_rel hR (pollHandler_good hR cfg fuel _) (hR.frame b _ rfl rfl rfl)

theorem Connected_good {R : Bootstrapper H P T → Bootstrapper H P T → Prop}
    (hR : Respects R) (cfg : Config H P T) (fuel : Nat) (b : Bootstrapper H P T)
    (nodeID : NodeID) (nodeVersion : Nat) :
    GoodOpt R b (Connected cfg fuel b nodeID nodeVersion) := by
  unfold Connected
  dsimp only
  split
  · exact goodOpt_of_good ⟨hR.frame b _ rfl rfl rfl, by simp⟩
  · split
    · exact goodOpt_of_good ⟨hR.frame b _ rfl rfl rfl, by simp⟩
    · refine goodOpt_of_rel hR (tryStartBootstrapping_good hR cfg fuel _) ?_
      split <;> exact hR.frame b _ rfl rfl rfl

theorem Disconnected_good {R : Bootstrapper H P T → Bootstrapper H P T → Prop}
    (hR : Respects R) (cfg : Config H P T) (b : Bootstrapper H P T) (nodeID : NodeID) :
    Good R b (Disconnected cfg b nodeID) := by
  unfold Disconnected
  dsimp only
  split
  · exact ⟨hR.frame b _ rfl rfl rfl, by simp⟩
  · split
    · exact ⟨hR.frame b _ rfl rfl rfl, by simp⟩
    · exact ⟨hR.after (markUnavailable_rel hR cfg _ nodeID) (hR.frame b _ rfl rfl rfl), by simp⟩

theorem GetAncestorsFailed_good_of_key {R : Bootstrapper H P T → Bootstrapper H P T → Prop}
    (hR : Respects R) (cfg : Config H P T) (b : Bootstrapper H P T)
    (nodeID : NodeID) (requestID : Nat) (blkID : ID)
    (hk : (b.outstandingRequests.deleteKey ⟨nodeID, requestID⟩).1 = some blkID) :
    Good R { b with outstandingRequests := (b.outstandingRequests.deleteKey ⟨nodeID, requestID⟩).2 }
      (GetAncestorsFailed cfg b nodeID requestID) := by
  unfold GetAncestorsFailed
  dsimp only
  rw [hk]
  exact good_of_rel hR (fetch_good hR cfg _ _) (hR.frame _ _ rfl rfl rfl)

theorem GetAncestorsFailed_good {R : Bootstrapper H P T → Bootstrapper H P T → Prop}
    (hR : Respects R) (cfg : Config H P T) (b : Bootstrapper H P T)
    (nodeID : NodeID) (requestID : Nat) :
    Good R b (GetAncestorsFailed cfg b nodeID requestID) := by
  cases hk : (b.outstandingRequests.deleteKey ⟨nodeID, requestID⟩).1 with
  | none =>
    unfold GetAncestorsFailed
    dsimp only
    rw [hk]
    exact ⟨hR.refl _, by simp⟩
  | some blkID =>
    exact good_of_rel hR (GetAncestorsFailed_good_of_key hR cfg b nodeID requestID blkID hk)
      (hR.delete b ⟨nodeID, requestID⟩)

theorem Ancestors_good_of_key {R : Bootstrapper H P T → Bootstrapper H P T → Prop}
    (hR : Respects R) (cfg : Config H P T) (fuel : Nat) (b : Bootstrapper H P T)
    (nodeID : NodeID) (requestID : Nat) (blks : List Bytes) (blkID : ID)
    (hk : (b.outstandingRequests.deleteKey ⟨nodeID, requestID⟩).1 = some blkID) :
    GoodOpt R
      { b with outstandingRequests := (b.outstandingRequests.deleteKey ⟨nodeID, requestID⟩).2 }
      (Ancestors cfg fuel b nodeID requestID blks) := by
  unfold Ancestors
  dsimp only
  rw [hk]
  dsimp only
  split
  · exact goodOpt_of_good (good_of_rel hR (fetch_good hR cfg _ _)
      (markUnavailable_rel hR cfg _ nodeID))
  · split
    · intro r hr
      cases hr
    · split
      · exact goodOpt_of_good (good_of_rel hR (fetch_good hR cfg _ _)
          (hR.frame _ _ rfl rfl rfl))
      · exact goodOpt_of_good (good_of_rel hR (fetch_good hR cfg _ _)
          (hR.frame _ _ rfl rfl rfl))
      · split
        · exact goodOpt_of_good (good_of_rel hR (fetch_good hR cfg _ _)
            (hR.frame _ _ rfl rfl rfl))
        · split
          · rename_i b1 e he
            have hp := process_good_eq hR cfg he
            exact goodOpt_of_good ⟨hR.after hp.1 (hR.frame _ _ rfl rfl rfl), hp.2⟩
          · rename_i b1 he
            have hp := process_good_eq hR cfg he
            exact goodOpt_of_rel hR
              (tryStartExecutingWith_good hR cfg _ (startBootstrapping_good hR cfg fuel) b1)
              (hR.after hp.1 (hR.frame _ _ rfl rfl rfl))

theorem Ancestors_good {R : Bootstrapper H P T → Bootstrapper H P T → Prop}
    (hR : Respects R) (cfg : Config H P T) (fuel : Nat) (b : Bootstrapper H P T)
    (nodeID : NodeID) (requestID : Nat) (blks : List Bytes) :
    GoodOpt R b (Ancestors cfg fuel b nodeID requestID blks) := by
  cases hk : (b.outstandingRequests.deleteKey ⟨nodeID, requestID⟩).1 with
  | none =>
    unfold Ancestors
    dsimp only
    rw [hk]
    exact goodOpt_of_good ⟨hR.refl _, by simp⟩
  | some blkID =>
    exact goodOpt_of_rel hR (Ancestors_good_of_key hR cfg fuel b nodeID requestID blks blkID hk)
      (hR.delete b ⟨nodeID, requestID⟩)

theorem Timeout_rel {R : Bootstrapper H P T → Bootstrapper H P T → Prop}
    (hR : Respects R) (cfg : Config H P T) (fuel : Nat) (b : Bootstrapper H P T)
    (r : Res H P T) (h : Timeout cfg fuel b = some r) : R b r.1 := by
  unfold Timeout at h
  dsimp only at h
  split at h
  · cases h; exact hR.refl _
  · split at h
    · exact hR.trans (hR.frame b { b with awaitingTimeout := false } rfl rfl rfl)
        (restartBootstrappingWith_good hR _ (startBootstrapping_good hR cfg fuel) _ r h).1
    · cases h
      exact hR.after (onFinished_good hR cfg _).1 (hR.frame b _ rfl rfl rfl)

theorem Start_rel {R : Bootstrapper H P T → Bootstrapper H P T → Prop}
    (hR : Respects R)
    (hfree : ∀ (b b' : Bootstrapper H P T), b'.outstandingRequests = b.outstandingRequests →
      b'.effects = b.effects → R b b')
    (cfg : Config H P T) (fuel : Nat) (b : Bootstrapper H P T) (startReqID : Nat)
    (r : Res H P T) (h : Start cfg fuel b startReqID = some r) : R b r.1 := by
  unfold Start at h
  dsimp only at h
  split at h
  · cases h; exact hfree _ _ rfl rfl
  · split at h
    · cases h; exact hfree _ _ rfl rfl
    · split at h
      · cases h; exact hfree _ _ rfl rfl
      · split at h
        · cases h; exact hfree _ _ rfl rfl
        · exact hR.after (tryStartBootstrapping_good hR cfg fuel _ r h).1 (hfree _ _ rfl rfl)

/-- Every entry point other than `Start` relates the state before to the state after. -/
theorem dispatch_rel {R : Bootstrapper H P T → Bootstrapper H P T → Prop}
    (hR : Respects R) (cfg : Config H P T) (fuel : Nat) (b : Bootstrapper H P T) (c : Call)
    (hc : ∀ startReqID, c ≠ Call.start startReqID)
    (r : Res H P T) (h : dispatch cfg fuel b c = some r) : R b r.1 := by
  cases c with
  | start startReqID => exact absurd rfl (hc startReqID)
  | connected nodeID nodeVersion => exact (Connected_good hR cfg fuel b nodeID nodeVersion r h).1
  | disconnected nodeID =>
    simp only [dispatch, Option.some.injEq] at h
    exact h ▸ (Disconnected_good hR cfg b nodeID).1
  | acceptedFrontier nodeID requestID containerID =>
    exact (AcceptedFrontier_good hR cfg fuel b nodeID requestID containerID r h).1
  | getAcceptedFrontierFailed nodeID requestID =>
    exact (GetAcceptedFrontierFailed_good hR cfg fuel b nodeID requestID r h).1
  | accepted nodeID requestID containerIDs =>
    exact (Accepted_good hR cfg fuel b nodeID requestID containerIDs r h).1
  | getAcceptedFailed nodeID requestID =>
    exact (GetAcceptedFailed_good hR cfg fuel b nodeID requestID r h).1
  | ancestors nodeID requestID blks =>
    exact (Ancestors_good hR cfg fuel b nodeID requestID blks r h).1
  | getAncestorsFailed nodeID requestID =>
    simp only [dispatch, Option.some.injEq] at h
    exact h ▸ (GetAncestorsFailed_good hR cfg b nodeID requestID).1
  | timeout => exact Timeout_rel hR cfg fuel b r h

/-- Every entry point relates the state before to the state after when the
relation does not look at the starting height. -/
theorem dispatch_rel_free {R : Bootstrapper H P T → Bootstrapper H P T → Prop}
    (hR : Respects R)
    (hfree : ∀ (b b' : Bootstrapper H P T), b'.outstandingRequests = b.outstandingRequests →
      b'.effects = b.effects → R b b')
    (cfg : Config H P T) (fuel : Nat) (b : Bootstrapper H P T) (c : Call)
    (r : Res H P T) (h : dispatch cfg fuel b c = some r) : R b r.1 := by
  by_cases hc : ∀ startReqID, c ≠ Call.start startReqID
  · exact dispatch_rel hR cfg fuel b c hc r h
  · push_neg at hc
    obtain ⟨startReqID, rfl⟩ := hc
    exact Start_rel hR hfree cfg fuel b startReqID r h

/-! ## Facts about the registry -/

theorem BiMap.hasKey_empty (k : Request) : BiMap.empty.hasKey k = false := rfl

theorem BiMap.hasKey_deleteKey_self (m : BiMap) (k : Request) :
    (m.deleteKey k).2.hasKey k = false := by
  simp [BiMap.deleteKey, BiMap.hasKey]

theorem BiMap.hasKey_of_deleteKey (m : BiMap) (k k' : Request)
    (h : (m.deleteKey k).2.hasKey k' = true) : m.hasKey k' = true := by
  simp only [BiMap.deleteKey, BiMap.hasKey, List.any_eq_true, List.mem_filter] at h ⊢
  obtain ⟨e, ⟨he, _⟩, hk⟩ := h
  exact ⟨e, he, hk⟩

theorem BiMap.hasKey_of_put (m : BiMap) (k k' : Request) (v : ID)
    (h : (m.put k v).hasKey k' = true) : k' = k ∨ m.hasKey k' = true := by
  simp only [BiMap.put, BiMap.hasKey, List.any_eq_true, List.mem_append, List.mem_filter,
    List.mem_singleton] at h ⊢
  obtain ⟨e, he, hk⟩ := h
  rcases he with ⟨he, _⟩ | rfl
  · exact Or.inr ⟨e, he, hk⟩
  · exact Or.inl (by simp at hk; exact hk.symm)

theorem BiMap.deleteKey_fst_of_hasKey (m : BiMap) (k : Request) (h : m.hasKey k = true) :
    ∃ v, (m.deleteKey k).1 = some v := by
  simp only [BiMap.hasKey, List.any_eq_true] at h
  obtain ⟨e, he, hk⟩ := h
  cases hf : m.entries.find? (fun e => e.1 == k) with
  | none =>
    rw [List.find?_eq_none] at hf
    exact absurd hk (hf e he)
  | some x => exact ⟨x.2, by simp [BiMap.deleteKey, BiMap.getValue, hf]⟩

theorem BiMap.deleteKey_fst_of_not_hasKey (m : BiMap) (k : Request) (h : m.hasKey k = false) :
    (m.deleteKey k).1 = none := by
  cases hf : m.entries.find? (fun e => e.1 == k) with
  | none => simp [BiMap.deleteKey, BiMap.getValue, hf]
  | some x =>
    have hx := List.find?_some hf
    have hm := List.mem_of_find?_eq_some hf
    have : m.hasKey k = true := by
      simp only [BiMap.hasKey, List.any_eq_true]
      exact ⟨x, hm, hx⟩
    rw [h] at this
    cases this

theorem ValuesUnique_empty : ValuesUnique BiMap.empty := by
  simp [ValuesUnique, BiMap.empty]

theorem ValuesUnique_deleteKey (m : BiMap) (k : Request) (h : ValuesUnique m) :
    ValuesUnique (m.deleteKey k).2 := by
  unfold ValuesUnique at h ⊢
  exact h.sublist ((List.filter_sublist _).map _)

theorem ValuesUnique_put (m : BiMap) (k : Request) (v : ID) (h : ValuesUnique m) :
    ValuesUnique (m.put k v) := by
  unfold ValuesUnique at h ⊢
  simp only [BiMap.put, List.map_append, List.map_cons, List.map_nil]
  rw [List.nodup_append]
  refine ⟨h.sublist ((List.filter_sublist _).map _), by simp, ?_⟩
  intro a ha hb
  simp only [List.mem_singleton] at hb
  subst hb
  simp only [List.mem_map, List.mem_filter] at ha
  obtain ⟨e, ⟨_, he⟩, rfl⟩ := ha
  simp at he

/-! ## Relations that the engine respects -/

theorem respects_valuesUnique : Respects (fun (b b' : Bootstrapper H P T) =>
    ValuesUnique b.outstandingRequests → ValuesUnique b'.outstandingRequests) where
  refl := fun _ h => h
  trans := fun h1 h2 h => h2 (h1 h)
  frame := fun _ _ ho _ _ h => ho ▸ h
  effect := fun _ _ _ h => h
  reset := fun _ _ => ValuesUnique_empty
  delete := fun b k h => ValuesUnique_deleteKey b.outstandingRequests k h
  issue := fun b _ blkID h => ValuesUnique_put b.outstandingRequests _ blkID h

theorem respects_startingHeight : Respects (fun (b b' : Bootstrapper H P T) =>
    b'.startingHeight = b.startingHeight) where
  refl := fun _ => rfl
  trans := fun h1 h2 => h2.trans h1
  frame := fun _ _ _ hs _ => hs
  effect := fun _ _ _ => rfl
  reset := fun _ => rfl
  delete := fun _ _ => rfl
  issue := fun _ _ _ => rfl

theorem respects_true : Respects (fun (_ _ : Bootstrapper H P T) => True) where
  refl := fun _ => trivial
  trans := fun _ _ => trivial
  frame := fun _ _ _ _ _ => trivial
  effect := fun _ _ _ => trivial
  reset := fun _ => trivial
  delete := fun _ _ => trivial
  issue := fun _ _ _ => trivial

theorem sentAncestors_append (es1 es2 : List Effect) :
    sentAncestors (es1 ++ es2) = sentAncestors es1 ++ sentAncestors es2 := by
  simp [sentAncestors, List.filterMap_append]

theorem respects_keysFromSends : Respects (KeysFromSends : Bootstrapper H P T → _ → Prop) where
  refl := fun b => ⟨[], by simp, fun k h => Or.inl h⟩
  trans := by
    rintro a b c ⟨es1, h1, k1⟩ ⟨es2, h2, k2⟩
    refine ⟨es1 ++ es2, by rw [h2, h1, List.append_assoc], fun k hk => ?_⟩
    rw [sentAncestors_append, List.mem_append]
    rcases k2 k hk with h | h
    · rcases k1 k h with h | h
      · exact Or.inl h
      · exact Or.inr (Or.inl h)
    · exact Or.inr (Or.inr h)
  frame := fun b b' ho _ he => ⟨[], by simp [he], fun k h => Or.inl (ho ▸ h)⟩
  effect := fun b e _ => ⟨[e], rfl, fun k h => Or.inl h⟩
  reset := fun b => ⟨[], by simp, fun k h => by simp [BiMap.hasKey_empty] at h⟩
  delete := fun b k => ⟨[], by simp, fun k' h => Or.inl (BiMap.hasKey_of_deleteKey _ _ _ h)⟩
  issue := fun b v blkID => ⟨[Effect.sendGetAncestors v ((b.requestID + 1) % 2 ^ 32) blkID], rfl,
    fun k h => by
      rcases BiMap.hasKey_of_put _ _ _ _ h with h | h
      · exact Or.inr (by simp [sentAncestors, h])
      · exact Or.inl h⟩

/-! ## Runs of the engine -/

theorem Steps_rel {R : Bootstrapper H P T → Bootstrapper H P T → Prop} (hR : Respects R)
    (cfg : Config H P T) {b b' : Bootstrapper H P T} (h : Steps cfg notStart b b') : R b b' := by
  induction h with
  | refl => exact hR.refl _
  | call fuel c _ hc hd ih =>
    refine hR.trans ih (dispatch_rel hR cfg fuel _ c ?_ _ hd)
    intro startReqID hs
    subst hs
    exact hc
  | host host _ ih => exact hR.trans ih (hR.frame _ _ rfl rfl rfl)

theorem Steps_rel_free {R : Bootstrapper H P T → Bootstrapper H P T → Prop} (hR : Respects R)
    (hfree : ∀ (b b' : Bootstrapper H P T), b'.outstandingRequests = b.outstandingRequests →
      b'.effects = b.effects → R b b')
    (cfg : Config H P T) {allowed : Call → Prop} {b b' : Bootstrapper H P T}
    (h : Steps cfg allowed b b') : R b b' := by
  induction h with
  | refl => exact hR.refl _
  | call fuel c _ _ hd ih => exact hR.trans ih (dispatch_rel_free hR hfree cfg fuel _ c _ hd)
  | host host _ ih => exact hR.trans ih (hR.frame _ _ rfl rfl rfl)

theorem reachable_valuesUnique (cfg : Config H P T) (b : Bootstrapper H P T)
    (h : Reachable cfg b) : ValuesUnique b.outstandingRequests := by
  obtain ⟨host, hs⟩ := h
  exact Steps_rel_free respects_valuesUnique (fun _ _ ho _ h => ho ▸ h) cfg hs ValuesUnique_empty

/-! ## The concrete states -/

theorem stateA_start :
    dispatch testConfig 1 (New testConfig hostA) (Call.start 0) = some (stateA, none) := by
  decide!

theorem stateA_reachable : Reachable testConfig stateA :=
  ⟨hostA, Steps.call 1 (Call.start 0) (Steps.refl _) trivial stateA_start⟩

/-! ## Claims -/

theorem markUnavailable_outstandingRequests (cfg : Config H P T) (b : Bootstrapper H P T)
    (nodeID : NodeID) :
    (markUnavailable cfg b nodeID).outstandingRequests = b.outstandingRequests := by
  unfold markUnavailable
  dsimp only
  split <;> rfl

/-- C1, as amended.  `fetch` keeps the registry at one entry per peer whenever
the peer that `Peek` selects from `fetchFrom` has no outstanding request. -/
theorem C1_fetch_keeps_one_request_per_peer (cfg : Config H P T) (b : Bootstrapper H P T)
    (blkID : ID) (hu : PerPeerUnique b.outstandingRequests)
    (hfree : ∀ v, peek cfg b.fetchFrom = some v →
      ∀ e ∈ b.outstandingRequests.entries, e.1.nodeID ≠ v) :
    PerPeerUnique (fetch cfg b blkID).1.outstandingRequests := by
  unfold fetch
  split
  · exact hu
  · split
    · exact hu
    · rename_i v hv
      have hfree' := hfree v hv
      dsimp only
      rw [markUnavailable_outstandingRequests]
      intro e1 h1 e2 h2 hn
      simp only [BiMap.put, List.mem_append, List.mem_filter, List.mem_singleton] at h1 h2
      rcases h1 with ⟨h1, _⟩ | rfl
      · rcases h2 with ⟨h2, _⟩ | rfl
        · exact hu e1 h1 e2 h2 hn
        · exact absurd hn (hfree' e1 h1)
      · rcases h2 with ⟨h2, _⟩ | rfl
        · exact absurd hn.symm (hfree' e2 h2)
        · rfl

/-- C1, witness.  With a request outstanding at peer 8 and peer 7 free, a
fetch of block 2 leaves one entry per peer. -/
theorem C1_witness : PerPeerUnique (fetch testConfig stateB 2).1.outstandingRequests :=
  C1_fetch_keeps_one_request_per_peer testConfig stateB 2
    (by intro e1 h1 e2 h2 _
        simp only [stateB, List.mem_singleton] at h1 h2
        rw [h1, h2])
    (by intro v hv e he
        simp only [stateB, List.mem_singleton] at he
        have : v = 7 := by
          have h7 : peek testConfig stateB.fetchFrom = some 7 := rfl
          rw [h7] at hv
          exact (Option.some.inj hv).symm
        subst this
        rw [he]
        decide)

/-- C1, counterexample.  After `Start(0)` on a node whose only peer is 7 and
whose database misses blocks 1 and 2, the drained fetch pool has been refilled
from the preferred peers and peer 7 holds two outstanding requests. -/
theorem C1_counterexample :
    Reachable testConfig stateA ∧ ¬ PerPeerUnique stateA.outstandingRequests := by
  refine ⟨stateA_reachable, fun h => ?_⟩
  have := h (⟨7, 1⟩, 1) (by simp [stateA]) (⟨7, 2⟩, 2) (by simp [stateA]) rfl
  simp at this

/-- C2.  In every reachable state no two outstanding requests expect the same
block, and `fetch` of a block that an outstanding request already expects
returns nil and changes nothing (no message, same `requestID`, `fetchFrom` and
registry). -/
theorem C2_no_duplicate_block_requests (cfg : Config H P T) :
    (∀ b, Reachable cfg b → ValuesUnique b.outstandingRequests) ∧
    (∀ (b : Bootstrapper H P T) (blkID : ID),
      b.outstandingRequests.hasValue blkID = true → fetch cfg b blkID = (b, none)) := by
  refine ⟨reachable_valuesUnique cfg, fun b blkID h => ?_⟩
  unfold fetch
  rw [if_pos h]

/-- C2, witness.  In the state reached by `Start(0)` the two requests expect
different blocks, and fetching block 1 again does nothing. -/
theorem C2_witness :
    ValuesUnique stateA.outstandingRequests ∧ fetch testConfig stateA 1 = (stateA, none) :=
  ⟨(C2_no_duplicate_block_requests testConfig).1 stateA stateA_reachable,
    (C2_no_duplicate_block_requests testConfig).2 stateA 1 (by decide)⟩

theorem sentAncestorsSince_append (effects es : List Effect) :
    sentAncestorsSince effects.length (effects ++ es) = sentAncestors es := by
  simp [sentAncestorsSince]

theorem keysFromSends_absent {b1 b' : Bootstrapper H P T} {n : Nat} (k : Request)
    (h : KeysFromSends b1 b') (hn : b1.effects.length = n)
    (hk : b1.outstandingRequests.hasKey k = false)
    (hs : k ∉ sentAncestorsSince n b'.effects) :
    b'.outstandingRequests.hasKey k = false := by
  obtain ⟨es, he, hkeys⟩ := h
  subst hn
  rw [he, sentAncestorsSince_append] at hs
  cases hb : b'.outstandingRequests.hasKey k with
  | false => rfl
  | true =>
    rcases hkeys k hb with h1 | h1
    · rw [hk] at h1; cases h1
    · exact absurd h1 hs

theorem GetAncestorsFailed_sent (cfg : Config H P T) (b : Bootstrapper H P T)
    (nodeID : NodeID) (requestID : Nat) :
    ∀ k ∈ sentAncestorsSince b.effects.length (GetAncestorsFailed cfg b nodeID requestID).1.effects,
      k.requestID = (b.requestID + 1) % 2 ^ 32 := by
  intro k hk
  unfold GetAncestorsFailed at hk
  dsimp only at hk
  split at hk
  · simp [sentAncestorsSince, sentAncestors] at hk
  · unfold fetch at hk
    dsimp only at hk
    split at hk
    · simp [sentAncestorsSince, sentAncestors] at hk
    · split at hk
      · simp [sentAncestorsSince, sentAncestors] at hk
      · have hm : ∀ (x : Bootstrapper H P T) (v : NodeID),
            (markUnavailable cfg x v).effects = x.effects ∧
            (markUnavailable cfg x v).requestID = x.requestID := by
          intro x v
          unfold markUnavailable
          dsimp only
          split <;> exact ⟨rfl, rfl⟩
        simp only [(hm _ _).1, (hm _ _).2, sentAncestorsSince, sentAncestors,
          List.drop_left, List.filterMap_cons, List.filterMap_nil, List.mem_singleton] at hk
        rw [hk]

/-- C3, as amended.  When `(nodeID, requestID)` is outstanding, `Ancestors` and
`GetAncestorsFailed` delete that entry, and the key is in the registry after
the call only if the call itself sent a new `GetAncestors` request to `nodeID`
under the same request ID; for `GetAncestorsFailed` that requires `requestID`
to be the successor of the request counter modulo 2^32. -/
theorem C3_answered_request_leaves_registry (cfg : Config H P T) (fuel : Nat)
    (b : Bootstrapper H P T) (nodeID : NodeID) (requestID : Nat) (blks : List Bytes)
    (hk : b.outstandingRequests.hasKey ⟨nodeID, requestID⟩ = true) :
    (∀ b' e, Ancestors cfg fuel b nodeID requestID blks = some (b', e) →
      ⟨nodeID, requestID⟩ ∉ sentAncestorsSince b.effects.length b'.effects →
      b'.outstandingRequests.hasKey ⟨nodeID, requestID⟩ = false) ∧
    (⟨nodeID, requestID⟩ ∉ sentAncestorsSince b.effects.length
        (GetAncestorsFailed cfg b nodeID requestID).1.effects →
      (GetAncestorsFailed cfg b nodeID requestID).1.outstandingRequests.hasKey
        ⟨nodeID, requestID⟩ = false) ∧
    (requestID ≠ (b.requestID + 1) % 2 ^ 32 →
      (GetAncestorsFailed cfg b nodeID requestID).1.outstandingRequests.hasKey
        ⟨nodeID, requestID⟩ = false) := by
  obtain ⟨w, hw⟩ := BiMap.deleteKey_fst_of_hasKey _ _ hk
  have hfailed : ⟨nodeID, requestID⟩ ∉ sentAncestorsSince b.effects.length
        (GetAncestorsFailed cfg b nodeID requestID).1.effects →
      (GetAncestorsFailed cfg b nodeID requestID).1.outstandingRequests.hasKey
        ⟨nodeID, requestID⟩ = false := by
    intro hs
    have hg := GetAncestorsFailed_good_of_key respects_keysFromSends cfg b nodeID requestID w hw
    exact keysFromSends_absent _ hg.1 rfl (BiMap.hasKey_deleteKey_self _ _) hs
  refine ⟨fun b' e h hs => ?_, hfailed, fun hne => hfailed (fun hmem => ?_)⟩
  · have hg := Ancestors_good_of_key respects_keysFromSends cfg fuel b nodeID requestID blks w hw
      (b', e) h
    exact keysFromSends_absent _ hg.1 rfl (BiMap.hasKey_deleteKey_self _ _) hs
  · exact hne (GetAncestorsFailed_sent cfg b nodeID requestID _ hmem)

/-- C3, witness.  In the state reached by `Start(0)`, a timeout of request
`(7, 1)` removes that key: the block is requested again under request ID 3. -/
theorem C3_witness :
    (GetAncestorsFailed testConfig stateA 7 1).1.outstandingRequests.hasKey ⟨7, 1⟩ = false :=
  (C3_answered_request_leaves_registry testConfig 0 stateA 7 1 [] (by decide)).2.2 (by decide)

theorem stateC1_start :
    dispatch testConfig 1 (New testConfig hostC) (Call.start 4) = some (stateC1, none) := by
  decide!

theorem stateC_start : dispatch testConfig 1 stateC1 (Call.start 4) = some (stateC, none) := by
  decide!

/-- C3, counterexample.  After `Start(4)` has been called twice the request
counter is 4 again while request `(7, 5)` is outstanding; the timeout of that
request re-issues the fetch to peer 7 under request ID 5, so the key `(7, 5)`
is in the registry after `GetAncestorsFailed(7, 5)` has returned. -/
theorem C3_counterexample :
    Reachable testConfig stateC ∧
    stateC.outstandingRequests.hasKey ⟨7, 5⟩ = true ∧
    (GetAncestorsFailed testConfig stateC 7 5).2 = none ∧
    (GetAncestorsFailed testConfig stateC 7 5).1.outstandingRequests.hasKey ⟨7, 5⟩ = true := by
  refine ⟨⟨hostC, ?_⟩, by decide, by decide, by decide⟩
  exact Steps.call 1 (Call.start 4)
    (Steps.call 1 (Call.start 4) (Steps.refl _) trivial stateC1_start) trivial stateC_start

/-- C4.  `AcceptedFrontier`, `GetAcceptedFrontierFailed`, `Accepted` and
`GetAcceptedFailed` with a request ID other than the current `requestID`
return nil and leave the whole engine state as it was: no opinion reaches a
poll, no message is sent, no field changes. -/
theorem C4_stale_poll_replies_dropped (cfg : Config H P T) (fuel : Nat)
    (b : Bootstrapper H P T) (nodeID : NodeID) (requestID : Nat) (containerID : ID)
    (containerIDs : List ID) (h : requestID ≠ b.requestID) :
    AcceptedFrontier cfg fuel b nodeID requestID containerID = some (b, none) ∧
    GetAcceptedFrontierFailed cfg fuel b nodeID requestID = some (b, none) ∧
    Accepted cfg fuel b nodeID requestID containerIDs = some (b, none) ∧
    GetAcceptedFailed cfg fuel b nodeID requestID = some (b, none) := by
  refine ⟨?_, ?_, ?_, ?_⟩
  · unfold AcceptedFrontier; rw [if_pos h]
  · unfold GetAcceptedFrontierFailed; rw [if_pos h]
  · unfold Accepted; rw [if_pos h]
  · unfold GetAcceptedFailed; rw [if_pos h]

/-- C4, witness.  In the state reached by `Start(0)` the request counter is
2, and the four callbacks with request ID 1 are dropped even without fuel. -/
theorem C4_witness :
    AcceptedFrontier testConfig 0 stateA 7 1 9 = some (stateA, none) ∧
    GetAcceptedFrontierFailed testConfig 0 stateA 7 1 = some (stateA, none) ∧
    Accepted testConfig 0 stateA 7 1 [9] = some (stateA, none) ∧
    GetAcceptedFailed testConfig 0 stateA 7 1 = some (stateA, none) :=
  C4_stale_poll_replies_dropped testConfig 0 stateA 7 1 9 [9] (by decide)

/-- C5, as amended.  An `Ancestors` or `GetAncestorsFailed` callback whose
`(nodeID, requestID)` is not a key of the request registry returns nil and
changes nothing; the current `requestID` plays no part in the test. -/
theorem C5_unrequested_ancestors_dropped (cfg : Config H P T) (fuel : Nat)
    (b : Bootstrapper H P T) (nodeID : NodeID) (requestID : Nat) (blks : List Bytes)
    (h : b.outstandingRequests.hasKey ⟨nodeID, requestID⟩ = false) :
    Ancestors cfg fuel b nodeID requestID blks = some (b, none) ∧
    GetAncestorsFailed cfg b nodeID requestID = (b, none) := by
  have hd := BiMap.deleteKey_fst_of_not_hasKey _ _ h
  constructor
  · unfold Ancestors
    dsimp only
    rw [hd]
  · unfold GetAncestorsFailed
    dsimp only
    rw [hd]

/-- C5, witness.  In the state reached by `Start(0)` nothing is outstanding
under `(7, 3)`, and both callbacks for that key are dropped. -/
theorem C5_witness :
    Ancestors testConfig 0 stateA 7 3 [[1, 0, 1]] = some (stateA, none) ∧
    GetAncestorsFailed testConfig stateA 7 3 = (stateA, none) :=
  C5_unrequested_ancestors_dropped testConfig 0 stateA 7 3 [[1, 0, 1]] (by decide)

/-- C5, counterexample.  In the state reached by `Start(0)` the request
counter is 2 and request `(7, 1)` is outstanding; `GetAncestorsFailed(7, 1)`,
whose request ID differs from the counter, is not dropped: it removes the
entry, advances the counter to 3 and sends a new `GetAncestors` request. -/
theorem C5_counterexample :
    (1 : Nat) ≠ stateA.requestID ∧
    (GetAncestorsFailed testConfig stateA 7 1).1.requestID = 3 ∧
    (GetAncestorsFailed testConfig stateA 7 1).1.outstandingRequests =
      ⟨[(⟨7, 2⟩, 2), (⟨7, 3⟩, 1)]⟩ ∧
    (GetAncestorsFailed testConfig stateA 7 1).1.effects =
      stateA.effects ++ [Effect.sendGetAncestors 7 3 1] := by
  refine ⟨by decide, by decide, by decide, by decide⟩

theorem halvingRestart_iff (numToExecute previouslyExecuted : Nat) :
    halvingRestart numToExecute previouslyExecuted = true ↔
      0 < numToExecute ∧ numToExecute < previouslyExecuted / 2 := by
  simp [halvingRestart]

theorem notifyBootstrapped_fields (cfg : Config H P T) (b : Bootstrapper H P T) :
    (notifyBootstrapped cfg b).executedStateTransitions = b.executedStateTransitions ∧
    (notifyBootstrapped cfg b).restarted = b.restarted ∧
    (notifyBootstrapped cfg b).outstandingRequests = b.outstandingRequests ∧
    (notifyBootstrapped cfg b).minority = b.minority ∧
    (notifyBootstrapped cfg b).majority = b.majority ∧
    (notifyBootstrapped cfg b).requestID = b.requestID := by
  unfold notifyBootstrapped
  split
  · split <;> simp
  · simp

/-- C6.  In `tryStartExecuting`, once `execute` has succeeded and the engine is
not halted, bootstrapping is restarted exactly when `numToExecute > 0` and
`numToExecute < previouslyExecuted / 2`, where `numToExecute` is the length of
the interval tree before executing and `previouslyExecuted` is the earlier
value of `executedStateTransitions`, which `New` sets to `math.MaxInt`; either
way `executedStateTransitions` is `numToExecute` from then on. -/
theorem C6_halving_rule (cfg : Config H P T) (fuel : Nat) (b : Bootstrapper H P T)
    (lastAcceptedHeight : Nat)
    (hm : b.missingBlockIDs = [])
    (hs : (cfg.ctxStateGet b.host).state ≠ State.normalOp)
    (ha : b.awaitingTimeout = false)
    (hl : getLastAcceptedHeight cfg b.host = .ok lastAcceptedHeight)
    (he : (cfg.storageExecute b.host b.tree lastAcceptedHeight).err = none)
    (hh : cfg.halted (cfg.storageExecute b.host b.tree lastAcceptedHeight).host = false) :
    (New cfg b.host).executedStateTransitions = 2 ^ 63 - 1 ∧
    ((0 < treeLen cfg b.tree ∧ treeLen cfg b.tree < b.executedStateTransitions / 2) →
      tryStartExecuting cfg fuel b = restartBootstrapping cfg fuel
        { b with
          host := (cfg.storageExecute b.host b.tree lastAcceptedHeight).host
          tree := (cfg.storageExecute b.host b.tree lastAcceptedHeight).tree
          executedStateTransitions := treeLen cfg b.tree }) ∧
    (¬ (0 < treeLen cfg b.tree ∧ treeLen cfg b.tree < b.executedStateTransitions / 2) →
      ∃ b' e, tryStartExecuting cfg fuel b = some (b', e) ∧
        b'.executedStateTransitions = treeLen cfg b.tree ∧
        b'.restarted = b.restarted ∧
        b'.outstandingRequests = b.outstandingRequests ∧
        b'.minority = b.minority ∧ b'.majority = b.majority ∧
        b'.requestID = b.requestID) := by
  refine ⟨rfl, fun hc => ?_, fun hc => ?_⟩
  · have hr := (halvingRestart_iff _ _).2 hc
    simp only [tryStartExecuting, tryStartExecutingWith, restartBootstrapping, hm, hs, ha, hl, he,
      hh, hr]
    simp
  · have hr : halvingRestart (treeLen cfg b.tree) b.executedStateTransitions = false := by
      cases h : halvingRestart (treeLen cfg b.tree) b.executedStateTransitions with
      | false => rfl
      | true => exact absurd ((halvingRestart_iff _ _).1 h) hc
    simp only [tryStartExecuting, tryStartExecutingWith, hm, hs, ha, hl, he, hh, hr]
    simp only [List.length_nil, ne_eq, not_true_eq_false, ↓reduceIte, decide_False,
      Bool.or_self, Bool.false_eq_true, Option.isSome_none]
    split
    · exact ⟨_, _, rfl, (notifyBootstrapped_fields cfg _).1, (notifyBootstrapped_fields cfg _).2.1,
        (notifyBootstrapped_fields cfg _).2.2.1, (notifyBootstrapped_fields cfg _).2.2.2.1,
        (notifyBootstrapped_fields cfg _).2.2.2.2.1, (notifyBootstrapped_fields cfg _).2.2.2.2.2⟩
    · exact ⟨_, _, rfl, (notifyBootstrapped_fields cfg _).1, (notifyBootstrapped_fields cfg _).2.1,
        (notifyBootstrapped_fields cfg _).2.2.1, (notifyBootstrapped_fields cfg _).2.2.2.1,
        (notifyBootstrapped_fields cfg _).2.2.2.2.1, (notifyBootstrapped_fields cfg _).2.2.2.2.2⟩

/-- C6, witness.  On the first round `executedStateTransitions` is still
`math.MaxInt`; a round that executed one block is followed by a restart. -/
theorem C6_witness :
    tryStartExecuting testConfig 1 stateD = restartBootstrapping testConfig 1
      { stateD with
        host := (testConfig.storageExecute stateD.host stateD.tree 0).host
        tree := (testConfig.storageExecute stateD.host stateD.tree 0).tree
        executedStateTransitions := treeLen testConfig stateD.tree } :=
  (C6_halving_rule testConfig 1 stateD 0 rfl (by decide) rfl rfl rfl rfl).2.1
    ⟨by decide, by decide⟩

theorem halvingRun_length (ns : List Nat) :
    ∀ (prev k : Nat), 1 ≤ k → prev < 2 ^ k → HalvingRun prev ns → ns.length < k := by
  induction ns with
  | nil => intro prev k hk _ _; exact hk
  | cons n rest ih =>
    intro prev k hk hp h
    obtain ⟨hr, hrest⟩ := h
    obtain ⟨hpos, hlt⟩ := (halvingRestart_iff _ _).1 hr
    have h2 : 2 * n < prev := by omega
    obtain ⟨j, rfl⟩ : ∃ j, k = j + 1 := ⟨k - 1, by omega⟩
    have hn : n < 2 ^ j := by
      rw [pow_succ] at hp
      omega
    have hj : 1 ≤ j := by
      rcases j with _ | j
      · simp at hn; omega
      · omega
    have := ih n j hj hn hrest
    simp only [List.length_cons]
    omega

theorem halvingRun_pos (ns : List Nat) :
    ∀ (prev : Nat), HalvingRun prev ns → ∀ n ∈ ns, 0 < n := by
  induction ns with
  | nil => intro _ _ n hn; cases hn
  | cons m rest ih =>
    intro prev h n hn
    obtain ⟨hr, hrest⟩ := h
    rcases List.mem_cons.1 hn with rfl | hn
    · exact ((halvingRestart_iff _ _).1 hr).1
    · exact ih m hrest n hn

theorem halvingRun_chain (ns : List Nat) :
    ∀ (prev : Nat), HalvingRun prev ns → List.Chain (fun a c => c < a / 2) prev ns := by
  induction ns with
  | nil => intro _ _; exact List.Chain.nil
  | cons m rest ih =>
    intro prev h
    obtain ⟨hr, hrest⟩ := h
    exact List.Chain.cons ((halvingRestart_iff _ _).1 hr).2 (ih m hrest)

theorem tryStartBootstrapping_startingHeight (cfg : Config H P T) (fuel : Nat)
    (b : Bootstrapper H P T) (r : Res H P T) (h : tryStartBootstrapping cfg fuel b = some r) :
    r.1.startingHeight = b.startingHeight :=
  (tryStartBootstrapping_good respects_startingHeight cfg fuel b r h).1

theorem runCalls_steps (cfg : Config H P T) (fuel : Nat) (calls : List Call) :
    ∀ (b b' : Bootstrapper H P T), runCalls cfg fuel b calls = some b' →
      Steps cfg (fun _ => True) b b' := by
  induction calls using List.reverseRecOn with
  | nil =>
    intro b b' h
    simp only [runCalls, Option.some.injEq] at h
    exact h ▸ Steps.refl b
  | append_singleton calls c ih =>
    intro b b' h
    have hsplit : ∀ (l : List Call) (s : Bootstrapper H P T),
        runCalls cfg fuel s (l ++ [c]) =
          (runCalls cfg fuel s l).bind (fun s1 => runCalls cfg fuel s1 [c]) := by
      intro l
      induction l with
      | nil => intro s; rfl
      | cons x l ihl =>
        intro s
        simp only [List.cons_append, runCalls]
        split
        · exact ihl _
        · rfl
    rw [hsplit] at h
    cases hmid : runCalls cfg fuel b calls with
    | none => rw [hmid] at h; cases h
    | some b1 =>
      rw [hmid] at h
      simp only [Option.some_bind, runCalls] at h
      split at h
      · rename_i b2 hd
        simp only [Option.some.injEq] at h
        exact h ▸ Steps.call fuel c (ih b b1 hmid) trivial hd
      · cases h

/-- C8, counterexample.  On a node whose last accepted block is the genesis
block, `Start(0)` captures height 0.  Peer 7 then delivers block 1, which is
executed and accepted, and a second `Start(0)` sets `startingHeight` to 1. -/
theorem C8_counterexample :
    (runCalls testConfig 2 (New testConfig hostC) [Call.start 0]).map
      (fun b => b.startingHeight) = some 0 ∧
    (runCalls testConfig 2 (New testConfig hostC)
      [Call.start 0, Call.ancestors 7 1 [[1, 0, 1]]]).map
      (fun b => b.startingHeight) = some 0 ∧
    (runCalls testConfig 2 (New testConfig hostC)
      [Call.start 0, Call.ancestors 7 1 [[1, 0, 1]], Call.start 0]).map
      (fun b => b.startingHeight) = some 1 := by
  refine ⟨?_, ?_, ?_⟩ <;> decide!

/-- C8, as amended.  Every `Start` that gets as far as reading the VM's last
accepted block sets `startingHeight` to the height of that block, the one
`VM.GetBlock` returns for `VM.LastAccepted()` at that call, also when it is not
the first `Start`; a `Start` that fails before leaves it as it is.  No other
entry point, in any number and order, and no restart (`restartBootstrapping`,
`startBootstrapping`, `Timeout`) changes it. -/
theorem C8_starting_height_frozen (cfg : Config H P T) :
    (∀ (fuel : Nat) (b b' : Bootstrapper H P T) (startReqID : Nat) (lastAcceptedID : ID)
        (lastAccepted : Block) (e : Option Err),
      (cfg.vmSetState (cfg.ctxStateSet b.host ⟨EngineType.snowman, State.bootstrapping⟩)
        State.bootstrapping).2 = none →
      cfg.vmLastAccepted (startHost cfg b.host) = .ok lastAcceptedID →
      cfg.vmGetBlock (startHost cfg b.host) lastAcceptedID = .ok lastAccepted →
      Start cfg fuel b startReqID = some (b', e) → b'.startingHeight = lastAccepted.height) ∧
    (∀ (fuel : Nat) (b b' : Bootstrapper H P T) (startReqID : Nat) (e : Option Err),
      ((cfg.vmSetState (cfg.ctxStateSet b.host ⟨EngineType.snowman, State.bootstrapping⟩)
          State.bootstrapping).2 ≠ none ∨
        (∃ code, cfg.vmLastAccepted (startHost cfg b.host) = .error code) ∨
        (∃ lastAcceptedID code, cfg.vmLastAccepted (startHost cfg b.host) = .ok lastAcceptedID ∧
          cfg.vmGetBlock (startHost cfg b.host) lastAcceptedID = .error code)) →
      Start cfg fuel b startReqID = some (b', e) → b'.startingHeight = b.startingHeight) ∧
    (∀ (b b' : Bootstrapper H P T), Steps cfg notStart b b' →
      b'.startingHeight = b.startingHeight) ∧
    (∀ (fuel : Nat) (b b' : Bootstrapper H P T) (e : Option Err),
      restartBootstrapping cfg fuel b = some (b', e) → b'.startingHeight = b.startingHeight) ∧
    (∀ (fuel : Nat) (b b' : Bootstrapper H P T) (e : Option Err),
      startBootstrapping cfg fuel b = some (b', e) → b'.startingHeight = b.startingHeight) ∧
    (∀ (fuel : Nat) (b b' : Bootstrapper H P T) (e : Option Err),
      Timeout cfg fuel b = some (b', e) → b'.startingHeight = b.startingHeight) := by
  refine ⟨?_, ?_, fun b b' h => Steps_rel respects_startingHeight cfg h, ?_, ?_, ?_⟩
  · intro fuel b b' startReqID lastAcceptedID lastAccepted e hv hid hblk h
    have hl : getLastAcceptedHeight cfg (startHost cfg b.host) = .ok lastAccepted.height := by
      unfold getLastAcceptedHeight
      rw [hid]
      dsimp only
      rw [hblk]
    unfold startHost at hl
    unfold Start at h
    dsimp only at h
    rw [hv] at h
    dsimp only at h
    rw [hl] at h
    dsimp only at h
    split at h
    · cases h; rfl
    · split at h
      · cases h; rfl
      · exact tryStartBootstrapping_startingHeight cfg fuel _ _ h
  · intro fuel b b' startReqID e hfail h
    unfold Start at h
    dsimp only at h
    cases hv : (cfg.vmSetState (cfg.ctxStateSet b.host ⟨EngineType.snowman, State.bootstrapping⟩)
        State.bootstrapping).2 with
    | some code =>
      rw [hv] at h
      cases h
      rfl
    | none =>
      rw [hv] at h
      dsimp only at h
      have herr : ∃ err, getLastAcceptedHeight cfg (startHost cfg b.host) = .error err := by
        rcases hfail with hne | ⟨code, hid⟩ | ⟨lastAcceptedID, code, hid, hblk⟩
        · exact absurd hv hne
        · exact ⟨Err.wrapped Wrap.lastAcceptedID code, by
            unfold getLastAcceptedHeight; rw [hid]⟩
        · refine ⟨Err.wrapped Wrap.lastAcceptedBlock code, ?_⟩
          unfold getLastAcceptedHeight
          rw [hid]
          dsimp only
          rw [hblk]
      obtain ⟨err, herr⟩ := herr
      unfold startHost at herr
      rw [herr] at h
      cases h
      rfl
  · intro fuel b b' e h
    exact (restartBootstrappingWith_good respects_startingHeight _
      (startBootstrapping_good respects_startingHeight cfg fuel) b _ h).1
  · intro fuel b b' e h
    exact (startBootstrapping_good respects_startingHeight cfg fuel b _ h).1
  · intro fuel b b' e h
    exact Timeout_rel respects_startingHeight cfg fuel b _ h

/-- C8, witness.  `Start(0)` on `hostA`, whose last accepted block is the
genesis block, captures height 0, and a later `GetAncestorsFailed` keeps it. -/
theorem C8_witness :
    stateA.startingHeight = genesis.height ∧
    (GetAncestorsFailed testConfig stateA 7 1).1.startingHeight = stateA.startingHeight :=
  ⟨(C8_starting_height_frozen testConfig).1 1 (New testConfig hostA) stateA 0 0 genesis none
      rfl rfl rfl stateA_start,
    (C8_starting_height_frozen testConfig).2.2.1 stateA _
      (Steps.call 0 (Call.getAncestorsFailed 7 1) (Steps.refl _) trivial rfl)⟩

/-- C9.  `Timeout` returns `errUnexpectedTimeout` exactly when
`awaitingTimeout` is false at the call, and then the engine state is left as it
was: no restart, no call of `onFinished`. -/
theorem C9_unexpected_timeout (cfg : Config H P T) (fuel : Nat) (b : Bootstrapper H P T) :
    (b.awaitingTimeout = false →
      Timeout cfg fuel b = some (b, some Err.unexpectedTimeout)) ∧
    (b.awaitingTimeout = true →
      ∀ b' e, Timeout cfg fuel b = some (b', e) → e ≠ some Err.unexpectedTimeout) := by
  constructor
  · intro h
    unfold Timeout
    simp [h]
  · intro h b' e ht
    unfold Timeout at ht
    simp only [h, Bool.not_true, Bool.false_eq_true, ↓reduceIte] at ht
    split at ht
    · exact (restartBootstrappingWith_good respects_true _
        (startBootstrapping_good respects_true cfg fuel) _ _ ht).2
    · cases ht
      exact (onFinished_good respects_true cfg _).2

/-- C9, witness.  Without a pending timeout `Timeout` fails and changes
nothing; with one pending (and the subnet bootstrapped) it returns the nil of
`onFinished`, which is not the sentinel error. -/
theorem C9_witness :
    Timeout testConfig 0 stateA = some (stateA, some Err.unexpectedTimeout) ∧
    (none : Option Err) ≠ some Err.unexpectedTimeout :=
  ⟨(C9_unexpected_timeout testConfig 0 stateA).1 rfl,
    (C9_unexpected_timeout testConfig 0 stateF).2 rfl stateFdone none (by decide)⟩

/-- C10.  With a timeout pending, `Timeout` clears `awaitingTimeout` and asks
the subnet tracker again: if the subnet is not bootstrapped it restarts
bootstrapping, otherwise it calls `onFinished` once with the current
`requestID` and returns what that call returns. -/
theorem C10_timeout_restarts_or_finishes (cfg : Config H P T) (fuel : Nat)
    (b : Bootstrapper H P T) (h : b.awaitingTimeout = true) :
    (cfg.isBootstrapped b.host = false →
      Timeout cfg fuel b = restartBootstrapping cfg fuel { b with awaitingTimeout := false }) ∧
    (cfg.isBootstrapped b.host = true →
      Timeout cfg fuel b = some
        ({ b with
            awaitingTimeout := false
            host := (cfg.onFinished b.host b.requestID).1
            effects := b.effects ++ [Effect.onFinished b.requestID] },
          (cfg.onFinished b.host b.requestID).2.map Err.host)) := by
  constructor
  · intro hb
    unfold Timeout
    simp [h, hb]
  · intro hb
    unfold Timeout
    simp [h, hb, onFinished]

/-- C10, witness.  When the subnet is bootstrapped the pending timeout ends in
one `onFinished(1)`; when it is not, the timeout restarts bootstrapping. -/
theorem C10_witness :
    Timeout testConfig 1 stateF = some (stateFdone, none) ∧
    Timeout testConfig 1 stateG =
      restartBootstrapping testConfig 1 { stateG with awaitingTimeout := false } :=
  ⟨(C10_timeout_restarts_or_finishes testConfig 1 stateF rfl).2 rfl,
    (C10_timeout_restarts_or_finishes testConfig 1 stateG rfl).1 rfl⟩

theorem tryStartExecutingWith_complete (cfg : Config H P T)
    (sb : Bootstrapper H P T → Option (Res H P T)) (b : Bootstrapper H P T)
    (lastAcceptedHeight : Nat)
    (hm : b.missingBlockIDs = [])
    (hs : (cfg.ctxStateGet b.host).state ≠ State.normalOp)
    (ha : b.awaitingTimeout = false)
    (hl : getLastAcceptedHeight cfg b.host = .ok lastAcceptedHeight)
    (he : (cfg.storageExecute b.host b.tree lastAcceptedHeight).err = none)
    (hh : cfg.halted (cfg.storageExecute b.host b.tree lastAcceptedHeight).host = false)
    (hr : halvingRestart (treeLen cfg b.tree) b.executedStateTransitions = false)
    (nb : Bootstrapper H P T)
    (hnb : nb = notifyBootstrapped cfg
      { b with
        host := (cfg.storageExecute b.host b.tree lastAcceptedHeight).host
        tree := (cfg.storageExecute b.host b.tree lastAcceptedHeight).tree
        executedStateTransitions := treeLen cfg b.tree }) :
    tryStartExecutingWith cfg sb b =
      (if (!cfg.isBootstrapped (cfg.trackerBootstrapped nb.host cfg.chainID)) = true then
        some ({ nb with
          host := cfg.trackerBootstrapped nb.host cfg.chainID
          effects := nb.effects ++ [Effect.trackerBootstrapped cfg.chainID] ++
            [Effect.registerTimeout bootstrappingDelay]
          awaitingTimeout := true }, none)
      else some (onFinished cfg { nb with
          host := cfg.trackerBootstrapped nb.host cfg.chainID
          effects := nb.effects ++ [Effect.trackerBootstrapped cfg.chainID] })) := by
  subst hnb
  unfold tryStartExecutingWith
  rw [if_neg (by simp [hm]), if_neg (by simp [hs, ha]), hl]
  dsimp only
  rw [if_neg (by simp [he, hh]), if_neg (by simp [hr])]

/-- C11.  When `tryStartExecuting` finishes a round without a halving restart
it reports the chain to the subnet tracker and then asks the tracker: if the
subnet is not bootstrapped it registers one timeout of `bootstrappingDelay`,
sets `awaitingTimeout` and does not call `onFinished`; otherwise it calls
`onFinished` once with the current `requestID` and leaves `awaitingTimeout`
unset. -/
theorem C11_round_completion (cfg : Config H P T) (fuel : Nat) (b : Bootstrapper H P T)
    (lastAcceptedHeight : Nat)
    (hm : b.missingBlockIDs = [])
    (hs : (cfg.ctxStateGet b.host).state ≠ State.normalOp)
    (ha : b.awaitingTimeout = false)
    (hl : getLastAcceptedHeight cfg b.host = .ok lastAcceptedHeight)
    (he : (cfg.storageExecute b.host b.tree lastAcceptedHeight).err = none)
    (hh : cfg.halted (cfg.storageExecute b.host b.tree lastAcceptedHeight).host = false)
    (hr : halvingRestart (treeLen cfg b.tree) b.executedStateTransitions = false)
    (nb : Bootstrapper H P T)
    (hnb : nb = notifyBootstrapped cfg
      { b with
        host := (cfg.storageExecute b.host b.tree lastAcceptedHeight).host
        tree := (cfg.storageExecute b.host b.tree lastAcceptedHeight).tree
        executedStateTransitions := treeLen cfg b.tree }) :
    (cfg.isBootstrapped (cfg.trackerBootstrapped nb.host cfg.chainID) = false →
      tryStartExecuting cfg fuel b = some
        ({ nb with
            host := cfg.trackerBootstrapped nb.host cfg.chainID
            effects := nb.effects ++ [Effect.trackerBootstrapped cfg.chainID,
              Effect.registerTimeout bootstrappingDelay]
            awaitingTimeout := true }, none)) ∧
    (cfg.isBootstrapped (cfg.trackerBootstrapped nb.host cfg.chainID) = true →
      tryStartExecuting cfg fuel b = some
        ({ nb with
            host := (cfg.onFinished (cfg.trackerBootstrapped nb.host cfg.chainID) b.requestID).1
            effects := nb.effects ++ [Effect.trackerBootstrapped cfg.chainID,
              Effect.onFinished b.requestID] },
          (cfg.onFinished (cfg.trackerBootstrapped nb.host cfg.chainID) b.requestID).2.map
            Err.host)) ∧
    (nb.effects = b.effects ∨ nb.effects = b.effects ++ [Effect.bootstrappedCallback]) ∧
    nb.awaitingTimeout = false ∧ nb.requestID = b.requestID := by
  subst hnb
  have hreq := (notifyBootstrapped_fields cfg
      { b with
        host := (cfg.storageExecute b.host b.tree lastAcceptedHeight).host
        tree := (cfg.storageExecute b.host b.tree lastAcceptedHeight).tree
        executedStateTransitions := treeLen cfg b.tree }).2.2.2.2.2
  refine ⟨fun hb => ?_, fun hb => ?_, ?_, ?_, hreq⟩
  · unfold tryStartExecuting
    rw [tryStartExecutingWith_complete cfg _ b lastAcceptedHeight hm hs ha hl he hh hr _ rfl,
      if_pos (by simp [hb])]
    simp
  · unfold tryStartExecuting
    rw [tryStartExecutingWith_complete cfg _ b lastAcceptedHeight hm hs ha hl he hh hr _ rfl,
      if_neg (by simp [hb])]
    simp [onFinished, hreq]
  · unfold notifyBootstrapped
    split
    · split
      · exact Or.inl rfl
      · exact Or.inr rfl
    · exact Or.inl rfl
  · unfold notifyBootstrapped
    split
    · split <;> exact ha
    · exact ha

/-- C11, witness.  A round that executed one block after a round that executed
one block ends without a restart; the chain is the last of its subnet, so
`onFinished(1)` is called, and on a node whose subnet is still syncing one
timeout is registered instead. -/
theorem C11_witness :
    tryStartExecuting testConfig 0 stateE = some (stateEdone, none) ∧
    tryStartExecuting testConfig 0 stateEwait = some (stateEwaiting, none) :=
  ⟨(C11_round_completion testConfig 0 stateE 0 rfl (by decide) rfl rfl rfl rfl (by decide)
      _ rfl).2.1 (by decide),
    (C11_round_completion testConfig 0 stateEwait 0 rfl (by decide) rfl rfl rfl rfl (by decide)
      _ rfl).1 (by decide)⟩

theorem sendBootstrappingMessagesOrFinishWith_frontier (cfg : Config H P T)
    (sb : Bootstrapper H P T → Option (Res H P T)) (b : Bootstrapper H P T)
    (h : (cfg.pollGetPeers b.minority).1 ≠ []) :
    sendBootstrappingMessagesOrFinishWith cfg sb b = some
      ({ b with
          minority := (cfg.pollGetPeers b.minority).2
          effects := b.effects ++
            [Effect.sendGetAcceptedFrontier (cfg.pollGetPeers b.minority).1 b.requestID] },
        none) := by
  unfold sendBootstrappingMessagesOrFinishWith
  dsimp only
  rw [if_pos (List.length_pos.2 h)]

theorem sendBootstrappingMessagesOrFinishWith_noAccepts (cfg : Config H P T)
    (sb : Bootstrapper H P T → Option (Res H P T)) (b : Bootstrapper H P T)
    (h1 : (cfg.pollGetPeers b.minority).1 = [])
    (h2 : (cfg.pollResult (cfg.pollGetPeers b.minority).2).2 = true)
    (h3 : (cfg.pollGetPeers b.majority).1 = [])
    (h4 : cfg.pollResult (cfg.pollGetPeers b.majority).2 = ([], true)) :
    sendBootstrappingMessagesOrFinishWith cfg sb b =
      sb { b with
        minority := (cfg.pollGetPeers b.minority).2
        majority := (cfg.pollGetPeers b.majority).2 } := by
  unfold sendBootstrappingMessagesOrFinishWith
  dsimp only
  rw [if_neg (by simp [h1]), if_neg (by simp [h2]), if_neg (by simp [h3]),
    if_neg (by simp [h4]), if_pos (by simp [h4])]

/-- C12.  When the majority poll has finalized with an empty accepted set,
`sendBootstrappingMessagesOrFinish` calls `startBootstrapping`: the frontier
peers are sampled again, both polls are created afresh, and, the fresh majority
not being finalized and the fresh minority having peers to query, `requestID`
goes up by one and a `GetAcceptedFrontier` request is sent under it.  Nothing
else changes: `startSyncing` and `onFinished` are not invoked. -/
theorem C12_no_accepts_restarts_sampling (cfg : Config H P T) (fuel : Nat)
    (b : Bootstrapper H P T) (frontierNodes : List NodeID)
    (h1 : (cfg.pollGetPeers b.minority).1 = [])
    (h2 : (cfg.pollResult (cfg.pollGetPeers b.minority).2).2 = true)
    (h3 : (cfg.pollGetPeers b.majority).1 = [])
    (h4 : cfg.pollResult (cfg.pollGetPeers b.majority).2 = ([], true))
    (hsample : cfg.sample b.host (cfg.beaconsGetMap b.host cfg.subnetID) cfg.sampleK =
      .ok frontierNodes)
    (hmaj : (cfg.pollResult (cfg.newMajority (cfg.beaconsGetMap b.host cfg.subnetID)
      maxOutstandingBroadcastRequests)).2 = false)
    (hmin : (cfg.pollGetPeers
      (cfg.newMinority frontierNodes maxOutstandingBroadcastRequests)).1 ≠ []) :
    sendBootstrappingMessagesOrFinish cfg (fuel + 1) b = some
      ({ b with
          minority :=
            (cfg.pollGetPeers (cfg.newMinority frontierNodes maxOutstandingBroadcastRequests)).2
          majority := cfg.newMajority (cfg.beaconsGetMap b.host cfg.subnetID)
            maxOutstandingBroadcastRequests
          requestID := (b.requestID + 1) % 2 ^ 32
          effects := b.effects ++
            [Effect.sendGetAcceptedFrontier
              (cfg.pollGetPeers
                (cfg.newMinority frontierNodes maxOutstandingBroadcastRequests)).1
              ((b.requestID + 1) % 2 ^ 32)] },
        none) := by
  unfold sendBootstrappingMessagesOrFinish
  rw [sendBootstrappingMessagesOrFinishWith_noAccepts cfg _ b h1 h2 h3 h4]
  unfold startBootstrapping
  dsimp only
  rw [hsample]
  dsimp only
  rw [if_neg (by simp [hmaj]), sendBootstrappingMessagesOrFinishWith_frontier cfg _ _ hmin]

/-- C12, witness.  Peer 7, the only validator, accepted none of the
candidates; the engine samples again and sends a new frontier request under
request ID 2. -/
theorem C12_witness :
    sendBootstrappingMessagesOrFinish testConfig 1 stateQ3 = some (stateQ4, none) :=
  C12_no_accepts_restarts_sampling testConfig 0 stateQ3 [7] rfl rfl rfl rfl rfl rfl (by decide)

theorem sendBootstrappingMessagesOrFinishWith_waitMinority (cfg : Config H P T)
    (sb : Bootstrapper H P T → Option (Res H P T)) (b : Bootstrapper H P T)
    (h1 : (cfg.pollGetPeers b.minority).1 = [])
    (h2 : (cfg.pollResult (cfg.pollGetPeers b.minority).2).2 = false) :
    sendBootstrappingMessagesOrFinishWith cfg sb b =
      some ({ b with minority := (cfg.pollGetPeers b.minority).2 }, none) := by
  unfold sendBootstrappingMessagesOrFinishWith
  dsimp only
  rw [if_neg (by simp [h1]), if_pos (by simp [h2])]

theorem sendBootstrappingMessagesOrFinishWith_accepted (cfg : Config H P T)
    (sb : Bootstrapper H P T → Option (Res H P T)) (b : Bootstrapper H P T)
    (h1 : (cfg.pollGetPeers b.minority).1 = [])
    (h2 : (cfg.pollResult (cfg.pollGetPeers b.minority).2).2 = true)
    (h3 : (cfg.pollGetPeers b.majority).1 ≠ []) :
    sendBootstrappingMessagesOrFinishWith cfg sb b = some
      ({ b with
          minority := (cfg.pollGetPeers b.minority).2
          majority := (cfg.pollGetPeers b.majority).2
          effects := b.effects ++
            [Effect.sendGetAccepted (cfg.pollGetPeers b.majority).1 b.requestID
              (cfg.pollResult (cfg.pollGetPeers b.minority).2).1] },
        none) := by
  unfold sendBootstrappingMessagesOrFinishWith
  dsimp only
  rw [if_neg (by simp [h1]), if_neg (by simp [h2]), if_pos (List.length_pos.2 h3)]

theorem sendBootstrappingMessagesOrFinishWith_majorityDone (cfg : Config H P T)
    (sb : Bootstrapper H P T → Option (Res H P T)) (b : Bootstrapper H P T)
    (h1 : (cfg.pollGetPeers b.minority).1 = [])
    (h2 : (cfg.pollResult (cfg.pollGetPeers b.minority).2).2 = true)
    (h3 : (cfg.pollGetPeers b.majority).1 = []) :
    sendBootstrappingMessagesOrFinishWith cfg sb b =
      (if (cfg.pollResult (cfg.pollGetPeers b.majority).2).2 = false then
        some ({ b with
          minority := (cfg.pollGetPeers b.minority).2
          majority := (cfg.pollGetPeers b.majority).2 }, none)
      else if (cfg.pollResult (cfg.pollGetPeers b.majority).2).1 = [] then
        sb { b with
          minority := (cfg.pollGetPeers b.minority).2
          majority := (cfg.pollGetPeers b.majority).2 }
      else
        startSyncingWith cfg sb
          { b with
            minority := (cfg.pollGetPeers b.minority).2
            majority := (cfg.pollGetPeers b.majority).2 }
          (cfg.pollResult (cfg.pollGetPeers b.majority).2).1) := by
  unfold sendBootstrappingMessagesOrFinishWith
  dsimp only
  rw [if_neg (by simp [h1]), if_neg (by simp [h2]), if_neg (by simp [h3])]
  by_cases hf : (cfg.pollResult (cfg.pollGetPeers b.majority).2).2 = false
  · rw [if_pos (by simp [hf]), if_pos hf]
  · rw [if_neg (by simp [hf]), if_neg hf]
    by_cases he : (cfg.pollResult (cfg.pollGetPeers b.majority).2).1 = []
    · rw [if_pos (by simp [he]), if_pos he]
    · rw [if_neg (by simpa using he), if_neg he]

/-- C13.  `sendBootstrappingMessagesOrFinish` sends `GetAccepted` only when
`minority.GetPeers` returned no peers and `minority.Result` reported the poll
finalized, and the candidates it sends are that result.  While the minority
poll has peers to query or is not finalized, the call sends at most a
`GetAcceptedFrontier` request and returns; once the majority poll has no peers
left to query, the call sends nothing itself. -/
theorem C13_majority_poll_after_minority (cfg : Config H P T) (fuel : Nat)
    (b : Bootstrapper H P T) :
    ((cfg.pollGetPeers b.minority).1 ≠ [] →
      sendBootstrappingMessagesOrFinish cfg fuel b = some
        ({ b with
            minority := (cfg.pollGetPeers b.minority).2
            effects := b.effects ++
              [Effect.sendGetAcceptedFrontier (cfg.pollGetPeers b.minority).1 b.requestID] },
          none)) ∧
    ((cfg.pollGetPeers b.minority).1 = [] →
      (cfg.pollResult (cfg.pollGetPeers b.minority).2).2 = false →
      sendBootstrappingMessagesOrFinish cfg fuel b =
        some ({ b with minority := (cfg.pollGetPeers b.minority).2 }, none)) ∧
    ((cfg.pollGetPeers b.minority).1 = [] →
      (cfg.pollResult (cfg.pollGetPeers b.minority).2).2 = true →
      (cfg.pollGetPeers b.majority).1 ≠ [] →
      sendBootstrappingMessagesOrFinish cfg fuel b = some
        ({ b with
            minority := (cfg.pollGetPeers b.minority).2
            majority := (cfg.pollGetPeers b.majority).2
            effects := b.effects ++
              [Effect.sendGetAccepted (cfg.pollGetPeers b.majority).1 b.requestID
                (cfg.pollResult (cfg.pollGetPeers b.minority).2).1] },
          none)) ∧
    ((cfg.pollGetPeers b.minority).1 = [] →
      (cfg.pollResult (cfg.pollGetPeers b.minority).2).2 = true →
      (cfg.pollGetPeers b.majority).1 = [] →
      sendBootstrappingMessagesOrFinish cfg fuel b =
        (if (cfg.pollResult (cfg.pollGetPeers b.majority).2).2 = false then
          some ({ b with
            minority := (cfg.pollGetPeers b.minority).2
            majority := (cfg.pollGetPeers b.majority).2 }, none)
        else if (cfg.pollResult (cfg.pollGetPeers b.majority).2).1 = [] then
          startBootstrapping cfg fuel { b with
            minority := (cfg.pollGetPeers b.minority).2
            majority := (cfg.pollGetPeers b.majority).2 }
        else
          startSyncing cfg fuel
            { b with
              minority := (cfg.pollGetPeers b.minority).2
              majority := (cfg.pollGetPeers b.majority).2 }
            (cfg.pollResult (cfg.pollGetPeers b.majority).2).1)) :=
  ⟨sendBootstrappingMessagesOrFinishWith_frontier cfg _ b,
    sendBootstrappingMessagesOrFinishWith_waitMinority cfg _ b,
    sendBootstrappingMessagesOrFinishWith_accepted cfg _ b,
    sendBootstrappingMessagesOrFinishWith_majorityDone cfg _ b⟩

/-- C13, witness.  While peer 7 has not answered the frontier request nothing
is sent; once it has reported block 5, `GetAccepted` goes out with candidate 5. -/
theorem C13_witness :
    sendBootstrappingMessagesOrFinish testConfig 0 stateQ1 = some (stateQ1, none) ∧
    sendBootstrappingMessagesOrFinish testConfig 0
      { stateQ1 with minority := ⟨[], [], [5]⟩ } = some (stateQ2, none) :=
  ⟨(C13_majority_poll_after_minority testConfig 0 stateQ1).2.1 rfl rfl,
    (C13_majority_poll_after_minority testConfig 0
      { stateQ1 with minority := ⟨[], [], [5]⟩ }).2.2.1 rfl rfl (by decide)⟩

theorem stateQ1_start :
    dispatch testConfig 1 (New testConfig hostB) (Call.start 0) = some (stateQ1, none) := by
  decide!

theorem stateQ2_acceptedFrontier :
    dispatch testConfig 0 stateQ1 (Call.acceptedFrontier 7 1 5) = some (stateQ2, none) := by
  decide!

/-- C14, counterexample.  On a node with the single validator 7, `Start(0)`
sends the frontier request under request ID 1, and the reply of peer 7 makes
the engine send the accepted request under the same request ID 1. -/
theorem C14_counterexample :
    Reachable testConfig stateQ2 ∧
    frontierRequestIDs stateQ2.effects = [1] ∧
    acceptedRequestIDs stateQ2.effects = [1] := by
  refine ⟨⟨hostB, ?_⟩, by decide, by decide⟩
  exact Steps.call 0 (Call.acceptedFrontier 7 1 5)
    (Steps.call 1 (Call.start 0) (Steps.refl _) trivial stateQ1_start) trivial
    stateQ2_acceptedFrontier

/-- C14, as amended.  Within a round both polls carry the same request ID.
`startBootstrapping` bumps `requestID` once, before it sends the frontier
request; a frontier reply is handled only if it carries the current
`requestID`, and the `GetAccepted` request sent when that reply completes the
minority poll carries that same ID, which stays the current one. -/
theorem C14_polls_share_request_id (cfg : Config H P T) (fuel : Nat)
    (b : Bootstrapper H P T) (nodeID : NodeID) (requestID : Nat) (containerID : ID) :
    (∀ frontierNodes,
      cfg.sample b.host (cfg.beaconsGetMap b.host cfg.subnetID) cfg.sampleK = .ok frontierNodes →
      (cfg.pollResult (cfg.newMajority (cfg.beaconsGetMap b.host cfg.subnetID)
        maxOutstandingBroadcastRequests)).2 = false →
      (cfg.pollGetPeers
        (cfg.newMinority frontierNodes maxOutstandingBroadcastRequests)).1 ≠ [] →
      ∃ b1, startBootstrapping cfg (fuel + 1) b = some (b1, none) ∧
        b1.requestID = (b.requestID + 1) % 2 ^ 32 ∧
        b1.effects = b.effects ++
          [Effect.sendGetAcceptedFrontier
            (cfg.pollGetPeers
              (cfg.newMinority frontierNodes maxOutstandingBroadcastRequests)).1
            b1.requestID]) ∧
    (requestID ≠ b.requestID →
      AcceptedFrontier cfg fuel b nodeID requestID containerID = some (b, none)) ∧
    (requestID = b.requestID →
      (cfg.pollRecordOpinion b.minority nodeID [containerID]).2 = none →
      (cfg.pollGetPeers (cfg.pollRecordOpinion b.minority nodeID [containerID]).1).1 = [] →
      (cfg.pollResult (cfg.pollGetPeers
        (cfg.pollRecordOpinion b.minority nodeID [containerID]).1).2).2 = true →
      (cfg.pollGetPeers b.majority).1 ≠ [] →
      ∃ b', AcceptedFrontier cfg fuel b nodeID requestID containerID = some (b', none) ∧
        b'.requestID = requestID ∧
        b'.effects = b.effects ++
          [Effect.sendGetAccepted (cfg.pollGetPeers b.majority).1 requestID
            (cfg.pollResult (cfg.pollGetPeers
              (cfg.pollRecordOpinion b.minority nodeID [containerID]).1).2).1]) := by
  refine ⟨fun frontierNodes hsample hmaj hmin => ?_, fun hne => ?_, fun heq hrec h1 h2 h3 => ?_⟩
  · have h : startBootstrapping cfg (fuel + 1) b = some
        ({ b with
            minority := (cfg.pollGetPeers
              (cfg.newMinority frontierNodes maxOutstandingBroadcastRequests)).2
            majority := cfg.newMajority (cfg.beaconsGetMap b.host cfg.subnetID)
              maxOutstandingBroadcastRequests
            requestID := (b.requestID + 1) % 2 ^ 32
            effects := b.effects ++
              [Effect.sendGetAcceptedFrontier
                (cfg.pollGetPeers
                  (cfg.newMinority frontierNodes maxOutstandingBroadcastRequests)).1
                ((b.requestID + 1) % 2 ^ 32)] },
          none) := by
      unfold startBootstrapping
      dsimp only
      rw [hsample]
      dsimp only
      rw [if_neg (by simp [hmaj]), sendBootstrappingMessagesOrFinishWith_frontier cfg _ _ hmin]
    exact ⟨_, h, rfl, rfl⟩
  · unfold AcceptedFrontier
    rw [if_pos hne]
  · subst heq
    have h : AcceptedFrontier cfg fuel b nodeID b.requestID containerID = some
        ({ b with
            minority := (cfg.pollGetPeers
              (cfg.pollRecordOpinion b.minority nodeID [containerID]).1).2
            majority := (cfg.pollGetPeers b.majority).2
            effects := b.effects ++
              [Effect.sendGetAccepted (cfg.pollGetPeers b.majority).1 b.requestID
                (cfg.pollResult (cfg.pollGetPeers
                  (cfg.pollRecordOpinion b.minority nodeID [containerID]).1).2).1] },
          none) := by
      unfold AcceptedFrontier
      dsimp only
      rw [if_neg (by simp), hrec]
      dsimp only
      unfold sendBootstrappingMessagesOrFinish
      exact sendBootstrappingMessagesOrFinishWith_accepted cfg _
        { b with minority := (cfg.pollRecordOpinion b.minority nodeID [containerID]).1 } h1 h2 h3
    exact ⟨_, h, rfl, rfl⟩

/-- C14, witness.  In the run of the counterexample the frontier request goes
out under request ID 1, the current one afterwards, and the accepted request
that follows the reply of peer 7 carries 1 as well. -/
theorem C14_witness :
    (∃ b1, startBootstrapping testConfig 1
        { New testConfig hostB with started := true } = some (b1, none) ∧
      b1.requestID = 1 ∧ b1.effects = [Effect.sendGetAcceptedFrontier [7] b1.requestID]) ∧
    (∃ b', AcceptedFrontier testConfig 0 stateQ1 7 1 5 = some (b', none) ∧
      b'.requestID = 1 ∧
      b'.effects = stateQ1.effects ++ [Effect.sendGetAccepted [7] 1 [5]]) :=
  ⟨(C14_polls_share_request_id testConfig 0 { New testConfig hostB with started := true }
      7 1 5).1 [7] rfl rfl (by decide),
    (C14_polls_share_request_id testConfig 0 stateQ1 7 1 5).2.2 rfl rfl rfl rfl (by decide)⟩

theorem Ancestors_eq_ancestorsParsed (cfg : Config H P T) (fuel : Nat) (b : Bootstrapper H P T)
    (nodeID : NodeID) (requestID : Nat) (blks : List Bytes) (blkID : ID)
    (hk : (b.outstandingRequests.deleteKey ⟨nodeID, requestID⟩).1 = some blkID)
    (hne : blks ≠ []) (kept : List Bytes) (hkept : receivedContainers cfg blks = some kept) :
    Ancestors cfg fuel b nodeID requestID blks =
      ancestorsParsed cfg fuel
        { b with
          outstandingRequests := (b.outstandingRequests.deleteKey ⟨nodeID, requestID⟩).2
          fetchFrom := setAdd b.fetchFrom nodeID }
        blkID (cfg.batchedParseBlock b.host kept) := by
  unfold Ancestors ancestorsParsed
  dsimp only
  rw [hk]
  dsimp only
  rw [if_neg (by simpa using hne), hkept]
  try rfl

theorem receivedContainers_eq_take (cfg : Config H P T) (blks : List Bytes)
    (hmax : 0 ≤ cfg.ancestorsMaxContainersReceived) :
    receivedContainers cfg blks =
      some (blks.take (min blks.length cfg.ancestorsMaxContainersReceived.toNat)) := by
  unfold receivedContainers
  split
  · rename_i h
    have : cfg.ancestorsMaxContainersReceived.toNat ≤ blks.length := by omega
    rw [if_neg (by omega), Nat.min_eq_right this]
  · rename_i h
    have : blks.length ≤ cfg.ancestorsMaxContainersReceived.toNat := by omega
    rw [Nat.min_eq_left this, List.take_length]

theorem receivedContainers_negative (cfg : Config H P T) (blks : List Bytes) (hne : blks ≠ [])
    (hneg : cfg.ancestorsMaxContainersReceived < 0) : receivedContainers cfg blks = none := by
  unfold receivedContainers
  have hlen : 0 < blks.length := List.length_pos.2 hne
  rw [if_pos (by omega), if_pos hneg]

theorem Ancestors_negative_limit (cfg : Config H P T) (fuel : Nat) (b : Bootstrapper H P T)
    (nodeID : NodeID) (requestID : Nat) (blks : List Bytes) (blkID : ID)
    (hk : (b.outstandingRequests.deleteKey ⟨nodeID, requestID⟩).1 = some blkID)
    (hne : blks ≠ []) (hneg : cfg.ancestorsMaxContainersReceived < 0) :
    Ancestors cfg fuel b nodeID requestID blks = none := by
  unfold Ancestors
  dsimp only
  rw [hk]
  dsimp only
  rw [if_neg (by simpa using hne), receivedContainers_negative cfg blks hne hneg]

theorem ancestorsParsed_rejected (cfg : Config H P T) (fuel : Nat) (b : Bootstrapper H P T)
    (blkID : ID) (parsed : H × Except Nat (List Block))
    (h : rejectsResponse parsed.2 blkID = true) :
    ancestorsParsed cfg fuel b blkID parsed =
      some (fetch cfg { b with host := parsed.1 } blkID) := by
  unfold ancestorsParsed
  unfold rejectsResponse at h
  dsimp only
  split
  · rfl
  · rfl
  · rename_i requestedBlock others heq
    rw [heq] at h
    rw [if_pos (by simpa using h)]

theorem BiMap.hasValue_deleteKey (m : BiMap) (k : Request) (v : ID) (hu : ValuesUnique m)
    (hk : (m.deleteKey k).1 = some v) : (m.deleteKey k).2.hasValue v = false := by
  simp only [BiMap.deleteKey, BiMap.getValue, Option.map_eq_some'] at hk
  obtain ⟨e, hf, hv⟩ := hk
  have hmem := List.mem_of_find?_eq_some hf
  have hkey : e.1 = k := by simpa using List.find?_some hf
  cases hh : (m.deleteKey k).2.hasValue v with
  | false => rfl
  | true =>
    simp only [BiMap.deleteKey, BiMap.hasValue, List.any_eq_true, List.mem_filter] at hh
    obtain ⟨e', ⟨hmem', hne⟩, hv'⟩ := hh
    have hv2 : e'.2 = v := by simpa using hv'
    have hsame : e' = e := List.inj_on_of_nodup_map hu hmem' hmem (hv2.trans hv.symm)
    subst hsame
    simp [hkey] at hne

theorem peek_of_ne_nil (cfg : Config H P T) (s : List NodeID) (h : s ≠ []) :
    ∃ v, peek cfg s = some v ∧ v ∈ s := by
  unfold peek
  have hlt : cfg.pick s % s.length < s.length := Nat.mod_lt _ (List.length_pos.2 h)
  refine ⟨s.get ⟨_, hlt⟩, ?_, List.get_mem _ _ _⟩
  rw [List.get?_eq_get hlt]

theorem setAdd_mem {α : Type} [DecidableEq α] (s : List α) (x : α) : x ∈ setAdd s x := by
  unfold setAdd
  split
  · assumption
  · simp

theorem mem_setAdd {α : Type} [DecidableEq α] (s : List α) (x y : α) :
    y ∈ setAdd s x ↔ y ∈ s ∨ y = x := by
  unfold setAdd
  split
  · rename_i h
    constructor
    · exact Or.inl
    · rintro (h1 | rfl)
      · exact h1
      · exact h
  · simp

theorem fetch_issues (cfg : Config H P T) (b : Bootstrapper H P T) (blkID : ID) (v : NodeID)
    (hv : b.outstandingRequests.hasValue blkID = false) (hp : peek cfg b.fetchFrom = some v) :
    fetch cfg b blkID =
      ({ markUnavailable cfg b v with
          requestID := (b.requestID + 1) % 2 ^ 32
          outstandingRequests :=
            b.outstandingRequests.put ⟨v, (b.requestID + 1) % 2 ^ 32⟩ blkID
          effects := b.effects ++
            [Effect.sendGetAncestors v ((b.requestID + 1) % 2 ^ 32) blkID] }, none) := by
  have hm : (markUnavailable cfg b v).requestID = b.requestID ∧
      (markUnavailable cfg b v).outstandingRequests = b.outstandingRequests ∧
      (markUnavailable cfg b v).effects = b.effects := by
    unfold markUnavailable
    dsimp only
    split <;> exact ⟨rfl, rfl, rfl⟩
  unfold fetch
  rw [if_neg (by simp [hv]), hp]
  dsimp only
  rw [hm.1, hm.2.1, hm.2.2]

theorem markUnavailable_frame (cfg : Config H P T) (b : Bootstrapper H P T) (v : NodeID) :
    (markUnavailable cfg b v).tree = b.tree ∧
    (markUnavailable cfg b v).missingBlockIDs = b.missingBlockIDs ∧
    (markUnavailable cfg b v).tipHeight = b.tipHeight ∧
    (markUnavailable cfg b v).host = b.host := by
  unfold markUnavailable
  dsimp only
  split <;> exact ⟨rfl, rfl, rfl, rfl⟩

theorem markUnavailable_fetchFrom (cfg : Config H P T) (b : Bootstrapper H P T) (v : NodeID)
    (h : setRemove b.fetchFrom v ≠ []) :
    (markUnavailable cfg b v).fetchFrom = setRemove b.fetchFrom v := by
  unfold markUnavailable
  dsimp only
  rw [if_neg (by simpa using h)]

theorem mem_setRemove {α : Type} [DecidableEq α] (s : List α) (x y : α) :
    y ∈ setRemove s x ↔ y ∈ s ∧ y ≠ x := by
  simp [setRemove]

/-- C15.  When `(nodeID, requestID)` is outstanding for block `B` and a
non-empty `Ancestors` response fails to parse, parses to no block, or starts
with a block other than `B`, the response is discarded: the tree, the missing
set and the tip height are untouched, a `GetAncestors` request for `B` is sent
to a peer drawn from the fetch pool, and the call returns nil.  The limit
`AncestorsMaxContainersReceived` is not negative (with a negative limit the
slice expression panics before the response is parsed); `kept` is the part of
the response within the limit, which is what the parser is given. -/
theorem C15_bad_response_recovered (cfg : Config H P T) (fuel : Nat) (b : Bootstrapper H P T)
    (nodeID : NodeID) (requestID : Nat) (blks kept : List Bytes) (blkID : ID)
    (hu : ValuesUnique b.outstandingRequests)
    (hk : b.outstandingRequests.getValue ⟨nodeID, requestID⟩ = some blkID)
    (hne : blks ≠ [])
    (hmax : 0 ≤ cfg.ancestorsMaxContainersReceived)
    (hkept : kept = blks.take (min blks.length cfg.ancestorsMaxContainersReceived.toNat))
    (hbad : rejectsResponse (cfg.batchedParseBlock b.host kept).2 blkID = true) :
    ∃ v b', peek cfg (setAdd b.fetchFrom nodeID) = some v ∧
      Ancestors cfg fuel b nodeID requestID blks = some (b', none) ∧
      b'.tree = b.tree ∧ b'.missingBlockIDs = b.missingBlockIDs ∧
      b'.tipHeight = b.tipHeight ∧
      b'.host = (cfg.batchedParseBlock b.host kept).1 ∧
      b'.requestID = (b.requestID + 1) % 2 ^ 32 ∧
      b'.outstandingRequests =
        (b.outstandingRequests.deleteKey ⟨nodeID, requestID⟩).2.put ⟨v, b'.requestID⟩ blkID ∧
      b'.effects = b.effects ++ [Effect.sendGetAncestors v b'.requestID blkID] := by
  have hk' : (b.outstandingRequests.deleteKey ⟨nodeID, requestID⟩).1 = some blkID := hk
  obtain ⟨v, hv, _⟩ := peek_of_ne_nil cfg (setAdd b.fetchFrom nodeID)
    (List.ne_nil_of_mem (setAdd_mem b.fetchFrom nodeID))
  have hf := fetch_issues cfg
    { b with
      outstandingRequests := (b.outstandingRequests.deleteKey ⟨nodeID, requestID⟩).2
      fetchFrom := setAdd b.fetchFrom nodeID
      host := (cfg.batchedParseBlock b.host kept).1 }
    blkID v (BiMap.hasValue_deleteKey _ _ _ hu hk') hv
  have hm := markUnavailable_frame cfg
    { b with
      outstandingRequests := (b.outstandingRequests.deleteKey ⟨nodeID, requestID⟩).2
      fetchFrom := setAdd b.fetchFrom nodeID
      host := (cfg.batchedParseBlock b.host kept).1 } v
  have hA := Ancestors_eq_ancestorsParsed cfg fuel b nodeID requestID blks blkID hk' hne kept
    (hkept ▸ receivedContainers_eq_take cfg blks hmax)
  rw [ancestorsParsed_rejected cfg fuel _ blkID _ hbad, hf] at hA
  exact ⟨v, _, hv, hA, hm.1, hm.2.1, hm.2.2.1, hm.2.2.2, rfl, rfl, rfl⟩

/-- C15, witness.  Peer 7 answers request `(7, 1)` for block 1 with block 9;
the response is dropped and block 1 is requested again, under request ID 2. -/
theorem C15_witness :
    ∃ v b', peek testConfig (setAdd stateH.fetchFrom 7) = some v ∧
      Ancestors testConfig 0 stateH 7 1 [[9, 0, 1]] = some (b', none) ∧
      b'.tree = stateH.tree ∧ b'.missingBlockIDs = stateH.missingBlockIDs ∧
      b'.tipHeight = stateH.tipHeight ∧
      b'.host = (testConfig.batchedParseBlock stateH.host [[9, 0, 1]]).1 ∧
      b'.requestID = (stateH.requestID + 1) % 2 ^ 32 ∧
      b'.outstandingRequests =
        (stateH.outstandingRequests.deleteKey ⟨7, 1⟩).2.put ⟨v, b'.requestID⟩ 1 ∧
      b'.effects = stateH.effects ++ [Effect.sendGetAncestors v b'.requestID 1] :=
  C15_bad_response_recovered testConfig 0 stateH 7 1 [[9, 0, 1]] [[9, 0, 1]] 1
    (by unfold ValuesUnique; decide) rfl (by decide) (by decide) (by decide) (by decide)

/-- C16, as amended.  When peer `P` answers request `(P, r)` for block `B`
with a non-empty `Ancestors` response whose first block is not `B`, `P` is
added back to `fetchFrom` before the response is checked; the `GetAncestors`
request for `B` is re-issued to the peer that `Peek` selects from that pool,
which may be `P`, and if another peer is selected `P` is a member of
`fetchFrom` when the handler returns.  The limit
`AncestorsMaxContainersReceived` is not negative (with a negative limit the
slice expression panics before the response is parsed); `kept` is the part of
the response within the limit, which is what the parser is given. -/
theorem C16_wrong_first_block_refetch (cfg : Config H P T) (fuel : Nat)
    (b : Bootstrapper H P T) (nodeID : NodeID) (requestID : Nat) (blks kept : List Bytes)
    (blkID : ID) (requestedBlock : Block) (others : List Block)
    (hu : ValuesUnique b.outstandingRequests)
    (hk : b.outstandingRequests.getValue ⟨nodeID, requestID⟩ = some blkID)
    (hne : blks ≠ [])
    (hmax : 0 ≤ cfg.ancestorsMaxContainersReceived)
    (hkept : kept = blks.take (min blks.length cfg.ancestorsMaxContainersReceived.toNat))
    (hparsed : (cfg.batchedParseBlock b.host kept).2 = .ok (requestedBlock :: others))
    (hfirst : requestedBlock.id ≠ blkID) :
    ∃ v b', nodeID ∈ setAdd b.fetchFrom nodeID ∧
      peek cfg (setAdd b.fetchFrom nodeID) = some v ∧
      v ∈ setAdd b.fetchFrom nodeID ∧
      Ancestors cfg fuel b nodeID requestID blks = some (b', none) ∧
      b'.effects = b.effects ++ [Effect.sendGetAncestors v b'.requestID blkID] ∧
      (v ≠ nodeID → nodeID ∈ b'.fetchFrom) := by
  have hk' : (b.outstandingRequests.deleteKey ⟨nodeID, requestID⟩).1 = some blkID := hk
  have hbad : rejectsResponse (cfg.batchedParseBlock b.host kept).2 blkID = true := by
    rw [hparsed]
    simpa [rejectsResponse] using hfirst
  obtain ⟨v, hv, hmem⟩ := peek_of_ne_nil cfg (setAdd b.fetchFrom nodeID)
    (List.ne_nil_of_mem (setAdd_mem b.fetchFrom nodeID))
  have hf := fetch_issues cfg
    { b with
      outstandingRequests := (b.outstandingRequests.deleteKey ⟨nodeID, requestID⟩).2
      fetchFrom := setAdd b.fetchFrom nodeID
      host := (cfg.batchedParseBlock b.host kept).1 }
    blkID v (BiMap.hasValue_deleteKey _ _ _ hu hk') hv
  have hA := Ancestors_eq_ancestorsParsed cfg fuel b nodeID requestID blks blkID hk' hne kept
    (hkept ▸ receivedContainers_eq_take cfg blks hmax)
  rw [ancestorsParsed_rejected cfg fuel _ blkID _ hbad, hf] at hA
  refine ⟨v, _, setAdd_mem _ _, hv, hmem, hA, rfl, fun hvn => ?_⟩
  have hin : nodeID ∈ setRemove (setAdd b.fetchFrom nodeID) v :=
    (mem_setRemove _ _ _).2 ⟨setAdd_mem _ _, fun h => hvn h.symm⟩
  have hff := markUnavailable_fetchFrom cfg
    { b with
      outstandingRequests := (b.outstandingRequests.deleteKey ⟨nodeID, requestID⟩).2
      fetchFrom := setAdd b.fetchFrom nodeID
      host := (cfg.batchedParseBlock b.host kept).1 } v
    (List.ne_nil_of_mem hin)
  show nodeID ∈ (markUnavailable cfg _ v).fetchFrom
  rw [hff]
  exact hin

/-- C16, witness.  Peer 7 answers request `(7, 1)` for block 1 with block 9
while peer 8 is in the pool: peer 7 is back in the pool when the fetch is
re-issued. -/
theorem C16_witness :
    ∃ v b', (7 : NodeID) ∈ setAdd stateH.fetchFrom 7 ∧
      peek testConfig (setAdd stateH.fetchFrom 7) = some v ∧
      v ∈ setAdd stateH.fetchFrom 7 ∧
      Ancestors testConfig 0 stateH 7 1 [[9, 0, 1]] = some (b', none) ∧
      b'.effects = stateH.effects ++ [Effect.sendGetAncestors v b'.requestID 1] ∧
      (v ≠ 7 → (7 : NodeID) ∈ b'.fetchFrom) :=
  C16_wrong_first_block_refetch testConfig 0 stateH 7 1 [[9, 0, 1]] [[9, 0, 1]] 1
    ⟨9, 0, 1, [9, 0, 1]⟩ [] (by unfold ValuesUnique; decide) rfl (by decide) (by decide)
    (by decide) rfl (by decide)

theorem stateH_start :
    dispatch testConfig 1 (New testConfig hostH) (Call.start 0) = some (stateH, none) := by
  decide!

theorem stateH2_start :
    dispatch testConfigSecond 1 (New testConfigSecond hostH) (Call.start 0) =
      some (stateH2, none) := by
  decide!

/-- C16, counterexample.  On a node connected to the peers 7 and 8, block 1 is
requested from one of them and that peer answers with block 9.  When the other
peer is selected for the new request, the answering peer is in `fetchFrom`
when the handler returns, without any timeout; and when `Peek` selects the
answering peer, the new request goes to that same peer although the other one
is in the pool. -/
theorem C16_counterexample :
    (Reachable testConfig stateH ∧
      stateH.outstandingRequests.getValue ⟨7, 1⟩ = some 1 ∧
      (∃ b', Ancestors testConfig 0 stateH 7 1 [[9, 0, 1]] = some (b', none) ∧
        b'.effects = stateH.effects ++ [Effect.sendGetAncestors 8 2 1] ∧
        (7 : NodeID) ∈ b'.fetchFrom)) ∧
    (Reachable testConfigSecond stateH2 ∧
      stateH2.outstandingRequests.getValue ⟨8, 1⟩ = some 1 ∧
      (7 : NodeID) ∈ stateH2.fetchFrom ∧
      (∃ b', Ancestors testConfigSecond 0 stateH2 8 1 [[9, 0, 1]] = some (b', none) ∧
        b'.effects = stateH2.effects ++ [Effect.sendGetAncestors 8 2 1])) := by
  refine ⟨⟨⟨hostH, Steps.call 1 (Call.start 0) (Steps.refl _) trivial stateH_start⟩, rfl,
      ⟨_, rfl, by decide, by decide⟩⟩,
    ⟨hostH, Steps.call 1 (Call.start 0) (Steps.refl _) trivial stateH2_start⟩, rfl,
      by decide, ⟨_, rfl, by decide⟩⟩

/-- C17, as amended.  When `(nodeID, requestID)` is outstanding for block `B`,
`Ancestors(nodeID, requestID, [])` removes `nodeID` from `fetchFrom` instead of
adding it back.  If other peers are left in the pool, `nodeID` is not a member
when the fetch for `B` is re-issued, the new request goes to another peer and
the call returns nil; if the pool is not drained by that selection either,
`nodeID` is not a member when the handler returns. -/
theorem C17_empty_response_refetch (cfg : Config H P T) (fuel : Nat) (b : Bootstrapper H P T)
    (nodeID : NodeID) (requestID : Nat) (blkID : ID)
    (hu : ValuesUnique b.outstandingRequests)
    (hk : b.outstandingRequests.getValue ⟨nodeID, requestID⟩ = some blkID)
    (hpool : setRemove b.fetchFrom nodeID ≠ []) :
    ∃ v b',
      nodeID ∉ (markUnavailable cfg
        { b with
          outstandingRequests := (b.outstandingRequests.deleteKey ⟨nodeID, requestID⟩).2 }
        nodeID).fetchFrom ∧
      peek cfg (markUnavailable cfg
        { b with
          outstandingRequests := (b.outstandingRequests.deleteKey ⟨nodeID, requestID⟩).2 }
        nodeID).fetchFrom = some v ∧
      v ≠ nodeID ∧ v ∈ b.fetchFrom ∧
      Ancestors cfg fuel b nodeID requestID [] = some (b', none) ∧
      b'.effects = b.effects ++ [Effect.sendGetAncestors v b'.requestID blkID] ∧
      (setRemove (setRemove b.fetchFrom nodeID) v ≠ [] → nodeID ∉ b'.fetchFrom) := by
  have hk' : (b.outstandingRequests.deleteKey ⟨nodeID, requestID⟩).1 = some blkID := hk
  have hff := markUnavailable_fetchFrom cfg
    { b with
      outstandingRequests := (b.outstandingRequests.deleteKey ⟨nodeID, requestID⟩).2 }
    nodeID hpool
  have hfr := markUnavailable_frame cfg
    { b with
      outstandingRequests := (b.outstandingRequests.deleteKey ⟨nodeID, requestID⟩).2 }
    nodeID
  have hout := markUnavailable_outstandingRequests cfg
    { b with
      outstandingRequests := (b.outstandingRequests.deleteKey ⟨nodeID, requestID⟩).2 }
    nodeID
  have hnot : nodeID ∉ setRemove b.fetchFrom nodeID := fun h =>
    ((mem_setRemove _ _ _).1 h).2 rfl
  obtain ⟨v, hv, hmem⟩ := peek_of_ne_nil cfg (setRemove b.fetchFrom nodeID) hpool
  have hvn : v ≠ nodeID := ((mem_setRemove _ _ _).1 hmem).2
  have hf := fetch_issues cfg
    (markUnavailable cfg
      { b with
        outstandingRequests := (b.outstandingRequests.deleteKey ⟨nodeID, requestID⟩).2 }
      nodeID)
    blkID v (by rw [hout]; exact BiMap.hasValue_deleteKey _ _ _ hu hk') (by rw [hff]; exact hv)
  have hA : Ancestors cfg fuel b nodeID requestID [] = some (fetch cfg
      (markUnavailable cfg
        { b with
          outstandingRequests := (b.outstandingRequests.deleteKey ⟨nodeID, requestID⟩).2 }
        nodeID) blkID) := by
    unfold Ancestors
    dsimp only
    rw [hk']
    dsimp only
    rw [if_pos (by simp)]
  rw [hf] at hA
  refine ⟨v, _, by rw [hff]; exact hnot, by rw [hff]; exact hv, hvn,
    ((mem_setRemove _ _ _).1 hmem).1, hA, ?_, fun hrest => ?_⟩
  · show _ ++ _ = _ ++ _
    have he : (markUnavailable cfg
        { b with
          outstandingRequests := (b.outstandingRequests.deleteKey ⟨nodeID, requestID⟩).2 }
        nodeID).effects = b.effects := by
      unfold markUnavailable
      dsimp only
      split <;> rfl
    rw [he]
  · show nodeID ∉ (markUnavailable cfg _ v).fetchFrom
    rw [markUnavailable_fetchFrom cfg _ v (by rw [hff]; exact hrest), hff]
    exact fun h => hnot ((mem_setRemove _ _ _).1 h).1

/-- C17, witness.  With the peers 8 and 9 in the pool, an empty response of
peer 7 to request `(7, 1)` sends the new request to another peer and leaves
peer 7 out of the pool. -/
theorem C17_witness :
    ∃ v b',
      (7 : NodeID) ∉ (markUnavailable testConfig
        { stateJ with
          outstandingRequests := (stateJ.outstandingRequests.deleteKey ⟨7, 1⟩).2 }
        7).fetchFrom ∧
      peek testConfig (markUnavailable testConfig
        { stateJ with
          outstandingRequests := (stateJ.outstandingRequests.deleteKey ⟨7, 1⟩).2 }
        7).fetchFrom = some v ∧
      v ≠ 7 ∧ v ∈ stateJ.fetchFrom ∧
      Ancestors testConfig 0 stateJ 7 1 [] = some (b', none) ∧
      b'.effects = stateJ.effects ++ [Effect.sendGetAncestors v b'.requestID 1] ∧
      (setRemove (setRemove stateJ.fetchFrom 7) v ≠ [] → (7 : NodeID) ∉ b'.fetchFrom) :=
  C17_empty_response_refetch testConfig 0 stateJ 7 1 1 (by unfold ValuesUnique; decide) rfl
    (by decide)

/-- C17, counterexample.  In the state reached by `Start(0)` on `hostA`, whose
only peer is 7, the empty response of peer 7 to request `(7, 1)` drains the
fetch pool, which is refilled from the preferred peers: peer 7 is a member of
`fetchFrom` when the fetch is re-issued and when the handler returns, and the
new request goes to peer 7. -/
theorem C17_counterexample :
    stateA.outstandingRequests.getValue ⟨7, 1⟩ = some 1 ∧
    (7 : NodeID) ∈ (markUnavailable testConfig
      { stateA with
        outstandingRequests := (stateA.outstandingRequests.deleteKey ⟨7, 1⟩).2 }
      7).fetchFrom ∧
    (∃ b', Ancestors testConfig 0 stateA 7 1 [] = some (b', none) ∧
      b'.effects = stateA.effects ++ [Effect.sendGetAncestors 7 3 1] ∧
      (7 : NodeID) ∈ b'.fetchFrom) := by
  refine ⟨rfl, by decide, ⟨_, rfl, by decide, by decide⟩⟩

/-- C18.  For an outstanding request and a non-empty `blks`, with
`AncestorsMaxContainersReceived` not negative, the list `Ancestors` hands to
the batched parser is the first `min(len(blks), AncestorsMaxContainersReceived)`
entries of `blks` in their order, and the rest of the handler (the checks,
`process`, `tryStartExecuting`) works on the answer of the parser to that list
only. -/
theorem C18_ancestors_truncated (cfg : Config H P T) (fuel : Nat) (b : Bootstrapper H P T)
    (nodeID : NodeID) (requestID : Nat) (blks : List Bytes) (blkID : ID)
    (hk : b.outstandingRequests.getValue ⟨nodeID, requestID⟩ = some blkID)
    (hne : blks ≠ [])
    (hmax : 0 ≤ cfg.ancestorsMaxContainersReceived) :
    receivedContainers cfg blks =
      some (blks.take (min blks.length cfg.ancestorsMaxContainersReceived.toNat)) ∧
    Ancestors cfg fuel b nodeID requestID blks =
      ancestorsParsed cfg fuel
        { b with
          outstandingRequests := (b.outstandingRequests.deleteKey ⟨nodeID, requestID⟩).2
          fetchFrom := setAdd b.fetchFrom nodeID }
        blkID
        (cfg.batchedParseBlock b.host
          (blks.take (min blks.length cfg.ancestorsMaxContainersReceived.toNat))) := by
  exact ⟨receivedContainers_eq_take cfg blks hmax,
    Ancestors_eq_ancestorsParsed cfg fuel b nodeID requestID blks blkID hk hne _
      (receivedContainers_eq_take cfg blks hmax)⟩


/-- C18, witness.  With a limit of two containers, a response of three is
cut to its first two before it is parsed. -/
theorem C18_witness :
    receivedContainers testConfigTwo [[1, 0, 1], [9, 9, 9], [8, 8, 8]] =
      some [[1, 0, 1], [9, 9, 9]] ∧
    Ancestors testConfigTwo 0 stateH 7 1 [[1, 0, 1], [9, 9, 9], [8, 8, 8]] =
      ancestorsParsed testConfigTwo 0
        { stateH with
          outstandingRequests := (stateH.outstandingRequests.deleteKey ⟨7, 1⟩).2
          fetchFrom := setAdd stateH.fetchFrom 7 }
        1 (testConfigTwo.batchedParseBlock stateH.host [[1, 0, 1], [9, 9, 9]]) :=
  C18_ancestors_truncated testConfigTwo 0 stateH 7 1 [[1, 0, 1], [9, 9, 9], [8, 8, 8]] 1 rfl
    (by decide) (by decide)

theorem fetch_host (cfg : Config H P T) (b : Bootstrapper H P T) (blkID : ID) :
    (fetch cfg b blkID).1.host = b.host := by
  unfold fetch
  split
  · rfl
  · split
    · rfl
    · exact (markUnavailable_frame cfg b _).2.2.2

theorem fetchMissing_completed (cfg : Config H P T) (ids : List ID) :
    ∀ (b bf : Bootstrapper H P T) (tp tpf : List Block),
      fetchMissing cfg ids b tp = (bf, tpf, none) →
      tpf = tp ++ heldBlocks cfg b.host ids ∧
      bf = (absentIDs cfg b.host ids).foldl (fun s blkID => (fetch cfg s blkID).1) b := by
  induction ids with
  | nil =>
    intro b bf tp tpf h
    simp only [fetchMissing, Prod.mk.injEq] at h
    simp [heldBlocks, absentIDs, h.1, h.2.1]
  | cons blkID rest ih =>
    intro b bf tp tpf h
    unfold fetchMissing at h
    cases hg : cfg.vmGetBlock b.host blkID with
    | error e =>
      rw [hg] at h
      dsimp only at h
      cases hf : fetch cfg b blkID with
      | mk b1 err =>
        rw [hf] at h
        cases err with
        | some e1 => simp at h
        | none =>
          dsimp only at h
          have hb1 : b1 = (fetch cfg b blkID).1 := by rw [hf]
          have hhost : b1.host = b.host := by rw [hb1]; exact fetch_host cfg b blkID
          obtain ⟨h1, h2⟩ := ih b1 bf tp tpf h
          rw [hhost] at h1 h2
          refine ⟨?_, ?_⟩
          · rw [h1]
            simp [heldBlocks, hg]
          · rw [h2, hb1]
            simp [absentIDs, hg]
    | ok blk =>
      rw [hg] at h
      dsimp only at h
      obtain ⟨h1, h2⟩ := ih b bf (tp ++ [blk]) tpf h
      refine ⟨?_, ?_⟩
      · rw [h1]
        simp [heldBlocks, hg]
      · rw [h2]
        simp [absentIDs, hg]

theorem fetchMissing_allHeld (cfg : Config H P T) (ids : List ID) :
    ∀ (b : Bootstrapper H P T) (tp : List Block), absentIDs cfg b.host ids = [] →
      fetchMissing cfg ids b tp = (b, tp ++ heldBlocks cfg b.host ids, none) := by
  induction ids with
  | nil => intro b tp _; simp [fetchMissing, heldBlocks]
  | cons blkID rest ih =>
    intro b tp h
    unfold fetchMissing
    cases hg : cfg.vmGetBlock b.host blkID with
    | error e => simp [absentIDs, hg] at h
    | ok blk =>
      dsimp only
      have hrest : absentIDs cfg b.host rest = [] := by
        simpa [absentIDs, hg] using h
      rw [ih b (tp ++ [blk]) hrest]
      simp [heldBlocks, hg]

theorem processAll_completed (cfg : Config H P T) (blks : List Block) :
    ∀ (b bp : Bootstrapper H P T), processAll cfg blks b = (bp, none) →
      bp = blks.foldl (fun s blk => (process cfg s blk none).1) b := by
  induction blks with
  | nil =>
    intro b bp h
    simp only [processAll, Prod.mk.injEq] at h
    simp [h.1]
  | cons blk rest ih =>
    intro b bp h
    unfold processAll at h
    cases hp : process cfg b blk none with
    | mk b1 err =>
      rw [hp] at h
      cases err with
      | some e => simp at h
      | none =>
        dsimp only at h
        rw [ih b1 bp h]
        simp [hp]

theorem process_quiet (cfg : Config H P T) (b : Bootstrapper H P T) (blk : Block)
    (ancestors : Option (List (ID × Block)))
    (hq : ∀ host tree missing height,
      (cfg.storageProcess host tree missing height blk ancestors).foundNewMissingID = false) :
    (process cfg b blk ancestors).1.effects = b.effects ∧
    (process cfg b blk ancestors).1.outstandingRequests = b.outstandingRequests := by
  unfold process
  split
  · exact ⟨rfl, rfl⟩
  · dsimp only
    split
    · exact ⟨rfl, rfl⟩
    · split
      · exact ⟨rfl, rfl⟩
      · rw [if_pos (by simp [hq])]
        exact ⟨rfl, rfl⟩

theorem processAll_quiet (cfg : Config H P T) (blks : List Block)
    (hq : ∀ blk ∈ blks, ∀ host tree missing height,
      (cfg.storageProcess host tree missing height blk none).foundNewMissingID = false) :
    ∀ (b : Bootstrapper H P T),
      (processAll cfg blks b).1.effects = b.effects ∧
      (processAll cfg blks b).1.outstandingRequests = b.outstandingRequests := by
  induction blks with
  | nil => intro b; exact ⟨rfl, rfl⟩
  | cons blk rest ih =>
    intro b
    unfold processAll
    have hp := process_quiet cfg b blk none (hq blk (List.mem_cons_self _ _))
    have ih' := ih (fun x hx => hq x (List.mem_cons_of_mem _ hx))
    cases hpr : process cfg b blk none with
    | mk b1 err =>
      rw [hpr] at hp
      cases err with
      | some e => exact hp
      | none =>
        dsimp only
        exact ⟨(ih' b1).1.trans hp.1, (ih' b1).2.trans hp.2⟩

theorem mem_setAddAll {α : Type} [DecidableEq α] (xs : List α) :
    ∀ (s : List α) (y : α), y ∈ setAddAll s xs ↔ y ∈ s ∨ y ∈ xs := by
  induction xs with
  | nil => intro s y; simp [setAddAll]
  | cons x rest ih =>
    intro s y
    have := ih (setAdd s x) y
    simp only [setAddAll, List.foldl_cons] at this ⊢
    rw [this, mem_setAdd]
    simp only [List.mem_cons]
    tauto

theorem nodup_setAddAll {α : Type} [DecidableEq α] (xs : List α) :
    ∀ (s : List α), s.Nodup → (setAddAll s xs).Nodup := by
  induction xs with
  | nil => intro s h; simpa [setAddAll] using h
  | cons x rest ih =>
    intro s h
    simp only [setAddAll, List.foldl_cons]
    refine ih (setAdd s x) ?_
    unfold setAdd
    split
    · exact h
    · rename_i hx
      rw [List.nodup_append]
      exact ⟨h, by simp, by simpa using hx⟩

theorem rangeOrder_perm (cfg : Config H P T) (s : List ID) : (rangeOrder cfg s).Perm s := by
  unfold rangeOrder
  split
  · rename_i h
    exact List.isPerm_iff.1 h
  · exact List.Perm.refl _

theorem peek_eq_none (cfg : Config H P T) (s : List NodeID) (h : peek cfg s = none) :
    s = [] := by
  by_contra hne
  obtain ⟨v, hv, _⟩ := peek_of_ne_nil cfg s hne
  rw [h] at hv
  cases hv

theorem fetch_fails (cfg : Config H P T) (b : Bootstrapper H P T) (blkID : ID) (e : Err)
    (h : (fetch cfg b blkID).2 = some e) :
    e = Err.noValidators blkID ∧ fetch cfg b blkID = (b, some e) ∧ b.fetchFrom = [] ∧
    b.outstandingRequests.hasValue blkID = false := by
  cases hv : b.outstandingRequests.hasValue blkID with
  | true =>
    have hf : fetch cfg b blkID = (b, none) := by
      unfold fetch
      rw [if_pos hv]
    rw [hf] at h
    cases h
  | false =>
    cases hp : peek cfg b.fetchFrom with
    | none =>
      have hf : fetch cfg b blkID = (b, some (Err.noValidators blkID)) := by
        unfold fetch
        rw [if_neg (by simp [hv]), hp]
      rw [hf] at h ⊢
      simp only [Option.some.injEq] at h
      subst h
      exact ⟨rfl, rfl, peek_eq_none cfg _ hp, rfl⟩
    | some v =>
      rw [fetch_issues cfg b blkID v hv hp] at h
      cases h

theorem fetch_tree (cfg : Config H P T) (b : Bootstrapper H P T) (blkID : ID) :
    (fetch cfg b blkID).1.tree = b.tree := by
  unfold fetch
  split
  · rfl
  · split
    · rfl
    · exact (markUnavailable_frame cfg b _).1

theorem foldl_fetch_frame (cfg : Config H P T) (ids : List ID) :
    ∀ (b : Bootstrapper H P T),
      (ids.foldl (fun s blkID => (fetch cfg s blkID).1) b).tree = b.tree ∧
      (ids.foldl (fun s blkID => (fetch cfg s blkID).1) b).host = b.host := by
  induction ids with
  | nil => intro b; exact ⟨rfl, rfl⟩
  | cons blkID rest ih =>
    intro b
    simp only [List.foldl_cons]
    exact ⟨(ih _).1.trans (fetch_tree cfg b blkID), (ih _).2.trans (fetch_host cfg b blkID)⟩

theorem fetchMissing_append (cfg : Config H P T) (pre rest : List ID) :
    ∀ (b s : Bootstrapper H P T) (tp tp1 : List Block),
      fetchMissing cfg pre b tp = (s, tp1, none) →
      fetchMissing cfg (pre ++ rest) b tp = fetchMissing cfg rest s tp1 := by
  induction pre with
  | nil =>
    intro b s tp tp1 h
    simp only [fetchMissing, Prod.mk.injEq] at h
    rw [List.nil_append, h.1, h.2.1]
  | cons blkID pre ih =>
    intro b s tp tp1 h
    unfold fetchMissing at h
    rw [List.cons_append, fetchMissing]
    cases hg : cfg.vmGetBlock b.host blkID with
    | error code =>
      rw [hg] at h
      dsimp only at h ⊢
      cases hf : fetch cfg b blkID with
      | mk b1 err =>
        rw [hf] at h
        cases err with
        | some e1 => simp at h
        | none =>
          dsimp only at h ⊢
          exact ih b1 s tp tp1 h
    | ok blk =>
      rw [hg] at h
      dsimp only at h ⊢
      exact ih b s (tp ++ [blk]) tp1 h

theorem stateAgone_disconnected :
    dispatch testConfig 0 stateA (Call.disconnected 7) = some (stateAgone, none) := by
  decide!

theorem stateAgone_reachable : Reachable testConfig stateAgone := by
  obtain ⟨host, hs⟩ := stateA_reachable
  exact ⟨host, Steps.call 0 (Call.disconnected 7) hs trivial stateAgone_disconnected⟩

/-- C19, counterexample.  After `Start(0)` and the disconnection of peer 7
the startup tracker prefers no peer.  `startSyncing` with the accepted block 5,
which the VM does not hold, finds the blocks 1 and 2 already requested and no
peer to ask for block 5: block 5 gets no fetch and no request, nothing is
sent, and the call returns the no-validators error instead of the nil that
`tryStartExecuting` returns on that state. -/
theorem C19_counterexample :
    Reachable testConfig stateAgone ∧
    startSyncing testConfig 0 stateAgone [5] =
      some ({ stateAgone with missingBlockIDs := [1, 2, 5] }, some (Err.noValidators 5)) ∧
    stateAgone.outstandingRequests.hasValue 5 = false ∧
    tryStartExecuting testConfig 0 { stateAgone with missingBlockIDs := [1, 2, 5] } =
      some ({ stateAgone with missingBlockIDs := [1, 2, 5] }, none) := by
  refine ⟨stateAgone_reachable, ?_, rfl, ?_⟩ <;> decide!

/-- C19, as amended.  `startSyncing` sets `fetchFrom` to the preferred peers,
adds the accepted IDs to `missingBlockIDs` and visits the IDs of that set in
some order, each at most once: a block the VM holds is queued and gets no
fetch, every other ID is fetched and not queued.  If a fetch returns an error
(no request expects the block and the pool is empty), `startSyncing` returns
that error at once: the IDs after it are not visited, nothing is processed
and `tryStartExecuting` is not called.  If no fetch fails, the queue is
exactly the held blocks and the state is the one the fetches of the other IDs
leave; the queued blocks are then processed in order without an ancestors
map; an error of `process` is returned, and otherwise `tryStartExecuting` is
called.  When the VM holds every block and `process` never reports a missing
parent, no `GetAncestors` request is sent by then. -/
theorem C19_start_syncing (cfg : Config H P T) (fuel : Nat) (b b1 : Bootstrapper H P T)
    (acceptedContainerIDs order : List ID)
    (hb1 : b1 = { b with
      fetchFrom := cfg.preferredPeers b.host
      missingBlockIDs := setAddAll b.missingBlockIDs acceptedContainerIDs })
    (horder : order = rangeOrder cfg b1.missingBlockIDs) :
    (∀ blkID ∈ acceptedContainerIDs, blkID ∈ b1.missingBlockIDs) ∧
    order.Perm b1.missingBlockIDs ∧
    (b.missingBlockIDs.Nodup → order.Nodup) ∧
    (∀ (pre post : List ID) (blkID : ID) (s : Bootstrapper H P T) (toProcess : List Block)
        (e : Err),
      order = pre ++ blkID :: post →
      fetchMissing cfg pre b1 [] = (s, toProcess, none) →
      (∃ code, cfg.vmGetBlock b.host blkID = .error code) →
      (fetch cfg s blkID).2 = some e →
      e = Err.noValidators blkID ∧ s.fetchFrom = [] ∧
      s.outstandingRequests.hasValue blkID = false ∧
      s = (absentIDs cfg b.host pre).foldl (fun s blkID => (fetch cfg s blkID).1) b1 ∧
      s.tree = b.tree ∧ s.host = b.host ∧
      startSyncing cfg fuel b acceptedContainerIDs = some (s, some e)) ∧
    (∀ bf toProcess, fetchMissing cfg order b1 [] = (bf, toProcess, none) →
      toProcess = heldBlocks cfg b.host order ∧
      bf = (absentIDs cfg b.host order).foldl (fun s blkID => (fetch cfg s blkID).1) b1 ∧
      (∀ bp e, processAll cfg toProcess { bf with initiallyFetched := treeLen cfg bf.tree } =
          (bp, some e) →
        startSyncing cfg fuel b acceptedContainerIDs = some (bp, some e)) ∧
      ∀ bp, processAll cfg toProcess { bf with initiallyFetched := treeLen cfg bf.tree } =
          (bp, none) →
        bp = toProcess.foldl (fun s blk => (process cfg s blk none).1)
          { bf with initiallyFetched := treeLen cfg bf.tree } ∧
        startSyncing cfg fuel b acceptedContainerIDs = tryStartExecuting cfg fuel bp) ∧
    (absentIDs cfg b.host order = [] →
      (∀ blk ∈ heldBlocks cfg b.host order, ∀ host tree missing height,
        (cfg.storageProcess host tree missing height blk none).foundNewMissingID = false) →
      ∃ bp, bp.effects = b.effects ∧ bp.outstandingRequests = b.outstandingRequests ∧
        (startSyncing cfg fuel b acceptedContainerIDs = tryStartExecuting cfg fuel bp ∨
          ∃ e, startSyncing cfg fuel b acceptedContainerIDs = some (bp, some e))) := by
  subst hb1
  subst horder
  refine ⟨fun blkID h => (mem_setAddAll _ _ _).2 (Or.inr h), rangeOrder_perm cfg _,
    fun hn => ((rangeOrder_perm cfg _).nodup_iff).2 (nodup_setAddAll _ _ hn), ?_, ?_, ?_⟩
  · intro pre post blkID s toProcess e hsplit hpre hget hfail
    obtain ⟨code, hget⟩ := hget
    obtain ⟨_, hs⟩ := fetchMissing_completed cfg _ _ _ _ _ hpre
    have hfr := foldl_fetch_frame cfg (absentIDs cfg b.host pre)
      { b with
        fetchFrom := cfg.preferredPeers b.host
        missingBlockIDs := setAddAll b.missingBlockIDs acceptedContainerIDs }
    have hs' : s = (absentIDs cfg b.host pre).foldl (fun s blkID => (fetch cfg s blkID).1)
        { b with
          fetchFrom := cfg.preferredPeers b.host
          missingBlockIDs := setAddAll b.missingBlockIDs acceptedContainerIDs } := hs
    have htree : s.tree = b.tree := by rw [hs']; exact hfr.1
    have hhost : s.host = b.host := by rw [hs']; exact hfr.2
    obtain ⟨he, hf, hpool, hval⟩ := fetch_fails cfg s blkID e hfail
    refine ⟨he, hpool, hval, hs', htree, hhost, ?_⟩
    have hfm : fetchMissing cfg (rangeOrder cfg (setAddAll b.missingBlockIDs
        acceptedContainerIDs))
        { b with
          fetchFrom := cfg.preferredPeers b.host
          missingBlockIDs := setAddAll b.missingBlockIDs acceptedContainerIDs } [] =
        (s, toProcess, some e) := by
      have hsplit' : rangeOrder cfg (setAddAll b.missingBlockIDs acceptedContainerIDs) =
          pre ++ blkID :: post := hsplit
      rw [hsplit', fetchMissing_append cfg pre (blkID :: post) _ s [] toProcess hpre]
      unfold fetchMissing
      rw [hhost, hget]
      dsimp only
      rw [hf]
    unfold startSyncing startSyncingWith
    dsimp only
    rw [hfm]
  · intro bf toProcess hfm
    obtain ⟨h1, h2⟩ := fetchMissing_completed cfg _ _ _ _ _ hfm
    refine ⟨by simpa using h1, h2, fun bp e hpa => ?_,
      fun bp hpa => ⟨processAll_completed cfg _ _ _ hpa, ?_⟩⟩
    · unfold startSyncing startSyncingWith
      dsimp only
      rw [hfm]
      dsimp only
      rw [hpa]
    · unfold startSyncing startSyncingWith
      dsimp only
      rw [hfm]
      dsimp only
      rw [hpa]
      try rfl
  · intro hheld hq
    have hfm := fetchMissing_allHeld cfg (rangeOrder cfg (setAddAll b.missingBlockIDs
      acceptedContainerIDs))
      { b with
        fetchFrom := cfg.preferredPeers b.host
        missingBlockIDs := setAddAll b.missingBlockIDs acceptedContainerIDs } [] hheld
    have hquiet := processAll_quiet cfg
      ([] ++ heldBlocks cfg b.host (rangeOrder cfg (setAddAll b.missingBlockIDs
        acceptedContainerIDs))) (by simpa using hq)
      { b with
        fetchFrom := cfg.preferredPeers b.host
        missingBlockIDs := setAddAll b.missingBlockIDs acceptedContainerIDs
        initiallyFetched := treeLen cfg b.tree }
    cases hpa : processAll cfg
      ([] ++ heldBlocks cfg b.host (rangeOrder cfg (setAddAll b.missingBlockIDs
        acceptedContainerIDs)))
      { b with
        fetchFrom := cfg.preferredPeers b.host
        missingBlockIDs := setAddAll b.missingBlockIDs acceptedContainerIDs
        initiallyFetched := treeLen cfg b.tree } with
    | mk bp err =>
      rw [hpa] at hquiet
      refine ⟨bp, hquiet.1, hquiet.2, ?_⟩
      have hs : startSyncing cfg fuel b acceptedContainerIDs =
          (match (bp, err) with
            | (bp, some e) => some (bp, some e)
            | (bp, none) => tryStartExecuting cfg fuel bp) := by
        unfold startSyncing startSyncingWith
        dsimp only
        rw [hfm]
        dsimp only
        rw [hpa]
        try rfl
      cases err with
      | some e => exact Or.inr ⟨e, hs⟩
      | none => exact Or.inl hs

/-- C19, witness.  With no peer left, the fetch of block 5 fails after the
blocks 1 and 2 were found requested, and `startSyncing` returns the error.
With peer 7 connected and the accepted blocks 0 and 1, the genesis block is
processed and block 1 is requested from peer 7 before `tryStartExecuting`
runs.  With only the genesis block accepted nothing is fetched, and
`tryStartExecuting` runs on a state whose effects are those before the
call. -/
theorem C19_witness :
    startSyncing testConfig 0 stateAgone [5] =
      some ({ stateAgone with missingBlockIDs := [1, 2, 5] }, some (Err.noValidators 5)) ∧
    startSyncing testConfig 0 stateS [0, 1] = tryStartExecuting testConfig 0 stateSfetched ∧
    startSyncing testConfig 0 stateS [0] = tryStartExecuting testConfig 0 stateS ∧
    (∃ bp, bp.effects = stateS.effects ∧
      bp.outstandingRequests = stateS.outstandingRequests ∧
      (startSyncing testConfig 0 stateS [0] = tryStartExecuting testConfig 0 bp ∨
        ∃ e, startSyncing testConfig 0 stateS [0] = some (bp, some e))) :=
  have hfail := C19_start_syncing testConfig 0 stateAgone _ [5] _ rfl rfl
  have hfetch := C19_start_syncing testConfig 0 stateS _ [0, 1] _ rfl rfl
  have h := C19_start_syncing testConfig 0 stateS _ [0] _ rfl rfl
  ⟨(hfail.2.2.2.1 [1, 2] [] 5 { stateAgone with missingBlockIDs := [1, 2, 5] } []
      (Err.noValidators 5) rfl (by decide!) ⟨1, rfl⟩ rfl).2.2.2.2.2.2,
    ((hfetch.2.2.2.2.1
      { stateS with
        requestID := 2
        outstandingRequests := ⟨[(⟨7, 2⟩, 1)]⟩
        missingBlockIDs := [0, 1]
        effects := [Effect.sendGetAncestors 7 2 1] }
      [genesis] (by decide!)).2.2.2 stateSfetched (by decide!)).2,
    ((h.2.2.2.2.1 _ _ rfl).2.2.2 stateS rfl).2,
    h.2.2.2.2.2 rfl (by
      intro blk hblk host tree missing height
      have hg : blk = genesis := by simpa [heldBlocks, rangeOrder, setAddAll, setAdd, stateS,
        stateD, testConfig, stateA, hostA, genesis] using hblk
      subst hg
      rfl)⟩

/-- C20, the code at the failing input.  The VM fails to read block 1 with an
error other than `database.ErrNotFound`; `startSyncing` does not return it: it
sends a `GetAncestors` request for block 1 and returns nil. -/
theorem C20_getBlock_error_not_returned :
    testConfigCorrupt.vmGetBlock stateS.host 1 = .error 2 ∧
    (2 : Nat) ≠ errNotFound ∧
    startSyncing testConfigCorrupt 0 stateS [1] = some (stateSfetched, none) ∧
    stateSfetched.effects = [Effect.sendGetAncestors 7 2 1] := by
  refine ⟨rfl, by decide, by decide!, rfl⟩

/-- C21, counterexample.  In the state reached by `Start(0)` on a node that
knows validator 7, the fetch pool is empty while the startup tracker prefers
peer 7; `fetch` of block 1, which no request expects, leaves the pool empty
and returns the no-validators error.  The error reaches the caller of a public
entry point: after `Start(0)` on a node whose only peer 7 then disconnects, an
empty `Ancestors` response of peer 7 returns it. -/
theorem C21_counterexample :
    stateQ1.fetchFrom = [] ∧ stateQ1.outstandingRequests.hasValue 1 = false ∧
    testConfig.preferredPeers stateQ1.host = [7] ∧
    fetch testConfig stateQ1 1 = (stateQ1, some (Err.noValidators 1)) ∧
    Disconnected testConfig stateA 7 = (stateAgone, none) ∧
    (dispatch testConfig 0 stateAgone (Call.ancestors 7 1 [])).map (fun r => r.2) =
      some (some (Err.noValidators 1)) := by
  refine ⟨rfl, rfl, rfl, ?_, ?_, ?_⟩ <;> decide!

/-- C21, as amended.  `fetch` called for a block with no outstanding request
while `fetchFrom` is empty changes nothing and returns the no-validators
error.  The pool is refilled where it drains: `markUnavailable` resets it to
`StartupTracker.PreferredPeers()` when the removal leaves it empty, and so
does a `fetch` that selects the last peer of the pool, which returns nil. -/
theorem C21_drained_pool_refill (cfg : Config H P T) (b : Bootstrapper H P T) (blkID : ID)
    (nodeID : NodeID) :
    (b.outstandingRequests.hasValue blkID = false → b.fetchFrom = [] →
      fetch cfg b blkID = (b, some (Err.noValidators blkID))) ∧
    (setRemove b.fetchFrom nodeID = [] →
      (markUnavailable cfg b nodeID).fetchFrom = cfg.preferredPeers b.host) ∧
    (b.outstandingRequests.hasValue blkID = false → peek cfg b.fetchFrom = some nodeID →
      (fetch cfg b blkID).2 = none ∧
      (setRemove b.fetchFrom nodeID = [] →
        (fetch cfg b blkID).1.fetchFrom = cfg.preferredPeers b.host)) := by
  have hmark : setRemove b.fetchFrom nodeID = [] →
      (markUnavailable cfg b nodeID).fetchFrom = cfg.preferredPeers b.host := by
    intro h
    unfold markUnavailable
    dsimp only
    rw [if_pos (by simp [h])]
  refine ⟨fun hv he => ?_, hmark, fun hv hp => ?_⟩
  · unfold fetch
    rw [if_neg (by simp [hv])]
    have hp : peek cfg b.fetchFrom = none := by simp [peek, he]
    rw [hp]
  · rw [fetch_issues cfg b blkID nodeID hv hp]
    exact ⟨rfl, hmark⟩

/-- C21, witness.  With an empty pool `fetch` returns the error; with peer 7
as the last peer of the pool `fetch` returns nil and the pool is refilled with
the preferred peer 7. -/
theorem C21_witness :
    fetch testConfig stateQ1 1 = (stateQ1, some (Err.noValidators 1)) ∧
    (fetch testConfig stateA 3).2 = none ∧ (fetch testConfig stateA 3).1.fetchFrom = [7] :=
  ⟨(C21_drained_pool_refill testConfig stateQ1 1 0).1 rfl rfl,
    ((C21_drained_pool_refill testConfig stateA 3 7).2.2 rfl rfl).1,
    ((C21_drained_pool_refill testConfig stateA 3 7).2.2 rfl rfl).2 rfl⟩

theorem setRemove_of_not_mem {α : Type} [DecidableEq α] (s : List α) (x : α) (h : x ∉ s) :
    setRemove s x = s := by
  unfold setRemove
  rw [List.filter_eq_self]
  intro a ha
  have : a ≠ x := fun hax => h (hax ▸ ha)
  simpa using this

theorem markUnavailable_eq (cfg : Config H P T) (b : Bootstrapper H P T) (nodeID : NodeID) :
    markUnavailable cfg b nodeID =
      { b with fetchFrom :=
          if setRemove b.fetchFrom nodeID = [] then cfg.preferredPeers b.host
          else setRemove b.fetchFrom nodeID } := by
  unfold markUnavailable
  dsimp only
  by_cases h : setRemove b.fetchFrom nodeID = []
  · rw [if_pos (by simp [h]), if_pos h]
  · rw [if_neg (by simpa using h), if_neg h]

/-- C22, counterexample.  Peer 7 is not a validator of the subnet and is in
the fetch pool (the pool was filled from the preferred peers); `Disconnected`
of peer 7 returns nil and leaves the pool empty. -/
theorem C22_counterexample :
    testConfig.getValidator stateA.host testConfig.subnetID 7 = false ∧
    stateA.fetchFrom = [7] ∧
    Disconnected testConfig stateA 7 = (stateAgone, none) ∧ stateAgone.fetchFrom = [] := by
  refine ⟨rfl, rfl, ?_, rfl⟩
  decide!

/-- C22, as amended.  Once the VM and the startup tracker have accepted the
call, `Connected(nodeID)` adds `nodeID` to `fetchFrom` exactly when
`Beacons.GetValidator(subnetID, nodeID)` succeeds and then tries to start
bootstrapping; on an engine that has started this is all it does.
`Disconnected(nodeID)` does not ask whether the peer is a validator: once the
VM and the startup tracker have accepted the call it removes `nodeID` from
`fetchFrom` and resets a pool left empty to the preferred peers, so the pool
is unchanged when it is non-empty and does not hold `nodeID`. -/
theorem C22_pool_on_connect_disconnect (cfg : Config H P T) (fuel : Nat)
    (b : Bootstrapper H P T) (nodeID : NodeID) (nodeVersion : Nat) :
    ((cfg.vmConnected b.host nodeID nodeVersion).2 = none →
      (cfg.startupConnected (cfg.vmConnected b.host nodeID nodeVersion).1
        nodeID nodeVersion).2 = none →
      Connected cfg fuel b nodeID nodeVersion = tryStartBootstrapping cfg fuel
        { b with
          host := connectedHost cfg b.host nodeID nodeVersion
          fetchFrom :=
            if cfg.getValidator (connectedHost cfg b.host nodeID nodeVersion) cfg.subnetID nodeID
            then setAdd b.fetchFrom nodeID else b.fetchFrom } ∧
      (b.started = true →
        Connected cfg fuel b nodeID nodeVersion = some
          ({ b with
            host := connectedHost cfg b.host nodeID nodeVersion
            fetchFrom :=
              if cfg.getValidator (connectedHost cfg b.host nodeID nodeVersion) cfg.subnetID
                nodeID
              then setAdd b.fetchFrom nodeID else b.fetchFrom }, none))) ∧
    ((cfg.vmDisconnected b.host nodeID).2 = none →
      (cfg.startupDisconnected (cfg.vmDisconnected b.host nodeID).1 nodeID).2 = none →
      Disconnected cfg b nodeID =
        ({ b with
          host := disconnectedHost cfg b.host nodeID
          fetchFrom :=
            if setRemove b.fetchFrom nodeID = [] then
              cfg.preferredPeers (disconnectedHost cfg b.host nodeID)
            else setRemove b.fetchFrom nodeID }, none) ∧
      (nodeID ∉ b.fetchFrom → b.fetchFrom ≠ [] →
        (Disconnected cfg b nodeID).1.fetchFrom = b.fetchFrom)) := by
  have hc : (cfg.vmConnected b.host nodeID nodeVersion).2 = none →
      (cfg.startupConnected (cfg.vmConnected b.host nodeID nodeVersion).1
        nodeID nodeVersion).2 = none →
      Connected cfg fuel b nodeID nodeVersion = tryStartBootstrapping cfg fuel
        { b with
          host := connectedHost cfg b.host nodeID nodeVersion
          fetchFrom :=
            if cfg.getValidator (connectedHost cfg b.host nodeID nodeVersion) cfg.subnetID nodeID
            then setAdd b.fetchFrom nodeID else b.fetchFrom } := by
    intro hv ht
    unfold Connected connectedHost
    dsimp only
    rw [hv]
    dsimp only
    rw [ht]
    dsimp only
    split <;> rfl
  have hd : (cfg.vmDisconnected b.host nodeID).2 = none →
      (cfg.startupDisconnected (cfg.vmDisconnected b.host nodeID).1 nodeID).2 = none →
      Disconnected cfg b nodeID =
        ({ b with
          host := disconnectedHost cfg b.host nodeID
          fetchFrom :=
            if setRemove b.fetchFrom nodeID = [] then
              cfg.preferredPeers (disconnectedHost cfg b.host nodeID)
            else setRemove b.fetchFrom nodeID }, none) := by
    intro hv ht
    unfold Disconnected disconnectedHost
    dsimp only
    rw [hv]
    dsimp only
    rw [ht]
    dsimp only
    rw [markUnavailable_eq]
  refine ⟨fun hv ht => ⟨hc hv ht, fun hs => ?_⟩, fun hv ht => ⟨hd hv ht, fun hn he => ?_⟩⟩
  · rw [hc hv ht]
    unfold tryStartBootstrapping
    rw [if_pos (by simp [hs])]
  · rw [hd hv ht]
    dsimp only
    rw [setRemove_of_not_mem _ _ hn, if_neg he]

/-- C22, witness.  On the started engine `stateH`, whose node knows no
validator, `Connected` of peer 9 leaves the pool `[8]`; `Disconnected` of
peer 9, which is not in the pool, leaves it unchanged as well. -/
theorem C22_witness :
    (Connected testConfig 0 stateH 9 0).map (fun r => r.1.fetchFrom) = some [8] ∧
    (Disconnected testConfig stateH 9).1.fetchFrom = [8] :=
  ⟨by rw [((C22_pool_on_connect_disconnect testConfig 0 stateH 9 0).1 rfl rfl).2 rfl]; rfl,
    ((C22_pool_on_connect_disconnect testConfig 0 stateH 9 0).2 rfl rfl).2 (by decide)
      (by decide)⟩

/-- C23.  `tryStartExecuting` returns nil and leaves the whole state as it is
(nothing is executed, no tracker is notified, no message is sent) whenever
`missingBlockIDs` is non-empty, or the engine state is `NormalOp`, or
`awaitingTimeout` is set; `startBootstrapping` is not reached, so this holds
with any fuel. -/
theorem C23_execution_guards (cfg : Config H P T) (fuel : Nat) (b : Bootstrapper H P T)
    (h : b.missingBlockIDs ≠ [] ∨ (cfg.ctxStateGet b.host).state = State.normalOp ∨
      b.awaitingTimeout = true) :
    tryStartExecuting cfg fuel b = some (b, none) := by
  unfold tryStartExecuting tryStartExecutingWith
  by_cases hm : b.missingBlockIDs = []
  · rw [if_neg (by simp [hm])]
    rcases h with h | h | h
    · exact absurd hm h
    · rw [if_pos (by simp [h])]
    · rw [if_pos (by simp [h])]
  · rw [if_pos (by simpa using hm)]

/-- C23, witness.  With blocks 1 and 2 missing, with the timeout pending, and
in normal operation the call changes nothing. -/
theorem C23_witness :
    tryStartExecuting testConfig 0 stateA = some (stateA, none) ∧
    tryStartExecuting testConfig 0 stateF = some (stateF, none) ∧
    tryStartExecuting testConfig 0 stateFdone = some (stateFdone, none) :=
  ⟨C23_execution_guards testConfig 0 stateA (Or.inl (by decide)),
    C23_execution_guards testConfig 0 stateF (Or.inr (Or.inr rfl)),
    C23_execution_guards testConfig 0 stateFdone (Or.inr (Or.inl rfl))⟩

/-! ## Preservation of relations on the flags -/

theorem Tracks.next {cfg : Config H P T} {R : Bootstrapper H P T → Bootstrapper H P T → Prop}
    (hK : Tracks cfg R) {a b c : Bootstrapper H P T} (h2 : R b c) (h1 : R a b) : R a c :=
  hK.trans h1 h2

theorem Tracks.frameSent {cfg : Config H P T}
    {R : Bootstrapper H P T → Bootstrapper H P T → Prop}
    (hK : Tracks cfg R) (b b' : Bootstrapper H P T) (hs : b'.started = b.started)
    (ho : b'.bootstrappedOnce = b.bootstrappedOnce) (es : List Effect)
    (heff : b'.effects = b.effects ++ es)
    (hes : ∀ e ∈ es, e ≠ Effect.bootstrappedCallback ∧ ∀ c, e ≠ Effect.trackerBootstrapped c) :
    R b b' := by
  induction es using List.reverseRecOn generalizing b' with
  | nil => exact hK.frame _ _ hs ho (by simpa using heff)
  | append_singleton es e ih =>
    have h1 : R b { b' with effects := b.effects ++ es } :=
      ih _ hs ho rfl (fun x hx => hes x (by simp [hx]))
    have h2 := hK.effect { b' with effects := b.effects ++ es } e (hes e (by simp)).1
      (hes e (by simp)).2
    refine hK.trans h1 (hK.trans h2 (hK.frame _ _ rfl rfl ?_))
    simp [heff]

theorem keptOpt_of_kept {R : Bootstrapper H P T → Bootstrapper H P T → Prop}
    {b : Bootstrapper H P T} {r : Res H P T} (h : R b r.1) : KeptOpt R b (some r) := by
  intro r' hr
  cases hr
  exact h

theorem keptOpt_of_rel {cfg : Config H P T}
    {R : Bootstrapper H P T → Bootstrapper H P T → Prop}
    (hK : Tracks cfg R) {a b : Bootstrapper H P T} {o : Option (Res H P T)}
    (h2 : KeptOpt R b o) (h1 : R a b) : KeptOpt R a o :=
  fun r hr => hK.trans h1 (h2 r hr)

theorem markUnavailable_kept {cfg : Config H P T}
    {R : Bootstrapper H P T → Bootstrapper H P T → Prop}
    (hK : Tracks cfg R) (b : Bootstrapper H P T) (nodeID : NodeID) :
    R b (markUnavailable cfg b nodeID) := by
  unfold markUnavailable
  dsimp only
  split <;> exact hK.frame _ _ rfl rfl rfl

theorem fetch_kept {cfg : Config H P T} {R : Bootstrapper H P T → Bootstrapper H P T → Prop}
    (hK : Tracks cfg R) (b : Bootstrapper H P T) (blkID : ID) :
    R b (fetch cfg b blkID).1 := by
  unfold fetch
  split
  · exact hK.refl _
  · split
    · exact hK.refl _
    · rename_i v _
      exact hK.trans (markUnavailable_kept hK b v)
        (hK.frameSent _ _ rfl rfl [_] rfl (by simp))

theorem onFinished_kept {cfg : Config H P T}
    {R : Bootstrapper H P T → Bootstrapper H P T → Prop}
    (hK : Tracks cfg R) (b : Bootstrapper H P T) : R b (onFinished cfg b).1 := by
  unfold onFinished
  exact hK.frameSent b _ rfl rfl [_] rfl (by simp)

theorem process_kept {cfg : Config H P T} {R : Bootstrapper H P T → Bootstrapper H P T → Prop}
    (hK : Tracks cfg R) (b : Bootstrapper H P T) (blk : Block)
    (ancestors : Option (List (ID × Block))) :
    R b (process cfg b blk ancestors).1 := by
  unfold process
  split
  · exact hK.refl _
  · dsimp only
    split
    · exact hK.frame _ _ rfl rfl rfl
    · split
      · exact hK.frame _ _ rfl rfl rfl
      · split
        · exact hK.frame _ _ rfl rfl rfl
        · exact hK.next (fetch_kept hK _ _) (hK.frame _ _ rfl rfl rfl)

theorem process_kept_eq {cfg : Config H P T}
    {R : Bootstrapper H P T → Bootstrapper H P T → Prop}
    (hK : Tracks cfg R) {b b1 : Bootstrapper H P T} {blk : Block}
    {ancestors : Option (List (ID × Block))} {e : Option Err}
    (h : process cfg b blk ancestors = (b1, e)) : R b b1 := by
  have := process_kept hK b blk ancestors
  rw [h] at this
  exact this

theorem fetchMissing_kept {cfg : Config H P T}
    {R : Bootstrapper H P T → Bootstrapper H P T → Prop}
    (hK : Tracks cfg R) (l : List ID) :
    ∀ (b : Bootstrapper H P T) (toProcess : List Block),
      R b (fetchMissing cfg l b toProcess).1 := by
  induction l with
  | nil => intro b tp; exact hK.refl _
  | cons blkID rest ih =>
    intro b tp
    unfold fetchMissing
    split
    · have hf := fetch_kept hK b blkID
      split
      · rename_i b1 e he
        rw [he] at hf
        exact hf
      · rename_i b1 he
        rw [he] at hf
        exact hK.trans hf (ih b1 tp)
    · exact ih _ _

theorem processAll_kept {cfg : Config H P T}
    {R : Bootstrapper H P T → Bootstrapper H P T → Prop}
    (hK : Tracks cfg R) (l : List Block) :
    ∀ (b : Bootstrapper H P T), R b (processAll cfg l b).1 := by
  induction l with
  | nil => intro b; exact hK.refl _
  | cons blk rest ih =>
    intro b
    unfold processAll
    have hp := process_kept hK b blk none
    split
    · rename_i b1 e he
      rw [he] at hp
      exact hp
    · rename_i b1 he
      rw [he] at hp
      exact hK.trans hp (ih b1)

theorem restartBootstrappingWith_kept {cfg : Config H P T}
    {R : Bootstrapper H P T → Bootstrapper H P T → Prop}
    (hK : Tracks cfg R) (sb : Bootstrapper H P T → Option (Res H P T)) (hsb : KeptCall R sb)
    (b : Bootstrapper H P T) : KeptOpt R b (restartBootstrappingWith sb b) := by
  unfold restartBootstrappingWith
  exact keptOpt_of_rel hK (hsb _) (hK.frame b _ rfl rfl rfl)

theorem tryStartExecutingWith_kept {cfg : Config H P T}
    {R : Bootstrapper H P T → Bootstrapper H P T → Prop}
    (hK : Tracks cfg R) (sb : Bootstrapper H P T → Option (Res H P T))
    (hsb : KeptCall R sb) (b : Bootstrapper H P T) :
    KeptOpt R b (tryStartExecutingWith cfg sb b) := by
  unfold tryStartExecutingWith
  split
  · exact keptOpt_of_kept (hK.refl _)
  · split
    · exact keptOpt_of_kept (hK.refl _)
    · split
      · exact keptOpt_of_kept (hK.refl _)
      · rename_i lastAcceptedHeight _
        dsimp only
        split
        · exact keptOpt_of_kept (hK.frame _ _ rfl rfl rfl)
        · split
          · exact keptOpt_of_rel hK (restartBootstrappingWith_kept hK sb hsb _)
              (hK.frame _ _ rfl rfl rfl)
          · have hc : R b
                { notifyBootstrapped cfg
                    { b with
                      host := (cfg.storageExecute b.host b.tree lastAcceptedHeight).host
                      tree := (cfg.storageExecute b.host b.tree lastAcceptedHeight).tree
                      executedStateTransitions := treeLen cfg b.tree } with
                  effects := (notifyBootstrapped cfg
                    { b with
                      host := (cfg.storageExecute b.host b.tree lastAcceptedHeight).host
                      tree := (cfg.storageExecute b.host b.tree lastAcceptedHeight).tree
                      executedStateTransitions := treeLen cfg b.tree }).effects ++
                    [Effect.trackerBootstrapped cfg.chainID] } :=
              hK.next (hK.complete _) (hK.frame b _ rfl rfl rfl)
            split
            · exact keptOpt_of_kept
                (hK.trans hc (hK.frameSent _ _ rfl rfl [_] rfl (by simp)))
            · exact keptOpt_of_kept
                (hK.next (onFinished_kept hK _) (hK.trans hc (hK.frame _ _ rfl rfl rfl)))

theorem startSyncingWith_kept {cfg : Config H P T}
    {R : Bootstrapper H P T → Bootstrapper H P T → Prop}
    (hK : Tracks cfg R) (sb : Bootstrapper H P T → Option (Res H P T))
    (hsb : KeptCall R sb) (b : Bootstrapper H P T) (accepted : List ID) :
    KeptOpt R b (startSyncingWith cfg sb b accepted) := by
  unfold startSyncingWith
  dsimp only
  split
  · rename_i b1 tp e he
    have h1 := fetchMissing_kept hK (rangeOrder cfg (setAddAll b.missingBlockIDs accepted))
      { b with
        fetchFrom := cfg.preferredPeers b.host
        missingBlockIDs := setAddAll b.missingBlockIDs accepted } []
    rw [he] at h1
    exact keptOpt_of_kept (hK.next h1 (hK.frame _ _ rfl rfl rfl))
  · rename_i b1 tp he
    have h1 := fetchMissing_kept hK (rangeOrder cfg (setAddAll b.missingBlockIDs accepted))
      { b with
        fetchFrom := cfg.preferredPeers b.host
        missingBlockIDs := setAddAll b.missingBlockIDs accepted } []
    rw [he] at h1
    have h2 : R b b1 := hK.next h1 (hK.frame _ _ rfl rfl rfl)
    split
    · rename_i b2 e he2
      have h3 := processAll_kept hK tp { b1 with initiallyFetched := treeLen cfg b1.tree }
      rw [he2] at h3
      exact keptOpt_of_kept (hK.next h3 (hK.next (hK.frame b1 _ rfl rfl rfl) h2))
    · rename_i b2 he2
      have h3 := processAll_kept hK tp { b1 with initiallyFetched := treeLen cfg b1.tree }
      rw [he2] at h3
      exact keptOpt_of_rel hK (tryStartExecutingWith_kept hK sb hsb b2)
        (hK.next h3 (hK.next (hK.frame b1 _ rfl rfl rfl) h2))

theorem sendBootstrappingMessagesOrFinishWith_kept {cfg : Config H P T}
    {R : Bootstrapper H P T → Bootstrapper H P T → Prop}
    (hK : Tracks cfg R) (sb : Bootstrapper H P T → Option (Res H P T))
    (hsb : KeptCall R sb) (b : Bootstrapper H P T) :
    KeptOpt R b (sendBootstrappingMessagesOrFinishWith cfg sb b) := by
  unfold sendBootstrappingMessagesOrFinishWith
  dsimp only
  split
  · exact keptOpt_of_kept (hK.frameSent b _ rfl rfl [_] rfl (by simp))
  · split
    · exact keptOpt_of_kept (hK.frame b _ rfl rfl rfl)
    · split
      · exact keptOpt_of_kept (hK.frameSent b _ rfl rfl [_] rfl (by simp))
      · split
        · exact keptOpt_of_kept (hK.frame b _ rfl rfl rfl)
        · split
          · exact keptOpt_of_rel hK (hsb _) (hK.frame b _ rfl rfl rfl)
          · exact keptOpt_of_rel hK (startSyncingWith_kept hK sb hsb _ _)
              (hK.frame b _ rfl rfl rfl)

theorem startBootstrapping_kept {cfg : Config H P T}
    {R : Bootstrapper H P T → Bootstrapper H P T → Prop}
    (hK : Tracks cfg R) (fuel : Nat) : KeptCall R (startBootstrapping cfg fuel) := by
  induction fuel with
  | zero => intro b r h; simp [startBootstrapping] at h
  | succ fuel ih =>
    intro b
    unfold startBootstrapping
    dsimp only
    split
    · exact keptOpt_of_kept (hK.refl _)
    · split
      · exact keptOpt_of_rel hK (startSyncingWith_kept hK _ ih _ _) (hK.frame b _ rfl rfl rfl)
      · exact keptOpt_of_rel hK (sendBootstrappingMessagesOrFinishWith_kept hK _ ih _)
          (hK.frame b _ rfl rfl rfl)

theorem tryStartBootstrapping_kept {cfg : Config H P T}
    {R : Bootstrapper H P T → Bootstrapper H P T → Prop}
    (hK : Tracks cfg R) (fuel : Nat) (b : Bootstrapper H P T) :
    KeptOpt R b (tryStartBootstrapping cfg fuel b) := by
  unfold tryStartBootstrapping
  split
  · exact keptOpt_of_kept (hK.refl _)
  · exact keptOpt_of_rel hK (startBootstrapping_kept hK fuel _) (hK.start b)

theorem pollHandler_kept {cfg : Config H P T}
    {R : Bootstrapper H P T → Bootstrapper H P T → Prop}
    (hK : Tracks cfg R) (fuel : Nat) (b : Bootstrapper H P T) :
    KeptOpt R b (sendBootstrappingMessagesOrFinish cfg fuel b) :=
  sendBootstrappingMessagesOrFinishWith_kept hK _ (startBootstrapping_kept hK fuel) b

theorem AcceptedFrontier_kept {cfg : Config H P T}
    {R : Bootstrapper H P T → Bootstrapper H P T → Prop}
    (hK : Tracks cfg R) (fuel : Nat) (b : Bootstrapper H P T)
    (nodeID : NodeID) (requestID : Nat) (containerID : ID) :
    KeptOpt R b (AcceptedFrontier cfg fuel b nodeID requestID containerID) := by
  unfold AcceptedFrontier
  dsimp only
  split
  · exact keptOpt_of_kept (hK.refl _)
  · split
    · exact keptOpt_of_kept (hK.frame b _ rfl rfl rfl)
    · exact keptOpt_of_rel hK (pollHandler_kept hK fuel _) (hK.frame b _ rfl rfl rfl)

theorem GetAcceptedFrontierFailed_kept {cfg : Config H P T}
    {R : Bootstrapper H P T → Bootstrapper H P T → Prop}
    (hK : Tracks cfg R) (fuel : Nat) (b : Bootstrapper H P T)
    (nodeID : NodeID) (requestID : Nat) :
    KeptOpt R b (GetAcceptedFrontierFailed cfg fuel b nodeID requestID) := by
  unfold GetAcceptedFrontierFailed
  dsimp only
  split
  · exact keptOpt_of_kept (hK.refl _)
  · split
    · exact keptOpt_of_kept (hK.frame b _ rfl rfl rfl)
    · exact keptOpt_of_rel hK (pollHandler_kept hK fuel _) (hK.frame b _ rfl rfl rfl)

theorem Accepted_kept {cfg : Config H P T}
    {R : Bootstrapper H P T → Bootstrapper H P T → Prop}
    (hK : Tracks cfg R) (fuel : Nat) (b : Bootstrapper H P T)
    (nodeID : NodeID) (requestID : Nat) (containerIDs : List ID) :
    KeptOpt R b (Accepted cfg fuel b nodeID requestID containerIDs) := by
  unfold Accepted
  dsimp only
  split
  · exact keptOpt_of_kept (hK.refl _)
  · split
    · exact keptOpt_of_kept (hK.frame b _ rfl rfl rfl)
    · exact keptOpt_of_rel hK (pollHandler_kept hK fuel _) (hK.frame b _ rfl rfl rfl)

theorem GetAcceptedFailed_kept {cfg : Config H P T}
    {R : Bootstrapper H P T → Bootstrapper H P T → Prop}
    (hK : Tracks cfg R) (fuel : Nat) (b : Bootstrapper H P T)
    (nodeID : NodeID) (requestID : Nat) :
    KeptOpt R b (GetAcceptedFailed cfg fuel b nodeID requestID) := by
  unfold GetAcceptedFailed
  dsimp only
  split
  · exact keptOpt_of_kept (hK.refl _)
  · split
    · exact keptOpt_of_kept (hK.frame b _ rfl rfl rfl)
    · exact keptOpt_of_rel hK (pollHandler_kept hK fuel _) (hK.frame b _ rfl rfl rfl)

theorem Connected_kept {cfg : Config H P T}
    {R : Bootstrapper H P T → Bootstrapper H P T → Prop}
    (hK : Tracks cfg R) (fuel : Nat) (b : Bootstrapper H P T)
    (nodeID : NodeID) (nodeVersion : Nat) :
    KeptOpt R b (Connected cfg fuel b nodeID nodeVersion) := by
  unfold Connected
  dsimp only
  split
  · exact keptOpt_of_kept (hK.frame b _ rfl rfl rfl)
  · split
    · exact keptOpt_of_kept (hK.frame b _ rfl rfl rfl)
    · refine keptOpt_of_rel hK (tryStartBootstrapping_kept hK fuel _) ?_
      split <;> exact hK.frame b _ rfl rfl rfl

theorem Disconnected_kept {cfg : Config H P T}
    {R : Bootstrapper H P T → Bootstrapper H P T → Prop}
    (hK : Tracks cfg R) (b : Bootstrapper H P T) (nodeID : NodeID) :
    R b (Disconnected cfg b nodeID).1 := by
  unfold Disconnected
  dsimp only
  split
  · exact hK.frame b _ rfl rfl rfl
  · split
    · exact hK.frame b _ rfl rfl rfl
    · exact hK.next (markUnavailable_kept hK _ nodeID) (hK.frame b _ rfl rfl rfl)

theorem GetAncestorsFailed_kept {cfg : Config H P T}
    {R : Bootstrapper H P T → Bootstrapper H P T → Prop}
    (hK : Tracks cfg R) (b : Bootstrapper H P T) (nodeID : NodeID) (requestID : Nat) :
    R b (GetAncestorsFailed cfg b nodeID requestID).1 := by
  unfold GetAncestorsFailed
  dsimp only
  split
  · exact hK.refl _
  · exact hK.next (fetch_kept hK _ _) (hK.frame b _ rfl rfl rfl)

theorem Ancestors_kept {cfg : Config H P T}
    {R : Bootstrapper H P T → Bootstrapper H P T → Prop}
    (hK : Tracks cfg R) (fuel : Nat) (b : Bootstrapper H P T)
    (nodeID : NodeID) (requestID : Nat) (blks : List Bytes) :
    KeptOpt R b (Ancestors cfg fuel b nodeID requestID blks) := by
  unfold Ancestors
  dsimp only
  split
  · exact keptOpt_of_kept (hK.refl _)
  · split
    · exact keptOpt_of_kept (hK.next (fetch_kept hK _ _)
        (hK.next (markUnavailable_kept hK _ nodeID) (hK.frame b _ rfl rfl rfl)))
    · split
      · intro r hr
        cases hr
      · split
        · exact keptOpt_of_kept (hK.next (fetch_kept hK _ _) (hK.frame b _ rfl rfl rfl))
        · exact keptOpt_of_kept (hK.next (fetch_kept hK _ _) (hK.frame b _ rfl rfl rfl))
        · split
          · exact keptOpt_of_kept (hK.next (fetch_kept hK _ _) (hK.frame b _ rfl rfl rfl))
          · split
            · rename_i b1 e he
              exact keptOpt_of_kept
                (hK.next (process_kept_eq hK he) (hK.frame b _ rfl rfl rfl))
            · rename_i b1 he
              exact keptOpt_of_rel hK
                (tryStartExecutingWith_kept hK _ (startBootstrapping_kept hK fuel) b1)
                (hK.next (process_kept_eq hK he) (hK.frame b _ rfl rfl rfl))

theorem Timeout_kept {cfg : Config H P T}
    {R : Bootstrapper H P T → Bootstrapper H P T → Prop}
    (hK : Tracks cfg R) (fuel : Nat) (b : Bootstrapper H P T) :
    KeptOpt R b (Timeout cfg fuel b) := by
  intro r h
  unfold Timeout at h
  dsimp only at h
  split at h
  · cases h; exact hK.refl _
  · split at h
    · exact hK.trans (hK.frame b { b with awaitingTimeout := false } rfl rfl rfl)
        (restartBootstrappingWith_kept hK _ (startBootstrapping_kept hK fuel) _ r h)
    · cases h
      exact hK.next (onFinished_kept hK _) (hK.frame b _ rfl rfl rfl)

theorem Start_kept {cfg : Config H P T}
    {R : Bootstrapper H P T → Bootstrapper H P T → Prop}
    (hK : Tracks cfg R) (fuel : Nat) (b : Bootstrapper H P T) (startReqID : Nat) :
    KeptOpt R b (Start cfg fuel b startReqID) := by
  intro r h
  unfold Start at h
  dsimp only at h
  split at h
  · cases h; exact hK.frame _ _ rfl rfl rfl
  · split at h
    · cases h; exact hK.frame _ _ rfl rfl rfl
    · split at h
      · cases h; exact hK.frame _ _ rfl rfl rfl
      · split at h
        · cases h; exact hK.frame _ _ rfl rfl rfl
        · exact hK.next (tryStartBootstrapping_kept hK fuel _ r h) (hK.frame _ _ rfl rfl rfl)

theorem dispatch_kept {cfg : Config H P T}
    {R : Bootstrapper H P T → Bootstrapper H P T → Prop}
    (hK : Tracks cfg R) (fuel : Nat) (b : Bootstrapper H P T) (c : Call) :
    KeptOpt R b (dispatch cfg fuel b c) := by
  intro r h
  cases c with
  | start startReqID => exact Start_kept hK fuel b startReqID r h
  | connected nodeID nodeVersion => exact Connected_kept hK fuel b nodeID nodeVersion r h
  | disconnected nodeID =>
    simp only [dispatch, Option.some.injEq] at h
    exact h ▸ Disconnected_kept hK b nodeID
  | acceptedFrontier nodeID requestID containerID =>
    exact AcceptedFrontier_kept hK fuel b nodeID requestID containerID r h
  | getAcceptedFrontierFailed nodeID requestID =>
    exact GetAcceptedFrontierFailed_kept hK fuel b nodeID requestID r h
  | accepted nodeID requestID containerIDs =>
    exact Accepted_kept hK fuel b nodeID requestID containerIDs r h
  | getAcceptedFailed nodeID requestID =>
    exact GetAcceptedFailed_kept hK fuel b nodeID requestID r h
  | ancestors nodeID requestID blks => exact Ancestors_kept hK fuel b nodeID requestID blks r h
  | getAncestorsFailed nodeID requestID =>
    simp only [dispatch, Option.some.injEq] at h
    exact h ▸ GetAncestorsFailed_kept hK b nodeID requestID
  | timeout => exact Timeout_kept hK fuel b r h

theorem Steps_kept {cfg : Config H P T} {R : Bootstrapper H P T → Bootstrapper H P T → Prop}
    (hK : Tracks cfg R) {allowed : Call → Prop} {b b' : Bootstrapper H P T}
    (h : Steps cfg allowed b b') : R b b' := by
  induction h with
  | refl => exact hK.refl _
  | call fuel c _ _ hd ih => exact hK.trans ih (dispatch_kept hK fuel _ c _ hd)
  | host host _ ih => exact hK.trans ih (hK.frame _ _ rfl rfl rfl)

theorem notifyBootstrapped_started (cfg : Config H P T) (b : Bootstrapper H P T) :
    (notifyBootstrapped cfg b).started = b.started := by
  unfold notifyBootstrapped
  split
  · split <;> rfl
  · rfl

theorem tracks_started (cfg : Config H P T) :
    Tracks cfg (fun (b b' : Bootstrapper H P T) => b.started = true → b'.started = true) where
  refl := fun _ h => h
  trans := fun h1 h2 h => h2 (h1 h)
  frame := fun _ _ hs _ _ h => hs.trans h
  effect := fun _ _ _ _ h => h
  start := fun _ _ => rfl
  complete := fun b h => (notifyBootstrapped_started cfg b).trans h

theorem completionLog_append (es1 es2 : List Effect) :
    completionLog (es1 ++ es2) = completionLog es1 ++ completionLog es2 := by
  simp [completionLog]

theorem completionLog_other (e : Effect) (h1 : e ≠ Effect.bootstrappedCallback)
    (h2 : ∀ c, e ≠ Effect.trackerBootstrapped c) : completionLog [e] = [] := by
  cases e <;> simp [completionLog] at h1 h2 ⊢

theorem tracks_callbackOnce (cfg : Config H P T) :
    Tracks cfg (fun (b b' : Bootstrapper H P T) => CallbackOnce cfg b → CallbackOnce cfg b') where
  refl := fun _ h => h
  trans := fun h1 h2 h => h2 (h1 h)
  frame := by
    intro b b' _ ho he h
    unfold CallbackOnce at h ⊢
    rw [ho, he]
    exact h
  effect := by
    intro b e h1 h2 h
    unfold CallbackOnce at h ⊢
    dsimp only
    rw [completionLog_append, completionLog_other e h1 h2, List.append_nil]
    refine ⟨fun hn hmem => ?_, h.2⟩
    rw [List.mem_append] at hmem
    rcases hmem with hmem | hmem
    · exact h.1 hn hmem
    · simp only [List.mem_singleton] at hmem
      exact h1 hmem.symm
  start := fun _ h => h
  complete := by
    intro b h
    unfold CallbackOnce at h ⊢
    unfold notifyBootstrapped
    cases hcb : cfg.bootstrapped with
    | none =>
      dsimp only
      refine ⟨fun _ hmem => ?_, fun hs => by simp at hs⟩
      rw [List.mem_append] at hmem
      rcases hmem with hmem | hmem
      · exact h.1 hcb hmem
      · simp at hmem
    | some callback =>
      dsimp only
      refine ⟨fun hn => by simp at hn, fun _ => ?_⟩
      rcases h.2 (by simp [hcb]) with ⟨ho, hl⟩ | ⟨ho, n, hl⟩
      · right
        rw [if_neg (by simp [ho])]
        refine ⟨rfl, 0, ?_⟩
        dsimp only
        rw [completionLog_append, completionLog_append, hl]
        rfl
      · right
        rw [if_pos ho]
        refine ⟨ho, n + 1, ?_⟩
        dsimp only
        rw [completionLog_append, hl]
        show _ :: (List.replicate (n + 1) _ ++ [_]) = _
        rw [← List.replicate_succ']

theorem callbackOnce_new (cfg : Config H P T) (host : H) : CallbackOnce cfg (New cfg host) :=
  ⟨fun _ h => by simp [New] at h, fun _ => Or.inl ⟨rfl, rfl⟩⟩

theorem reachable_callbackOnce (cfg : Config H P T) (b : Bootstrapper H P T)
    (h : Reachable cfg b) : CallbackOnce cfg b := by
  obtain ⟨host, hs⟩ := h
  exact Steps_kept (tracks_callbackOnce cfg) hs (callbackOnce_new cfg host)

theorem count_completionLog (effects : List Effect) :
    (completionLog effects).count Effect.bootstrappedCallback =
      effects.count Effect.bootstrappedCallback := by
  unfold completionLog
  rw [List.count_filter]
  rfl

theorem stateK1_start :
    dispatch testConfigCallback 1 (New testConfigCallback hostK) (Call.start 0) =
      some (stateK1, none) := by
  decide!

theorem stateK2_timeout :
    dispatch testConfigCallback 1 stateK1 Call.timeout = some (stateK2, none) := by
  decide!

theorem stateK2_reachable : Reachable testConfigCallback stateK2 :=
  ⟨hostK, Steps.call 1 Call.timeout
    (Steps.call 1 (Call.start 0) (Steps.refl _) trivial stateK1_start) trivial stateK2_timeout⟩

/-- C24.  In every state reached from a fresh engine by any calls of the entry
points (rounds, restarts and timeouts included) the `Bootstrapped` callback has
been called at most once.  With a nil callback it is never called.  With a
callback, either no round has completed yet, or the callback was called once
and right before the first notice to the subnet tracker, which
`tryStartExecuting` sends exactly when a round completes without a halving
restart; the later completions only notify the tracker. -/
theorem C24_bootstrapped_callback_once (cfg : Config H P T) (b : Bootstrapper H P T)
    (h : Reachable cfg b) :
    b.effects.count Effect.bootstrappedCallback ≤ 1 ∧
    (cfg.bootstrapped = none → Effect.bootstrappedCallback ∉ b.effects) ∧
    (cfg.bootstrapped.isSome = true →
      completionLog b.effects = [] ∨
      ∃ n, completionLog b.effects =
        Effect.bootstrappedCallback ::
          List.replicate (n + 1) (Effect.trackerBootstrapped cfg.chainID)) := by
  have hinv := reachable_callbackOnce cfg b h
  refine ⟨?_, hinv.1, fun hs => ?_⟩
  · cases hcb : cfg.bootstrapped with
    | none =>
      rw [List.count_eq_zero_of_not_mem (hinv.1 hcb)]
      exact Nat.zero_le _
    | some callback =>
      rw [← count_completionLog]
      rcases hinv.2 (by simp [hcb]) with ⟨_, hl⟩ | ⟨_, n, hl⟩
      · rw [hl]
        exact Nat.zero_le _
      · rw [hl, List.count_cons_self, List.count_replicate]
        simp
  · rcases hinv.2 hs with ⟨_, hl⟩ | ⟨_, n, hl⟩
    · exact Or.inl hl
    · exact Or.inr ⟨n, hl⟩

/-- C24, witness.  After `Start(0)` and a timeout two rounds have completed:
the callback was called once, before the first of the two notices. -/
theorem C24_witness :
    Reachable testConfigCallback stateK2 ∧
    stateK2.effects.count Effect.bootstrappedCallback ≤ 1 ∧
    completionLog stateK2.effects =
      [Effect.bootstrappedCallback, Effect.trackerBootstrapped 0, Effect.trackerBootstrapped 0] :=
  ⟨stateK2_reachable,
    (C24_bootstrapped_callback_once testConfigCallback stateK2 stateK2_reachable).1, rfl⟩


theorem tryStartExecutingWith_restart (cfg : Config H P T)
    (sb : Bootstrapper H P T → Option (Res H P T)) (b : Bootstrapper H P T)
    (lastAcceptedHeight : Nat)
    (hm : b.missingBlockIDs = [])
    (hs : (cfg.ctxStateGet b.host).state ≠ State.normalOp)
    (ha : b.awaitingTimeout = false)
    (hl : getLastAcceptedHeight cfg b.host = .ok lastAcceptedHeight)
    (he : (cfg.storageExecute b.host b.tree lastAcceptedHeight).err = none)
    (hh : cfg.halted (cfg.storageExecute b.host b.tree lastAcceptedHeight).host = false)
    (hr : halvingRestart (treeLen cfg b.tree) b.executedStateTransitions = true) :
    tryStartExecutingWith cfg sb b = restartBootstrappingWith sb
      { b with
        host := (cfg.storageExecute b.host b.tree lastAcceptedHeight).host
        tree := (cfg.storageExecute b.host b.tree lastAcceptedHeight).tree
        executedStateTransitions := treeLen cfg b.tree } := by
  unfold tryStartExecutingWith
  rw [if_neg (by simp [hm]), if_neg (by simp [hs, ha]), hl]
  dsimp only
  rw [if_neg (by simp [he, hh]), if_pos hr]

/-- C26, counterexample.  On the first round `executedStateTransitions` still
holds the `math.MaxInt` that `New` stored; a first round that executed one
block is restarted, while the decision of the specification with `prev = None`
is not to restart. -/
theorem C26_counterexample :
    stateD.executedStateTransitions = (New testConfig hostA).executedStateTransitions ∧
    treeLen testConfig stateD.tree = 1 ∧
    optionSentinelRestart none 1 = false ∧
    halvingRestart 1 stateD.executedStateTransitions = true ∧
    (tryStartExecuting testConfig 1 stateD).map (fun r => (r.1.restarted, r.2)) =
      some (true, none) := by
  refine ⟨rfl, rfl, rfl, by decide, ?_⟩
  decide!

/-- C26, as amended.  The restart decision of `tryStartExecuting` is
`executed > 0 && executed < prev / 2`, where `prev` is `math.MaxInt` on the
first round and the count of the round before thereafter.  With an optional
count it is `executed > 0 && prev.map_or(executed < MaxInt / 2, |p| executed <
p / 2)`: it agrees with the decision of the specification when there is a
round before and this round executed something, and on the first round it
restarts whenever between 1 and `MaxInt / 2 - 1` blocks were executed. -/
theorem C26_restart_decision (cfg : Config H P T) (fuel : Nat) (b : Bootstrapper H P T)
    (prev : Option Nat) (lastAcceptedHeight : Nat)
    (hprev : b.executedStateTransitions = previousCount prev)
    (hm : b.missingBlockIDs = [])
    (hs : (cfg.ctxStateGet b.host).state ≠ State.normalOp)
    (ha : b.awaitingTimeout = false)
    (hl : getLastAcceptedHeight cfg b.host = .ok lastAcceptedHeight)
    (he : (cfg.storageExecute b.host b.tree lastAcceptedHeight).err = none)
    (hh : cfg.halted (cfg.storageExecute b.host b.tree lastAcceptedHeight).host = false) :
    (New cfg b.host).executedStateTransitions = previousCount none ∧
    halvingRestart (treeLen cfg b.tree) b.executedStateTransitions =
      optionRestart prev (treeLen cfg b.tree) ∧
    (∀ p, 0 < treeLen cfg b.tree →
      optionRestart (some p) (treeLen cfg b.tree) =
        optionSentinelRestart (some p) (treeLen cfg b.tree)) ∧
    optionRestart none (treeLen cfg b.tree) =
      (decide (0 < treeLen cfg b.tree) && decide (treeLen cfg b.tree < 2 ^ 62 - 1)) ∧
    (halvingRestart (treeLen cfg b.tree) b.executedStateTransitions = true →
      tryStartExecuting cfg fuel b = restartBootstrapping cfg fuel
        { b with
          host := (cfg.storageExecute b.host b.tree lastAcceptedHeight).host
          tree := (cfg.storageExecute b.host b.tree lastAcceptedHeight).tree
          executedStateTransitions := treeLen cfg b.tree }) ∧
    (halvingRestart (treeLen cfg b.tree) b.executedStateTransitions = false →
      ∃ b' e, tryStartExecuting cfg fuel b = some (b', e) ∧ b'.restarted = b.restarted) := by
  refine ⟨rfl, ?_, fun p hp => ?_, rfl, fun hr => ?_, fun hr => ?_⟩
  · rw [hprev]
    cases prev <;> rfl
  · simp [optionRestart, hp]
  · exact tryStartExecutingWith_restart cfg _ b lastAcceptedHeight hm hs ha hl he hh hr
  · unfold tryStartExecuting
    rw [tryStartExecutingWith_complete cfg _ b lastAcceptedHeight hm hs ha hl he hh hr _ rfl]
    split
    · exact ⟨_, _, rfl, (notifyBootstrapped_fields cfg _).2.1⟩
    · exact ⟨_, _, rfl, (notifyBootstrapped_fields cfg _).2.1⟩

/-- C26, witness.  The first round of `stateD` executed one block: the
decision is to restart, and the call continues as `restartBootstrapping`. -/
theorem C26_witness :
    halvingRestart (treeLen testConfig stateD.tree) stateD.executedStateTransitions =
      optionRestart none (treeLen testConfig stateD.tree) ∧
    tryStartExecuting testConfig 1 stateD = restartBootstrapping testConfig 1
      { stateD with
        host := (testConfig.storageExecute stateD.host stateD.tree 0).host
        tree := (testConfig.storageExecute stateD.host stateD.tree 0).tree
        executedStateTransitions := treeLen testConfig stateD.tree } :=
  ⟨(C26_restart_decision testConfig 1 stateD none 0 rfl rfl (by decide) rfl rfl rfl rfl).2.1,
    (C26_restart_decision testConfig 1 stateD none 0 rfl rfl (by decide) rfl rfl rfl rfl).2.2.2.2.1
      (by decide)⟩

theorem BiMap.getValue_put_of_ne (m : BiMap) (k k' : Request) (v : ID)
    (hv : m.hasValue v = false) (hk : k' ≠ k) :
    (m.put k v).getValue k' = m.getValue k' := by
  have hfilter : m.entries.filter (fun e => e.1 != k && e.2 != v) =
      m.entries.filter (fun e => e.1 != k) := by
    apply List.filter_congr
    intro e he
    have : (e.2 != v) = true := by
      simp only [BiMap.hasValue, List.any_eq_false] at hv
      simpa using hv e he
    rw [this, Bool.and_true]
  have hfind : ∀ l : List (Request × ID),
      List.find? (fun e => e.1 == k') (l.filter (fun e => e.1 != k) ++ [(k, v)]) =
        List.find? (fun e => e.1 == k') l := by
    intro l
    have hkk : (k == k') = false := by simpa using Ne.symm hk
    induction l with
    | nil => simp [List.find?, hkk]
    | cons e l ih =>
      rw [List.filter_cons]
      by_cases hek : e.1 = k
      · have h1 : (e.1 != k) = false := by simp [hek]
        have h2 : (e.1 == k') = false := by
          simpa using (fun h => hk (h.symm.trans hek) : ¬ e.1 = k')
        rw [if_neg (by simp [h1]), ih, List.find?_cons, h2]
      · have h1 : (e.1 != k) = true := by simpa using hek
        rw [if_pos h1, List.cons_append, List.find?_cons, List.find?_cons, ih]
  simp only [BiMap.put, BiMap.getValue, hfilter, hfind]

theorem BiMap.getValue_put_self (m : BiMap) (k : Request) (v : ID) :
    (m.put k v).getValue k = some v := by
  simp only [BiMap.put, BiMap.getValue, List.find?_append]
  have hnone : List.find? (fun e => e.1 == k)
      (m.entries.filter (fun e => e.1 != k && e.2 != v)) = none := by
    rw [List.find?_eq_none]
    intro e he
    simp only [List.mem_filter, Bool.and_eq_true, bne_iff_ne, ne_eq] at he
    simpa using he.2.1
  rw [hnone]
  simp

/-- C27, counterexample.  In the state reached by `Start(0)` on a node whose
only peer is 7, `fetch` of block 3 selects peer 7, the only member of the
pool, and afterwards peer 7 is in the pool again: the drained pool was reset
to the preferred peers. -/
theorem C27_counterexample :
    Reachable testConfig stateA ∧ stateA.outstandingRequests.hasValue 3 = false ∧
    peek testConfig stateA.fetchFrom = some 7 ∧
    (fetch testConfig stateA 3).1.effects =
      stateA.effects ++ [Effect.sendGetAncestors 7 3 3] ∧
    7 ∈ (fetch testConfig stateA 3).1.fetchFrom := by
  refine ⟨stateA_reachable, rfl, rfl, ?_, ?_⟩ <;> decide!

/-- C27, as amended.  For a block with no outstanding request and a non-empty
`fetchFrom`, `fetch` returns nil after it has selected a member of `fetchFrom`,
removed it from the pool and reset a pool left empty to the preferred peers
(which may hold the selected peer again), incremented `requestID` by one
modulo 2^32, recorded (selected peer, new requestID) -> blkID in the registry,
and called `SendGetAncestors` once with that peer, that request ID and the
block; the registry is unchanged at every other key. -/
theorem C27_fetch_issues_request (cfg : Config H P T) (b : Bootstrapper H P T) (blkID : ID)
    (hv : b.outstandingRequests.hasValue blkID = false) (hne : b.fetchFrom ≠ []) :
    ∃ v, v ∈ b.fetchFrom ∧ peek cfg b.fetchFrom = some v ∧
      (fetch cfg b blkID).2 = none ∧
      (fetch cfg b blkID).1.fetchFrom =
        (if setRemove b.fetchFrom v = [] then cfg.preferredPeers b.host
          else setRemove b.fetchFrom v) ∧
      (fetch cfg b blkID).1.requestID = (b.requestID + 1) % 2 ^ 32 ∧
      (fetch cfg b blkID).1.outstandingRequests.getValue ⟨v, (b.requestID + 1) % 2 ^ 32⟩ =
        some blkID ∧
      (fetch cfg b blkID).1.effects =
        b.effects ++ [Effect.sendGetAncestors v ((b.requestID + 1) % 2 ^ 32) blkID] ∧
      ∀ k, k ≠ ⟨v, (b.requestID + 1) % 2 ^ 32⟩ →
        (fetch cfg b blkID).1.outstandingRequests.getValue k =
          b.outstandingRequests.getValue k := by
  obtain ⟨v, hp, hmem⟩ := peek_of_ne_nil cfg b.fetchFrom hne
  refine ⟨v, hmem, hp, ?_⟩
  rw [fetch_issues cfg b blkID v hv hp]
  refine ⟨rfl, ?_, rfl, BiMap.getValue_put_self _ _ _, rfl, fun k hk => ?_⟩
  · rw [markUnavailable_eq]
  · exact BiMap.getValue_put_of_ne _ _ _ _ hv hk

/-- C27, witness.  With peers 8 and 9 in the pool, `fetch` of block 2 selects
a member of the pool and issues request 2 for it. -/
theorem C27_witness :
    ∃ v, v ∈ stateJ.fetchFrom ∧ peek testConfig stateJ.fetchFrom = some v ∧
      (fetch testConfig stateJ 2).2 = none ∧
      (fetch testConfig stateJ 2).1.fetchFrom =
        (if setRemove stateJ.fetchFrom v = [] then testConfig.preferredPeers stateJ.host
          else setRemove stateJ.fetchFrom v) ∧
      (fetch testConfig stateJ 2).1.requestID = (stateJ.requestID + 1) % 2 ^ 32 ∧
      (fetch testConfig stateJ 2).1.outstandingRequests.getValue
        ⟨v, (stateJ.requestID + 1) % 2 ^ 32⟩ = some 2 ∧
      (fetch testConfig stateJ 2).1.effects =
        stateJ.effects ++ [Effect.sendGetAncestors v ((stateJ.requestID + 1) % 2 ^ 32) 2] ∧
      ∀ k, k ≠ ⟨v, (stateJ.requestID + 1) % 2 ^ 32⟩ →
        (fetch testConfig stateJ 2).1.outstandingRequests.getValue k =
          stateJ.outstandingRequests.getValue k :=
  C27_fetch_issues_request testConfig stateJ 2 rfl (by decide)

theorem BiMap.put_filter_value (m : BiMap) (k : Request) (v : ID) :
    (m.put k v).entries.filter (fun e => e.2 == v) = [(k, v)] := by
  have hnil : (m.entries.filter (fun e => e.1 != k && e.2 != v)).filter (fun e => e.2 == v) =
      [] := by
    rw [List.filter_eq_nil_iff]
    intro e he
    simp only [List.mem_filter, Bool.and_eq_true, bne_iff_ne, ne_eq] at he
    simpa using he.2.2
  simp only [BiMap.put, List.filter_append, hnil, List.nil_append]
  simp [List.filter]

/-- C28.  When (nodeID, requestID) is an outstanding request that expects
block B (in a registry in which no two requests expect the same block, as in
every reachable state), `GetAncestorsFailed(nodeID, requestID)` returns nil:
`nodeID` is back in `fetchFrom` before the re-fetch, so `Peek` finds a peer.
Afterwards `requestID` is incremented (modulo 2^32) and exactly one
outstanding request expects B; its key holds the incremented request ID and a
peer of the pool as it was with `nodeID` added. -/
theorem C28_failed_request_refetched (cfg : Config H P T) (b : Bootstrapper H P T)
    (nodeID : NodeID) (requestID : Nat) (blkID : ID)
    (hu : ValuesUnique b.outstandingRequests)
    (hk : b.outstandingRequests.getValue ⟨nodeID, requestID⟩ = some blkID) :
    (GetAncestorsFailed cfg b nodeID requestID).2 = none ∧
    (GetAncestorsFailed cfg b nodeID requestID).1.requestID = (b.requestID + 1) % 2 ^ 32 ∧
    ∃ v, v ∈ setAdd b.fetchFrom nodeID ∧
      (GetAncestorsFailed cfg b nodeID requestID).1.outstandingRequests.entries.filter
        (fun e => e.2 == blkID) = [(⟨v, (b.requestID + 1) % 2 ^ 32⟩, blkID)] := by
  have hd : (b.outstandingRequests.deleteKey ⟨nodeID, requestID⟩).1 = some blkID := hk
  have hne : setAdd b.fetchFrom nodeID ≠ [] :=
    List.ne_nil_of_mem (setAdd_mem b.fetchFrom nodeID)
  obtain ⟨v, hp, hmem⟩ := peek_of_ne_nil cfg (setAdd b.fetchFrom nodeID) hne
  have hf := fetch_issues cfg
    { b with
      outstandingRequests := (b.outstandingRequests.deleteKey ⟨nodeID, requestID⟩).2
      fetchFrom := setAdd b.fetchFrom nodeID } blkID v
    (BiMap.hasValue_deleteKey _ _ _ hu hd) hp
  have hg : GetAncestorsFailed cfg b nodeID requestID = fetch cfg
      { b with
        outstandingRequests := (b.outstandingRequests.deleteKey ⟨nodeID, requestID⟩).2
        fetchFrom := setAdd b.fetchFrom nodeID } blkID := by
    unfold GetAncestorsFailed
    dsimp only
    rw [hd]
  rw [hg, hf]
  exact ⟨rfl, rfl, v, hmem, BiMap.put_filter_value _ _ _⟩

/-- C28, witness.  Request (7, 1) of `stateA` expects block 1; after
`GetAncestorsFailed(7, 1)` one request expects block 1, under request ID 3. -/
theorem C28_witness :
    (GetAncestorsFailed testConfig stateA 7 1).2 = none ∧
    (GetAncestorsFailed testConfig stateA 7 1).1.requestID = (stateA.requestID + 1) % 2 ^ 32 ∧
    ∃ v, v ∈ setAdd stateA.fetchFrom 7 ∧
      (GetAncestorsFailed testConfig stateA 7 1).1.outstandingRequests.entries.filter
        (fun e => e.2 == 1) = [(⟨v, (stateA.requestID + 1) % 2 ^ 32⟩, 1)] :=
  C28_failed_request_refetched testConfig stateA 7 1 1 (by unfold ValuesUnique; decide) rfl


theorem stateN2_connected :
    dispatch testConfigNoStake 1 stateN1 (Call.connected 8 0) = some (stateN2, none) := by
  decide!

/-- C29.  `tryStartBootstrapping` on an engine that has not started, while
`ShouldStart()` holds, sets `started` and enters `startBootstrapping`.
Whatever that call returns, also the sampling error, `started` is set
afterwards and stays set through every later sequence of calls of the entry
points, and `tryStartBootstrapping` on any state with that flag (the state
`Start` or `Connected` has prepared for it) returns nil and changes nothing:
`startBootstrapping` is entered through it at most once. -/
theorem C29_bootstrapping_started_once (cfg : Config H P T) (fuel : Nat)
    (b b1 b2 : Bootstrapper H P T) (e : Option Err) (allowed : Call → Prop)
    (hs : b.started = false) (hshould : cfg.shouldStart b.host = true)
    (h1 : tryStartBootstrapping cfg fuel b = some (b1, e))
    (hrun : Steps cfg allowed b1 b2) :
    tryStartBootstrapping cfg fuel b = startBootstrapping cfg fuel { b with started := true } ∧
    (∀ code,
      cfg.sample b.host (cfg.beaconsGetMap b.host cfg.subnetID) cfg.sampleK = .error code →
      b1 = { b with started := true } ∧ e = some (Err.host code)) ∧
    b1.started = true ∧ b2.started = true ∧
    ∀ fuel' (b3 : Bootstrapper H P T), b3.started = b2.started →
      tryStartBootstrapping cfg fuel' b3 = some (b3, none) := by
  have hdef : tryStartBootstrapping cfg fuel b =
      startBootstrapping cfg fuel { b with started := true } := by
    unfold tryStartBootstrapping
    rw [if_neg (by simp [hs, hshould])]
  have hb1 : b1.started = true := by
    rw [hdef] at h1
    exact startBootstrapping_kept (tracks_started cfg) fuel _ _ h1 rfl
  have hb2 : b2.started = true := Steps_kept (tracks_started cfg) hrun hb1
  refine ⟨hdef, fun code hcode => ?_, hb1, hb2, fun fuel' b3 hb3 => ?_⟩
  · rw [hdef] at h1
    cases fuel with
    | zero => simp [startBootstrapping] at h1
    | succ fuel =>
      unfold startBootstrapping at h1
      dsimp only at h1
      rw [hcode] at h1
      simp only [Option.some.injEq, Prod.mk.injEq] at h1
      exact ⟨h1.1.symm, h1.2.symm⟩
  · unfold tryStartBootstrapping
    rw [if_pos (by simp [hb3, hb2])]

/-- C29, witness.  The sampler fails on the first attempt; `started` is set
all the same, and after peer 8 connected `tryStartBootstrapping` does
nothing. -/
theorem C29_witness :
    tryStartBootstrapping testConfigNoStake 1 (New testConfigNoStake hostA) =
      some (stateN1, some (Err.host 3)) ∧
    stateN1.started = true ∧ stateN2.started = true ∧
    ∀ fuel', tryStartBootstrapping testConfigNoStake fuel' stateN2 = some (stateN2, none) :=
  ⟨rfl,
    (C29_bootstrapping_started_once testConfigNoStake 1 (New testConfigNoStake hostA) stateN1
      stateN2 (some (Err.host 3)) (fun _ => True) rfl rfl rfl
      (Steps.call 1 (Call.connected 8 0) (Steps.refl _) trivial stateN2_connected)).2.2.1,
    (C29_bootstrapping_started_once testConfigNoStake 1 (New testConfigNoStake hostA) stateN1
      stateN2 (some (Err.host 3)) (fun _ => True) rfl rfl rfl
      (Steps.call 1 (Call.connected 8 0) (Steps.refl _) trivial stateN2_connected)).2.2.2.1,
    fun fuel' =>
      (C29_bootstrapping_started_once testConfigNoStake 1 (New testConfigNoStake hostA) stateN1
        stateN2 (some (Err.host 3)) (fun _ => True) rfl rfl rfl
        (Steps.call 1 (Call.connected 8 0) (Steps.refl _) trivial stateN2_connected)).2.2.2.2
        fuel' stateN2 rfl⟩

theorem sendBootstrappingMessagesOrFinishWith_pending (cfg : Config H P T)
    (sb : Bootstrapper H P T → Option (Res H P T)) (b : Bootstrapper H P T)
    (h : (cfg.pollResult (cfg.pollGetPeers b.majority).2).2 = false) :
    sendBootstrappingMessagesOrFinishWith cfg sb b =
      sendBootstrappingMessagesOrFinishWith cfg (fun _ => none) b ∧
    (sendBootstrappingMessagesOrFinishWith cfg sb b).isSome = true := by
  unfold sendBootstrappingMessagesOrFinishWith
  dsimp only
  split
  · exact ⟨rfl, rfl⟩
  · split
    · exact ⟨rfl, rfl⟩
    · split
      · exact ⟨rfl, rfl⟩
      · simp [h]

/-- C30.  When `startBootstrapping` has sampled the frontier nodes and created
both polls and the fresh majority poll is not finalized, it increments
`requestID` and calls `sendBootstrappingMessagesOrFinish`.  If the fresh
minority poll has peers to query, that call returns nil right after sending
`GetAcceptedFrontier` to those peers, and `startBootstrapping` returns with
any fuel, also with none left for a nested call.  If the majority poll is
still not finalized after handing out its peers, the call returns in every
case and its result is the same whatever `startBootstrapping` would do: that
method is not entered again. -/
theorem C30_fresh_polls_send_frontier (cfg : Config H P T) (b : Bootstrapper H P T)
    (frontierNodes : List NodeID)
    (hsample : cfg.sample b.host (cfg.beaconsGetMap b.host cfg.subnetID) cfg.sampleK =
      .ok frontierNodes)
    (hmaj : (cfg.pollResult (cfg.newMajority (cfg.beaconsGetMap b.host cfg.subnetID)
      maxOutstandingBroadcastRequests)).2 = false) :
    (∀ fuel, startBootstrapping cfg (fuel + 1) b =
      sendBootstrappingMessagesOrFinish cfg fuel
        { b with
          minority := cfg.newMinority frontierNodes maxOutstandingBroadcastRequests
          majority := cfg.newMajority (cfg.beaconsGetMap b.host cfg.subnetID)
            maxOutstandingBroadcastRequests
          requestID := (b.requestID + 1) % 2 ^ 32 }) ∧
    ((cfg.pollGetPeers (cfg.newMinority frontierNodes maxOutstandingBroadcastRequests)).1 ≠ [] →
      ∀ fuel, startBootstrapping cfg (fuel + 1) b = some
        ({ b with
            minority :=
              (cfg.pollGetPeers
                (cfg.newMinority frontierNodes maxOutstandingBroadcastRequests)).2
            majority := cfg.newMajority (cfg.beaconsGetMap b.host cfg.subnetID)
              maxOutstandingBroadcastRequests
            requestID := (b.requestID + 1) % 2 ^ 32
            effects := b.effects ++
              [Effect.sendGetAcceptedFrontier
                (cfg.pollGetPeers
                  (cfg.newMinority frontierNodes maxOutstandingBroadcastRequests)).1
                ((b.requestID + 1) % 2 ^ 32)] },
          none)) ∧
    ((cfg.pollResult (cfg.pollGetPeers (cfg.newMajority (cfg.beaconsGetMap b.host cfg.subnetID)
        maxOutstandingBroadcastRequests)).2).2 = false →
      ∀ sb : Bootstrapper H P T → Option (Res H P T),
        sendBootstrappingMessagesOrFinishWith cfg sb
          { b with
            minority := cfg.newMinority frontierNodes maxOutstandingBroadcastRequests
            majority := cfg.newMajority (cfg.beaconsGetMap b.host cfg.subnetID)
              maxOutstandingBroadcastRequests
            requestID := (b.requestID + 1) % 2 ^ 32 } =
          sendBootstrappingMessagesOrFinishWith cfg (fun _ => none)
            { b with
              minority := cfg.newMinority frontierNodes maxOutstandingBroadcastRequests
              majority := cfg.newMajority (cfg.beaconsGetMap b.host cfg.subnetID)
                maxOutstandingBroadcastRequests
              requestID := (b.requestID + 1) % 2 ^ 32 } ∧
        (sendBootstrappingMessagesOrFinishWith cfg sb
          { b with
            minority := cfg.newMinority frontierNodes maxOutstandingBroadcastRequests
            majority := cfg.newMajority (cfg.beaconsGetMap b.host cfg.subnetID)
              maxOutstandingBroadcastRequests
            requestID := (b.requestID + 1) % 2 ^ 32 }).isSome = true) := by
  have hstep : ∀ fuel, startBootstrapping cfg (fuel + 1) b =
      sendBootstrappingMessagesOrFinish cfg fuel
        { b with
          minority := cfg.newMinority frontierNodes maxOutstandingBroadcastRequests
          majority := cfg.newMajority (cfg.beaconsGetMap b.host cfg.subnetID)
            maxOutstandingBroadcastRequests
          requestID := (b.requestID + 1) % 2 ^ 32 } := by
    intro fuel
    unfold startBootstrapping sendBootstrappingMessagesOrFinish
    dsimp only
    rw [hsample]
    dsimp only
    rw [if_neg (by simp [hmaj])]
  refine ⟨hstep, fun hmin fuel => ?_, fun hpending sb => ?_⟩
  · rw [hstep]
    exact sendBootstrappingMessagesOrFinishWith_frontier cfg _ _ hmin
  · exact sendBootstrappingMessagesOrFinishWith_pending cfg sb _ hpending

/-- C30, witness.  On the node that knows validator 7, `startBootstrapping`
with fuel for no nested call sends the frontier request to peer 7 and
returns; the call of `sendBootstrappingMessagesOrFinish` on the fresh polls
returns whatever `startBootstrapping` would do. -/
theorem C30_witness :
    startBootstrapping testConfig 1 stateQ3 = some (stateQ4, none) ∧
    ∀ sb : Bootstrapper TestHost TestPoll (List Block) → Option (Res TestHost TestPoll (List Block)),
      (sendBootstrappingMessagesOrFinishWith testConfig sb
        { stateQ3 with
          minority := ⟨[7], [], []⟩
          majority := ⟨[7], [], []⟩
          requestID := 2 }).isSome = true :=
  ⟨(C30_fresh_polls_send_frontier testConfig stateQ3 [7] rfl rfl).2.1 (by decide) 0,
    fun sb => ((C30_fresh_polls_send_frontier testConfig stateQ3 [7] rfl rfl).2.2 rfl sb).2⟩

/-! ## Rounds of execution in the runs of the engine -/

theorem Counts.later {cfg : Config H P T} {R : Bootstrapper H P T → Bootstrapper H P T → Prop}
    (hC : Counts cfg R) {a b c : Bootstrapper H P T} (h2 : R b c) (h1 : R a b) : R a c :=
  hC.trans h1 h2

theorem markUnavailable_counted {cfg : Config H P T}
    {R : Bootstrapper H P T → Bootstrapper H P T → Prop}
    (hC : Counts cfg R) (b : Bootstrapper H P T) (nodeID : NodeID) :
    R b (markUnavailable cfg b nodeID) := by
  unfold markUnavailable
  dsimp only
  split <;> exact hC.quiet _ _ rfl

theorem fetch_counted {cfg : Config H P T} {R : Bootstrapper H P T → Bootstrapper H P T → Prop}
    (hC : Counts cfg R) (b : Bootstrapper H P T) (blkID : ID) :
    R b (fetch cfg b blkID).1 := by
  unfold fetch
  split
  · exact hC.refl _
  · split
    · exact hC.refl _
    · rename_i v _
      exact hC.trans (markUnavailable_counted hC b v) (hC.quiet _ _ rfl)

theorem onFinished_counted {cfg : Config H P T}
    {R : Bootstrapper H P T → Bootstrapper H P T → Prop}
    (hC : Counts cfg R) (b : Bootstrapper H P T) : R b (onFinished cfg b).1 := by
  unfold onFinished
  exact hC.quiet b _ rfl

theorem process_counted {cfg : Config H P T}
    {R : Bootstrapper H P T → Bootstrapper H P T → Prop}
    (hC : Counts cfg R) (b : Bootstrapper H P T) (blk : Block)
    (ancestors : Option (List (ID × Block))) :
    R b (process cfg b blk ancestors).1 := by
  unfold process
  split
  · exact hC.refl _
  · dsimp only
    split
    · exact hC.quiet _ _ rfl
    · split
      · exact hC.quiet _ _ rfl
      · split
        · exact hC.quiet _ _ rfl
        · exact hC.later (fetch_counted hC _ _) (hC.quiet b _ rfl)

theorem process_counted_eq {cfg : Config H P T}
    {R : Bootstrapper H P T → Bootstrapper H P T → Prop}
    (hC : Counts cfg R) {b b1 : Bootstrapper H P T} {blk : Block}
    {ancestors : Option (List (ID × Block))} {e : Option Err}
    (h : process cfg b blk ancestors = (b1, e)) : R b b1 := by
  have := process_counted hC b blk ancestors
  rw [h] at this
  exact this

theorem fetchMissing_counted {cfg : Config H P T}
    {R : Bootstrapper H P T → Bootstrapper H P T → Prop}
    (hC : Counts cfg R) (l : List ID) :
    ∀ (b : Bootstrapper H P T) (toProcess : List Block),
      R b (fetchMissing cfg l b toProcess).1 := by
  induction l with
  | nil => intro b tp; exact hC.refl _
  | cons blkID rest ih =>
    intro b tp
    unfold fetchMissing
    split
    · have hf := fetch_counted hC b blkID
      split
      · rename_i b1 e he
        rw [he] at hf
        exact hf
      · rename_i b1 he
        rw [he] at hf
        exact hC.trans hf (ih b1 tp)
    · exact ih _ _

theorem processAll_counted {cfg : Config H P T}
    {R : Bootstrapper H P T → Bootstrapper H P T → Prop}
    (hC : Counts cfg R) (l : List Block) :
    ∀ (b : Bootstrapper H P T), R b (processAll cfg l b).1 := by
  induction l with
  | nil => intro b; exact hC.refl _
  | cons blk rest ih =>
    intro b
    unfold processAll
    have hp := process_counted hC b blk none
    split
    · rename_i b1 e he
      rw [he] at hp
      exact hp
    · rename_i b1 he
      rw [he] at hp
      exact hC.trans hp (ih b1)

theorem restartBootstrappingWith_counted {cfg : Config H P T}
    {R : Bootstrapper H P T → Bootstrapper H P T → Prop}
    (hC : Counts cfg R) (sb : Bootstrapper H P T → Option (Res H P T)) (hsb : KeptCall R sb)
    (b : Bootstrapper H P T) : KeptOpt R b (restartBootstrappingWith sb b) := by
  unfold restartBootstrappingWith
  exact fun r hr => hC.later (hsb _ r hr) (hC.quiet b _ rfl)

theorem tryStartExecutingWith_counted {cfg : Config H P T}
    {R : Bootstrapper H P T → Bootstrapper H P T → Prop}
    (hC : Counts cfg R) (sb : Bootstrapper H P T → Option (Res H P T))
    (hsb : KeptCall R sb) (b : Bootstrapper H P T) :
    KeptOpt R b (tryStartExecutingWith cfg sb b) := by
  unfold tryStartExecutingWith
  split
  · exact keptOpt_of_kept (hC.refl _)
  · rename_i hm
    split
    · exact keptOpt_of_kept (hC.refl _)
    · rename_i hs
      split
      · exact keptOpt_of_kept (hC.refl _)
      · rename_i lastAcceptedHeight hl
        dsimp only
        split
        · exact keptOpt_of_kept (hC.quiet _ _ rfl)
        · rename_i he
          have hexec : Executes cfg b lastAcceptedHeight := by
            refine ⟨?_, ?_, ?_, hl, ?_, ?_⟩
            · exact List.length_eq_zero.1 (by simpa using hm)
            · intro h
              exact hs (by simp [h])
            · cases ha : b.awaitingTimeout with
              | false => rfl
              | true => exact absurd (by simp [ha]) hs
            · cases herr : (cfg.storageExecute b.host b.tree lastAcceptedHeight).err with
              | none => rfl
              | some code => exact absurd (by simp [herr]) he
            · cases hh : cfg.halted (cfg.storageExecute b.host b.tree lastAcceptedHeight).host with
              | false => rfl
              | true => exact absurd (by simp [hh]) he
          have hround : R b (executedState cfg b lastAcceptedHeight) :=
            hC.round b lastAcceptedHeight hexec
          split
          · exact fun r hr => hC.trans hround
              (restartBootstrappingWith_counted hC sb hsb _ r hr)
          · split
            · exact keptOpt_of_kept (hC.trans hround
                (hC.quiet _ _ (notifyBootstrapped_fields cfg _).1))
            · exact keptOpt_of_kept (hC.later (onFinished_counted hC _)
                (hC.trans hround (hC.quiet _ _ (notifyBootstrapped_fields cfg _).1)))

theorem startSyncingWith_counted {cfg : Config H P T}
    {R : Bootstrapper H P T → Bootstrapper H P T → Prop}
    (hC : Counts cfg R) (sb : Bootstrapper H P T → Option (Res H P T))
    (hsb : KeptCall R sb) (b : Bootstrapper H P T) (accepted : List ID) :
    KeptOpt R b (startSyncingWith cfg sb b accepted) := by
  unfold startSyncingWith
  dsimp only
  split
  · rename_i b1 tp e he
    have h1 := fetchMissing_counted hC (rangeOrder cfg (setAddAll b.missingBlockIDs accepted))
      { b with
        fetchFrom := cfg.preferredPeers b.host
        missingBlockIDs := setAddAll b.missingBlockIDs accepted } []
    rw [he] at h1
    exact keptOpt_of_kept (hC.later h1 (hC.quiet b _ rfl))
  · rename_i b1 tp he
    have h1 := fetchMissing_counted hC (rangeOrder cfg (setAddAll b.missingBlockIDs accepted))
      { b with
        fetchFrom := cfg.preferredPeers b.host
        missingBlockIDs := setAddAll b.missingBlockIDs accepted } []
    rw [he] at h1
    have h2 : R b b1 := hC.later h1 (hC.quiet b _ rfl)
    split
    · rename_i b2 e he2
      have h3 := processAll_counted hC tp { b1 with initiallyFetched := treeLen cfg b1.tree }
      rw [he2] at h3
      exact keptOpt_of_kept (hC.trans h2 (hC.later h3 (hC.quiet b1 _ rfl)))
    · rename_i b2 he2
      have h3 := processAll_counted hC tp { b1 with initiallyFetched := treeLen cfg b1.tree }
      rw [he2] at h3
      exact fun r hr => hC.later (tryStartExecutingWith_counted hC sb hsb b2 r hr)
        (hC.trans h2 (hC.later h3 (hC.quiet b1 _ rfl)))

theorem sendBootstrappingMessagesOrFinishWith_counted {cfg : Config H P T}
    {R : Bootstrapper H P T → Bootstrapper H P T → Prop}
    (hC : Counts cfg R) (sb : Bootstrapper H P T → Option (Res H P T))
    (hsb : KeptCall R sb) (b : Bootstrapper H P T) :
    KeptOpt R b (sendBootstrappingMessagesOrFinishWith cfg sb b) := by
  unfold sendBootstrappingMessagesOrFinishWith
  dsimp only
  split
  · exact keptOpt_of_kept (hC.quiet b _ rfl)
  · split
    · exact keptOpt_of_kept (hC.quiet b _ rfl)
    · split
      · exact keptOpt_of_kept (hC.quiet b _ rfl)
      · split
        · exact keptOpt_of_kept (hC.quiet b _ rfl)
        · split
          · exact fun r hr => hC.later (hsb _ r hr) (hC.quiet b _ rfl)
          · exact fun r hr => hC.later (startSyncingWith_counted hC sb hsb _ _ r hr)
              (hC.quiet b _ rfl)

theorem startBootstrapping_counted {cfg : Config H P T}
    {R : Bootstrapper H P T → Bootstrapper H P T → Prop}
    (hC : Counts cfg R) (fuel : Nat) : KeptCall R (startBootstrapping cfg fuel) := by
  induction fuel with
  | zero => intro b r h; simp [startBootstrapping] at h
  | succ fuel ih =>
    intro b
    unfold startBootstrapping
    dsimp only
    split
    · exact keptOpt_of_kept (hC.refl _)
    · split
      · exact fun r hr => hC.later (startSyncingWith_counted hC _ ih _ _ r hr)
          (hC.quiet b _ rfl)
      · exact fun r hr => hC.later (sendBootstrappingMessagesOrFinishWith_counted hC _ ih _ r hr)
          (hC.quiet b _ rfl)

theorem tryStartBootstrapping_counted {cfg : Config H P T}
    {R : Bootstrapper H P T → Bootstrapper H P T → Prop}
    (hC : Counts cfg R) (fuel : Nat) (b : Bootstrapper H P T) :
    KeptOpt R b (tryStartBootstrapping cfg fuel b) := by
  unfold tryStartBootstrapping
  split
  · exact keptOpt_of_kept (hC.refl _)
  · exact fun r hr => hC.later (startBootstrapping_counted hC fuel _ r hr)
      (hC.quiet b _ rfl)

theorem pollHandler_counted {cfg : Config H P T}
    {R : Bootstrapper H P T → Bootstrapper H P T → Prop}
    (hC : Counts cfg R) (fuel : Nat) (b : Bootstrapper H P T) :
    KeptOpt R b (sendBootstrappingMessagesOrFinish cfg fuel b) :=
  sendBootstrappingMessagesOrFinishWith_counted hC _ (startBootstrapping_counted hC fuel) b

theorem dispatch_counted {cfg : Config H P T}
    {R : Bootstrapper H P T → Bootstrapper H P T → Prop}
    (hC : Counts cfg R) (fuel : Nat) (b : Bootstrapper H P T) (c : Call) :
    KeptOpt R b (dispatch cfg fuel b c) := by
  intro r h
  cases c with
  | start startReqID =>
    unfold dispatch Start at h
    dsimp only at h
    split at h
    · cases h; exact hC.quiet _ _ rfl
    · split at h
      · cases h; exact hC.quiet _ _ rfl
      · split at h
        · cases h; exact hC.quiet _ _ rfl
        · split at h
          · cases h; exact hC.quiet _ _ rfl
          · exact hC.later (tryStartBootstrapping_counted hC fuel _ r h) (hC.quiet b _ rfl)
  | connected nodeID nodeVersion =>
    unfold dispatch Connected at h
    dsimp only at h
    split at h
    · cases h; exact hC.quiet _ _ rfl
    · split at h
      · cases h; exact hC.quiet _ _ rfl
      · refine hC.trans ?_ (tryStartBootstrapping_counted hC fuel _ r h)
        split <;> exact hC.quiet b _ rfl
  | disconnected nodeID =>
    simp only [dispatch, Option.some.injEq] at h
    subst h
    unfold Disconnected
    dsimp only
    split
    · exact hC.quiet _ _ rfl
    · split
      · exact hC.quiet _ _ rfl
      · exact hC.later (markUnavailable_counted hC _ nodeID) (hC.quiet b _ rfl)
  | acceptedFrontier nodeID requestID containerID =>
    unfold dispatch AcceptedFrontier at h
    dsimp only at h
    split at h
    · cases h; exact hC.refl _
    · split at h
      · cases h; exact hC.quiet _ _ rfl
      · exact hC.later (pollHandler_counted hC fuel _ r h) (hC.quiet b _ rfl)
  | getAcceptedFrontierFailed nodeID requestID =>
    unfold dispatch GetAcceptedFrontierFailed at h
    dsimp only at h
    split at h
    · cases h; exact hC.refl _
    · split at h
      · cases h; exact hC.quiet _ _ rfl
      · exact hC.later (pollHandler_counted hC fuel _ r h) (hC.quiet b _ rfl)
  | accepted nodeID requestID containerIDs =>
    unfold dispatch Accepted at h
    dsimp only at h
    split at h
    · cases h; exact hC.refl _
    · split at h
      · cases h; exact hC.quiet _ _ rfl
      · exact hC.later (pollHandler_counted hC fuel _ r h) (hC.quiet b _ rfl)
  | getAcceptedFailed nodeID requestID =>
    unfold dispatch GetAcceptedFailed at h
    dsimp only at h
    split at h
    · cases h; exact hC.refl _
    · split at h
      · cases h; exact hC.quiet _ _ rfl
      · exact hC.later (pollHandler_counted hC fuel _ r h) (hC.quiet b _ rfl)
  | ancestors nodeID requestID blks =>
    unfold dispatch Ancestors at h
    dsimp only at h
    split at h
    · cases h; exact hC.refl _
    · split at h
      · cases h
        exact hC.later (fetch_counted hC _ _)
          (hC.later (markUnavailable_counted hC _ nodeID) (hC.quiet b _ rfl))
      · split at h
        · cases h
        · split at h
          · cases h; exact hC.later (fetch_counted hC _ _) (hC.quiet b _ rfl)
          · cases h; exact hC.later (fetch_counted hC _ _) (hC.quiet b _ rfl)
          · split at h
            · cases h; exact hC.later (fetch_counted hC _ _) (hC.quiet b _ rfl)
            · split at h
              · rename_i b1 e he
                cases h
                exact hC.later (process_counted_eq hC he) (hC.quiet b _ rfl)
              · rename_i b1 he
                exact hC.later
                  (tryStartExecutingWith_counted hC _ (startBootstrapping_counted hC fuel)
                    b1 r h)
                  (hC.later (process_counted_eq hC he) (hC.quiet b _ rfl))
  | getAncestorsFailed nodeID requestID =>
    simp only [dispatch, Option.some.injEq] at h
    subst h
    unfold GetAncestorsFailed
    dsimp only
    split
    · exact hC.refl _
    · exact hC.later (fetch_counted hC _ _) (hC.quiet b _ rfl)
  | timeout =>
    unfold dispatch Timeout at h
    dsimp only at h
    split at h
    · cases h; exact hC.refl _
    · split at h
      · exact hC.later
          (restartBootstrappingWith_counted hC _ (startBootstrapping_counted hC fuel) _ r h)
          (hC.quiet b { b with awaitingTimeout := false } rfl)
      · cases h
        exact hC.later (onFinished_counted hC _) (hC.quiet b _ rfl)

theorem Steps_counted {cfg : Config H P T} {R : Bootstrapper H P T → Bootstrapper H P T → Prop}
    (hC : Counts cfg R) {allowed : Call → Prop} {b b' : Bootstrapper H P T}
    (h : Steps cfg allowed b b') : R b b' := by
  induction h with
  | refl => exact hC.refl _
  | call fuel c _ _ hd ih => exact hC.trans ih (dispatch_counted hC fuel _ c _ hd)
  | host host _ ih => exact hC.trans ih (hC.quiet _ _ rfl)

theorem counts_rounds (cfg : Config H P T) :
    Counts cfg (fun (b b' : Bootstrapper H P T) => ∃ rounds, Rounds cfg b rounds b') where
  refl := fun b => ⟨[], Rounds.quiet b b rfl⟩
  trans := fun ⟨_, h1⟩ ⟨_, h2⟩ => ⟨_, Rounds.append h1 h2⟩
  quiet := fun b b' h => ⟨[], Rounds.quiet b b' h⟩
  round := fun b lastAcceptedHeight h => ⟨_, Rounds.round b lastAcceptedHeight h⟩

theorem linked_append (rounds1 : List Round) :
    ∀ (first mid last : Nat) (rounds2 : List Round),
      Linked first rounds1 mid → Linked mid rounds2 last →
      Linked first (rounds1 ++ rounds2) last := by
  induction rounds1 with
  | nil =>
    intro first mid last rounds2 h1 h2
    have hmid : mid = first := h1
    rw [hmid] at h2
    exact h2
  | cons r rest ih =>
    intro first mid last rounds2 h1 h2
    exact ⟨h1.1, ih _ _ _ _ h1.2 h2⟩

theorem linked_split (rounds1 : List Round) :
    ∀ (first last : Nat) (rounds2 : List Round),
      Linked first (rounds1 ++ rounds2) last →
      ∃ mid, Linked first rounds1 mid ∧ Linked mid rounds2 last ∧
        (mid = first ∨ ∃ r ∈ rounds1, mid = r.numToExecute) := by
  induction rounds1 with
  | nil =>
    intro first last rounds2 h
    exact ⟨first, rfl, h, Or.inl rfl⟩
  | cons r rest ih =>
    intro first last rounds2 h
    obtain ⟨mid, h1, h2, h3⟩ := ih _ _ _ h.2
    refine ⟨mid, ⟨h.1, h1⟩, h2, Or.inr ?_⟩
    rcases h3 with h3 | ⟨x, hx, h3⟩
    · exact ⟨r, List.mem_cons_self _ _, h3⟩
    · exact ⟨x, List.mem_cons_of_mem _ hx, h3⟩

theorem linked_halvingRun (run : List Round) :
    ∀ (first last : Nat), Linked first run last → (∀ r ∈ run, r.restarts = true) →
      HalvingRun first (run.map (fun r => r.numToExecute)) := by
  induction run with
  | nil => intro _ _ _ _; trivial
  | cons r rest ih =>
    intro first last h hr
    refine ⟨?_, ih _ _ h.2 (fun x hx => hr x (List.mem_cons_of_mem _ hx))⟩
    have := hr r (List.mem_cons_self _ _)
    unfold Round.restarts at this
    rw [h.1] at this
    exact this

theorem linked_chain (run : List Round) :
    ∀ (first last : Nat), Linked first run last →
      List.Chain' (fun r1 r2 => r2.previouslyExecuted = r1.numToExecute) run := by
  induction run with
  | nil => intro _ _ _; exact List.chain'_nil
  | cons r rest ih =>
    intro first last h
    cases rest with
    | nil => exact List.chain'_singleton r
    | cons r2 rest2 =>
      exact List.chain'_cons.2 ⟨h.2.1, ih _ _ h.2⟩

theorem rounds_linked {cfg : Config H P T} {b b' : Bootstrapper H P T} {rounds : List Round}
    (h : Rounds cfg b rounds b') :
    Linked b.executedStateTransitions rounds b'.executedStateTransitions ∧
    ∀ r ∈ rounds, r.numToExecute < 2 ^ 64 := by
  induction h with
  | quiet b b' h => exact ⟨h, fun r hr => by cases hr⟩
  | round b lastAcceptedHeight _ =>
    refine ⟨⟨rfl, rfl⟩, fun r hr => ?_⟩
    simp only [List.mem_singleton] at hr
    subst hr
    exact Nat.mod_lt _ (by decide)
  | append _ _ ih1 ih2 =>
    refine ⟨linked_append _ _ _ _ _ ih1.1 ih2.1, fun r hr => ?_⟩
    rcases List.mem_append.1 hr with hr | hr
    · exact ih1.2 r hr
    · exact ih2.2 r hr

/-- C7.  Every run of the engine, by any calls of its entry points, has a
sequence of rounds: the calls of `tryStartExecuting` that execute the tree and
assign `executedStateTransitions`, each with the count it reads as the one of
the round before and its own count; nothing else in the engine changes the
counter.  In every such sequence, rounds that follow one another and all end
in a restart by the halving rule have positive counts, each below half of the
count before it, which is the count of the round before (for the first round
of a fresh engine: `math.MaxInt`), so there are fewer than 64 of them in a
row.  A round that satisfies the halving rule is one that `tryStartExecuting`
ends in `restartBootstrapping`, and a round that does not is one in which
`tryStartExecuting` returns without entering `startBootstrapping`. -/
theorem C7_halving_restarts_bounded (cfg : Config H P T) (allowed : Call → Prop)
    (b b' : Bootstrapper H P T) (hrun : Steps cfg allowed b b')
    (hb : b.executedStateTransitions < 2 ^ 64) :
    (∃ rounds, Rounds cfg b rounds b') ∧
    (∀ rounds pre run post, Rounds cfg b rounds b' → rounds = pre ++ run ++ post →
      (∀ r ∈ run, r.restarts = true) →
      run.length < 64 ∧
      (∀ r ∈ run, 0 < r.numToExecute ∧ r.numToExecute < r.previouslyExecuted / 2) ∧
      List.Chain' (fun r1 r2 => r2.previouslyExecuted = r1.numToExecute) run ∧
      (pre = [] → ∀ r, run.head? = some r →
        r.previouslyExecuted = b.executedStateTransitions ∧
        (b.executedStateTransitions = (New cfg b.host).executedStateTransitions →
          r.numToExecute < maxInt / 2))) ∧
    (∀ (fuel : Nat) (s : Bootstrapper H P T) (lastAcceptedHeight : Nat),
      Executes cfg s lastAcceptedHeight →
      Round.restarts ⟨s.executedStateTransitions, treeLen cfg s.tree⟩ = true →
      tryStartExecuting cfg fuel s =
        restartBootstrapping cfg fuel (executedState cfg s lastAcceptedHeight)) ∧
    (∀ (sb : Bootstrapper H P T → Option (Res H P T)) (s : Bootstrapper H P T)
        (lastAcceptedHeight : Nat),
      Executes cfg s lastAcceptedHeight →
      Round.restarts ⟨s.executedStateTransitions, treeLen cfg s.tree⟩ = false →
      tryStartExecutingWith cfg sb s = tryStartExecutingWith cfg (fun _ => none) s ∧
      (tryStartExecutingWith cfg sb s).isSome = true) := by
  refine ⟨Steps_counted (counts_rounds cfg) hrun, ?_, ?_, ?_⟩
  · intro rounds pre run post hrounds hsplit hrestart
    obtain ⟨hlinked, hbound⟩ := rounds_linked hrounds
    rw [hsplit] at hlinked
    obtain ⟨last1, hfront, _, _⟩ := linked_split (pre ++ run) _ _ post hlinked
    obtain ⟨mid, hpre, hmid, hfrom⟩ := linked_split pre _ _ run hfront
    have hmidlt : mid < 2 ^ 64 := by
      rcases hfrom with hfrom | ⟨r, hr, hfrom⟩
      · rw [hfrom]; exact hb
      · rw [hfrom]
        exact hbound r (by rw [hsplit]; simp [hr])
    have hhalving := linked_halvingRun run mid last1 hmid hrestart
    have hlen := halvingRun_length _ mid 64 (by omega) hmidlt hhalving
    rw [List.length_map] at hlen
    refine ⟨hlen, fun r hr => ?_, linked_chain run mid last1 hmid, fun hnil r hhead => ?_⟩
    · exact (halvingRestart_iff _ _).1 (hrestart r hr)
    · subst hnil
      have hmid0 : mid = b.executedStateTransitions := hpre
      cases run with
      | nil => cases hhead
      | cons r0 rest =>
        simp only [List.head?_cons, Option.some.injEq] at hhead
        subst hhead
        have hprev : r0.previouslyExecuted = b.executedStateTransitions := hmid.1.trans hmid0
        refine ⟨hprev, fun hfresh => ?_⟩
        have := ((halvingRestart_iff _ _).1 (hrestart r0 (List.mem_cons_self _ _))).2
        rw [hprev, hfresh] at this
        exact this
  · intro fuel s lastAcceptedHeight hexec hrestart
    exact tryStartExecutingWith_restart cfg _ s lastAcceptedHeight hexec.1 hexec.2.1 hexec.2.2.1
      hexec.2.2.2.1 hexec.2.2.2.2.1 hexec.2.2.2.2.2 hrestart
  · intro sb s lastAcceptedHeight hexec hrestart
    rw [tryStartExecutingWith_complete cfg sb s lastAcceptedHeight hexec.1 hexec.2.1 hexec.2.2.1
        hexec.2.2.2.1 hexec.2.2.2.2.1 hexec.2.2.2.2.2 hrestart _ rfl,
      tryStartExecutingWith_complete cfg (fun _ => none) s lastAcceptedHeight hexec.1 hexec.2.1
        hexec.2.2.1 hexec.2.2.2.1 hexec.2.2.2.2.1 hexec.2.2.2.2.2 hrestart _ rfl]
    refine ⟨rfl, ?_⟩
    split <;> rfl

/-- C7, witness.  On a node whose only peer is 7, `Start(0)` requests block 1
and the response of peer 7 is executed: the run from the fresh engine has a
sequence of rounds.  The first round of `stateD`, which executes one block
after `math.MaxInt`, satisfies the halving rule and ends in
`restartBootstrapping`. -/
theorem C7_witness :
    (∃ b', runCalls testConfig 2 (New testConfig hostC)
        [Call.start 0, Call.ancestors 7 1 [[1, 0, 1]]] = some b' ∧
      ∃ rounds, Rounds testConfig (New testConfig hostC) rounds b') ∧
    tryStartExecuting testConfig 1 stateD =
      restartBootstrapping testConfig 1 (executedState testConfig stateD 0) := by
  obtain ⟨b', hb'⟩ := Option.isSome_iff_exists.1
    (show (runCalls testConfig 2 (New testConfig hostC)
      [Call.start 0, Call.ancestors 7 1 [[1, 0, 1]]]).isSome = true by decide!)
  exact ⟨⟨b', hb',
      (C7_halving_restarts_bounded testConfig (fun _ => True) _ _
        (runCalls_steps testConfig 2 _ _ _ hb') (by decide)).1⟩,
    (C7_halving_restarts_bounded testConfig (fun _ => True) stateD stateD (Steps.refl _)
      (by decide)).2.2.1 1 stateD 0 ⟨rfl, by decide, rfl, rfl, rfl, rfl⟩ (by decide)⟩

end Lemmas

end Bootstrap

namespace Merkledb

theorem firstError_append_some {E : Type} (results : List (Option E)) (e : E)
    (rest : Option E) (h : firstError results = some e) :
    firstError (results ++ [rest]) = some e := by
  induction results with
  | nil => simp [firstError] at h
  | cons r results ih =>
    cases r with
    | none => exact ih h
    | some x => exact h

theorem firstError_append_none {E : Type} (results : List (Option E)) (rest : Option E)
    (h : firstError results = none) : firstError (results ++ [rest]) = rest := by
  induction results with
  | nil => cases rest <;> rfl
  | cons r results ih =>
    cases r with
    | none => exact ih h
    | some x => simp [firstError] at h

theorem flushLoop_spec {K V E S : Type} (onEviction : S → V → S × Option E)
    (l : List (K × V)) :
    ∀ (s : S) (evictions : List (V × Option E)) (errs : Errs E),
      errs.err = firstError (evictions.map (fun c => c.2)) →
      ((flushLoop onEviction l s evictions errs).2.1.map (fun c => c.1) =
        evictions.map (fun c => c.1) ++ l.map (fun kv => kv.2)) ∧
      (flushLoop onEviction l s evictions errs).2.2.err =
        firstError ((flushLoop onEviction l s evictions errs).2.1.map (fun c => c.2)) := by
  induction l with
  | nil => intro s evictions errs h; exact ⟨by simp [flushLoop], h⟩
  | cons kv rest ih =>
    intro s evictions errs h
    obtain ⟨k, val⟩ := kv
    unfold flushLoop
    dsimp only
    have hnext : (errs.add (onEviction s val).2).err =
        firstError ((evictions ++ [(val, (onEviction s val).2)]).map (fun c => c.2)) := by
      rw [List.map_append, List.map_singleton]
      unfold Errs.add
      cases herr : errs.err with
      | none =>
        dsimp only
        rw [firstError_append_none _ _ (by rw [← h, herr])]
      | some e =>
        dsimp only
        rw [firstError_append_some _ e _ (by rw [← h, herr]), herr]
    have := ih (onEviction s val).1 (evictions ++ [(val, (onEviction s val).2)])
      (errs.add (onEviction s val).2) hnext
    refine ⟨?_, this.2⟩
    rw [this.1]
    simp

/-- The parts of the behaviour of `Flush` that do not depend on the error:
`onEviction` is called once on every value the cache holds, from the least to
the most recently used, the cache is emptied whatever `onEviction` returns,
and the error returned is the first non-nil error of those calls, nil when
none failed. -/
theorem Flush_spec {K V E S : Type} (onEviction : S → V → S × Option E)
    (c : onEvictCache K V) (s : S) :
    (Flush onEviction c s).evictions.map (fun e => e.1) = c.lru.map (fun kv => kv.2) ∧
    (Flush onEviction c s).cache.lru = [] ∧ (Flush onEviction c s).cache.cache = [] ∧
    (Flush onEviction c s).err =
      firstError ((Flush onEviction c s).evictions.map (fun e => e.2)) := by
  have h := flushLoop_spec onEviction c.lru s [] ⟨none⟩ rfl
  exact ⟨by simpa using h.1, rfl, rfl, h.2⟩

/-- C25.  On a cache that holds the values 10 and 20, with an `onEviction`
that fails on both, `Flush` calls `onEviction` on 10 and then on 20 and empties
the cache, and it returns the error of the first call, not that of the last
one as its comment says. -/
theorem C25_flush_returns_first_error :
    Flush failingEviction cacheTwo 0 =
      { cache := { maxSize := 2, lru := [], cache := [] }
        state := 2
        evictions := [(10, some 10), (20, some 20)]
        err := some 10 } ∧
    lastError ((Flush failingEviction cacheTwo 0).evictions.map (fun e => e.2)) = some 20 := by
  decide

end Merkledb
